import Mathlib

/-!
# Model composition factory of marian-train

A shallow embedding of `src/models/model_factory.cpp` (the component factories,
the composite factories and `by_type`) together with the parts of the regex
library, `utils::split`, `std::stoi` and the options store that `by_type`
calls.  Strings of the source are `String`; where the source scans a string
(regex matching, splitting, digit conversion) the embedding works on its list
of characters.

`ABORT` ends construction, so every constructing function returns
`Except Error _`; `LOG_ONCE` only writes to the log and is left out.
-/

namespace Marian

/-! ## Data model -/

/-- Modelled from the spec: the enumeration `usage` is declared outside the
given sources; section 3 of the specification lists its values.  The factory
only ever compares a usage with `usage::training`. -/
inductive usage where
  | training
  | scoring
  | translation
  deriving DecidableEq, Repr

/-- Modelled from the spec: a dynamically typed option value (string,
integer, float, list of integers, boolean); a usage stored with
`("usage", use)` keeps its own tag. -/
inductive Value where
  | str (s : String)
  | int (n : Int)
  | float (x : Rat)
  | ints (v : List Int)
  | bool (b : Bool)
  | use (u : usage)
  deriving DecidableEq

/-- The ways construction ends without a model: the five `ABORT`s of
`model_factory.cpp`, and the failures of the library calls it makes (a typed
read of an option that is absent or of another type, `dimVocabs[0]` on an
empty vector, `std::stoi` on a string without a number). -/
inductive Error where
  | UnknownEncoderType
  | UnknownDecoderType
  | UnknownClassifierType
  | UnknownModelSubtype (subtype : String)
  | UnknownModelType (type : String)
  | RequiredOption (key : String)
  | OutOfRange
  | InvalidArgument
  deriving DecidableEq

/-- Modelled from the spec: the options store (`Options`, declared outside the
given sources) is an ordered mapping from string keys to values.  An entry
nearer the front shadows later entries with the same key. -/
structure Options where
  entries : List (String × Value)
  deriving DecidableEq

/-- Number of bits of `size_t`. -/
def size_t_bits : Nat := 64

/-- First value stored under a key in a list of entries. -/
def findEntry (key : String) : List (String × Value) → Option Value
  | [] => none
  | (k, v) :: rest => if k = key then some v else findEntry key rest

/-- Modelled from the spec: look a key up; the first entry with the key counts. -/
def Options.find (o : Options) (key : String) : Option Value :=
  findEntry key o.entries

/-- Modelled from the spec: existence check `options->has(key)`. -/
def Options.has (o : Options) (key : String) : Bool :=
  (o.find key).isSome

/-- Modelled from the spec: `set(key, value)` inserts the key, shadowing an
earlier value. -/
def Options.set (o : Options) (key : String) (v : Value) : Options :=
  ⟨(key, v) :: o.entries⟩

/-- Modelled from the spec: `merge(other)` adds the keys of `other` that are
not yet set; keys already present keep their value. -/
def Options.merge (o other : Options) : Options :=
  ⟨o.entries ++ other.entries⟩

/-- Modelled from the spec: typed accessor `get<std::string>(key)`. -/
def Options.get_string (o : Options) (key : String) : Except Error String :=
  match o.find key with
  | some (.str s) => .ok s
  | _ => .error (.RequiredOption key)

/-- Modelled from the spec: typed accessor `get<size_t>(key)`; the value has to
be representable in `size_t`. -/
def Options.get_size_t (o : Options) (key : String) : Except Error Nat :=
  match o.find key with
  | some (.int n) => if 0 ≤ n ∧ n < 2 ^ size_t_bits then .ok n.toNat else .error (.RequiredOption key)
  | _ => .error (.RequiredOption key)

/-- Modelled from the spec: typed accessor `get<std::vector<int>>(key)`. -/
def Options.get_ints (o : Options) (key : String) : Except Error (List Int) :=
  match o.find key with
  | some (.ints v) => .ok v
  | _ => .error (.RequiredOption key)

/-- Compile-time switches of `model_factory.cpp` (`#ifdef CUDNN`,
`#ifdef COMPILE_EXAMPLES`). -/
structure Build where
  CUDNN : Bool
  COMPILE_EXAMPLES : Bool
  deriving DecidableEq

/-- The encoders `EncoderFactory::construct` can create, each holding the
options it was created with. -/
inductive EncoderBase where
  | EncoderS2S (options : Options)
  | CharS2SEncoder (options : Options)
  | EncoderTransformer (options : Options)
  | BertEncoder (options : Options)
  deriving DecidableEq

/-- The decoders `DecoderFactory::construct` can create. -/
inductive DecoderBase where
  | DecoderS2S (options : Options)
  | DecoderTransformer (options : Options)
  deriving DecidableEq

/-- The classifiers `ClassifierFactory::construct` can create. -/
inductive ClassifierBase where
  | BertMaskedLM (options : Options)
  | BertClassifier (options : Options)
  deriving DecidableEq

/-- A sub-model pushed into a composite, tagged with its role. -/
inductive SubModel where
  | encoder (e : EncoderBase)
  | decoder (d : DecoderBase)
  | classifier (c : ClassifierBase)
  deriving DecidableEq

/-- Class of the object behind `Ptr<EncoderDecoder>`. -/
inductive EncoderDecoderKind where
  | Amun
  | Nematus
  | EncoderDecoder
  deriving DecidableEq

/-- Class of the object behind `Ptr<EncoderClassifier>`. -/
inductive EncoderClassifierKind where
  | BertEncoderClassifier
  | EncoderClassifier
  deriving DecidableEq

/-- An encoder-decoder composite: its class, its options and the sub-models in
the order of the `push_back` calls. -/
structure EncoderDecoder where
  kind : EncoderDecoderKind
  options : Options
  subs : List SubModel
  deriving DecidableEq

/-- An encoder-classifier composite. -/
structure EncoderClassifier where
  kind : EncoderClassifierKind
  options : Options
  subs : List SubModel
  deriving DecidableEq

/-- Modelled from the spec: `encdec->push_back(submodel)` appends the sub-model
to the composite's sequence. -/
def EncoderDecoder.push_back (m : EncoderDecoder) (s : SubModel) : EncoderDecoder :=
  { m with subs := m.subs ++ [s] }

/-- Modelled from the spec: `enccls->push_back(submodel)`. -/
def EncoderClassifier.push_back (m : EncoderClassifier) (s : SubModel) : EncoderClassifier :=
  { m with subs := m.subs ++ [s] }

/-- The two composites `add_cost` is called on. -/
inductive Composite where
  | encdec (m : EncoderDecoder)
  | enccls (m : EncoderClassifier)
  deriving DecidableEq

/-- The two MNIST example networks. -/
inductive MnistKind where
  | MnistFeedForwardNet
  | MnistLeNet
  deriving DecidableEq

/-- The cost functions of the MNIST examples. -/
inductive MnistCost where
  | MNISTLogsoftmax
  | MNISTCrossEntropyCost
  deriving DecidableEq

/-- The models `by_type` returns.  `add_cost` (declared in `models/costs.h`,
outside the given sources) is kept as a constructor holding the composite and
the options it is called with; `MultiModel` holds its members in the order of
the `push_back` calls. -/
inductive ModelBase where
  | add_cost (m : Composite) (options : Options)
  | MultiModel (members : List ModelBase)
  | Mnist (kind : MnistKind) (options : Options)
  | Scorer (model : ModelBase) (cost : MnistCost)
  | Trainer (model : ModelBase) (cost : MnistCost)

/-! ## Factories -/

/-- Run a fallible construction over a list, left to right, stopping at the
first failure. -/
def constructAll {α β : Type} (f : α → Except Error β) : List α → Except Error (List β)
  | [] => .ok []
  | a :: as =>
    match f a with
    | .error e => .error e
    | .ok b =>
      match constructAll f as with
      | .error e => .error e
      | .ok bs => .ok (b :: bs)

/-- Factory of one encoder: the options accumulated so far. -/
structure EncoderFactory where
  options : Options
  deriving DecidableEq

/-- Factory of one decoder. -/
structure DecoderFactory where
  options : Options
  deriving DecidableEq

/-- Factory of one classifier. -/
structure ClassifierFactory where
  options : Options
  deriving DecidableEq

/-- The call `models::encoder()`: a factory with empty options. -/
def encoder : EncoderFactory := ⟨⟨[]⟩⟩

/-- The call `models::decoder()`. -/
def decoder : DecoderFactory := ⟨⟨[]⟩⟩

/-- The call `models::classifier()`. -/
def classifier : ClassifierFactory := ⟨⟨[]⟩⟩

/-- Modelled from the spec: `factory(key, value)` sets one option of the
factory (the accumulator is declared in `models/model_factory.h`). -/
def EncoderFactory.set (f : EncoderFactory) (key : String) (v : Value) : EncoderFactory :=
  ⟨f.options.set key v⟩

/-- Modelled from the spec: `factory(options)` merges the given options under
the options the factory already has. -/
def EncoderFactory.apply (f : EncoderFactory) (options : Options) : EncoderFactory :=
  ⟨f.options.merge options⟩

/-- Modelled from the spec: `factory(key, value)` for a decoder factory. -/
def DecoderFactory.set (f : DecoderFactory) (key : String) (v : Value) : DecoderFactory :=
  ⟨f.options.set key v⟩

/-- Modelled from the spec: `factory(options)` for a decoder factory. -/
def DecoderFactory.apply (f : DecoderFactory) (options : Options) : DecoderFactory :=
  ⟨f.options.merge options⟩

/-- Modelled from the spec: `factory(key, value)` for a classifier factory. -/
def ClassifierFactory.set (f : ClassifierFactory) (key : String) (v : Value) :
    ClassifierFactory :=
  ⟨f.options.set key v⟩

/-- Modelled from the spec: `factory(options)` for a classifier factory. -/
def ClassifierFactory.apply (f : ClassifierFactory) (options : Options) : ClassifierFactory :=
  ⟨f.options.merge options⟩

/-- `EncoderFactory::construct` (lines 32-48). -/
def EncoderFactory.construct (build : Build) (f : EncoderFactory) : Except Error EncoderBase :=
  match f.options.get_string "type" with
  | .error e => .error e
  | .ok type =>
    if type = "s2s" then .ok (.EncoderS2S f.options)
    else if build.CUDNN = true ∧ type = "char-s2s" then .ok (.CharS2SEncoder f.options)
    else if type = "transformer" then .ok (.EncoderTransformer f.options)
    else if type = "bert-encoder" then .ok (.BertEncoder f.options)
    else .error .UnknownEncoderType

/-- `DecoderFactory::construct` (lines 50-56). -/
def DecoderFactory.construct (f : DecoderFactory) : Except Error DecoderBase :=
  match f.options.get_string "type" with
  | .error e => .error e
  | .ok type =>
    if type = "s2s" then .ok (.DecoderS2S f.options)
    else if type = "transformer" then .ok (.DecoderTransformer f.options)
    else .error .UnknownDecoderType

/-- `ClassifierFactory::construct` (lines 58-64). -/
def ClassifierFactory.construct (f : ClassifierFactory) : Except Error ClassifierBase :=
  match f.options.get_string "type" with
  | .error e => .error e
  | .ok type =>
    if type = "bert-masked-lm" then .ok (.BertMaskedLM f.options)
    else if type = "bert-classifier" then .ok (.BertClassifier f.options)
    else .error .UnknownClassifierType

/-- Factory of an encoder-decoder composite: its options and the encoder and
decoder factories pushed so far (`encoders_`, `decoders_`). -/
structure EncoderDecoderFactory where
  options : Options
  encoders : List EncoderFactory
  decoders : List DecoderFactory
  deriving DecidableEq

/-- Factory of an encoder-classifier composite. -/
structure EncoderClassifierFactory where
  options : Options
  encoders : List EncoderFactory
  classifiers : List ClassifierFactory
  deriving DecidableEq

/-- The call `models::encoder_decoder()`. -/
def encoder_decoder : EncoderDecoderFactory := ⟨⟨[]⟩, [], []⟩

/-- The call `models::encoder_classifier()`. -/
def encoder_classifier : EncoderClassifierFactory := ⟨⟨[]⟩, [], []⟩

/-- Modelled from the spec: `factory(key, value)` for an encoder-decoder factory. -/
def EncoderDecoderFactory.set (f : EncoderDecoderFactory) (key : String) (v : Value) :
    EncoderDecoderFactory :=
  { f with options := f.options.set key v }

/-- Modelled from the spec: `factory(options)` for an encoder-decoder factory. -/
def EncoderDecoderFactory.apply (f : EncoderDecoderFactory) (options : Options) :
    EncoderDecoderFactory :=
  { f with options := f.options.merge options }

/-- Modelled from the spec: `push_back` of an encoder factory appends it to
`encoders_`. -/
def EncoderDecoderFactory.push_back_encoder (f : EncoderDecoderFactory) (e : EncoderFactory) :
    EncoderDecoderFactory :=
  { f with encoders := f.encoders ++ [e] }

/-- Modelled from the spec: `push_back` of a decoder factory appends it to
`decoders_`. -/
def EncoderDecoderFactory.push_back_decoder (f : EncoderDecoderFactory) (d : DecoderFactory) :
    EncoderDecoderFactory :=
  { f with decoders := f.decoders ++ [d] }

/-- Modelled from the spec: `factory(key, value)` for an encoder-classifier factory. -/
def EncoderClassifierFactory.set (f : EncoderClassifierFactory) (key : String) (v : Value) :
    EncoderClassifierFactory :=
  { f with options := f.options.set key v }

/-- Modelled from the spec: `factory(options)` for an encoder-classifier factory. -/
def EncoderClassifierFactory.apply (f : EncoderClassifierFactory) (options : Options) :
    EncoderClassifierFactory :=
  { f with options := f.options.merge options }

/-- Modelled from the spec: `push_back` of an encoder factory. -/
def EncoderClassifierFactory.push_back_encoder (f : EncoderClassifierFactory)
    (e : EncoderFactory) : EncoderClassifierFactory :=
  { f with encoders := f.encoders ++ [e] }

/-- Modelled from the spec: `push_back` of a classifier factory. -/
def EncoderClassifierFactory.push_back_classifier (f : EncoderClassifierFactory)
    (c : ClassifierFactory) : EncoderClassifierFactory :=
  { f with classifiers := f.classifiers ++ [c] }

/-- `EncoderDecoderFactory::construct` (lines 66-84): choose the class from the
option `type`, push the constructed encoders, then the constructed decoders,
and wrap the composite with `add_cost`.  A failing sub-model construction ends
the whole construction, so the sub-models are constructed first and pushed
afterwards. -/
def EncoderDecoderFactory.construct (build : Build) (f : EncoderDecoderFactory) :
    Except Error ModelBase :=
  match f.options.get_string "type" with
  | .error e => .error e
  | .ok type =>
    let kind : EncoderDecoderKind :=
      if type = "nematus" then .Nematus else if type = "amun" then .Amun else .EncoderDecoder
    match constructAll (fun ef => (ef.apply f.options).construct build) f.encoders with
    | .error e => .error e
    | .ok encs =>
      match constructAll (fun df => (df.apply f.options).construct) f.decoders with
      | .error e => .error e
      | .ok decs =>
        let encdec : EncoderDecoder := ⟨kind, f.options, []⟩
        let encdec := encs.foldl (fun m e => m.push_back (.encoder e)) encdec
        let encdec := decs.foldl (fun m d => m.push_back (.decoder d)) encdec
        .ok (.add_cost (.encdec encdec) f.options)

/-- `EncoderClassifierFactory::construct` (lines 86-103). -/
def EncoderClassifierFactory.construct (build : Build) (f : EncoderClassifierFactory) :
    Except Error ModelBase :=
  match f.options.get_string "type" with
  | .error e => .error e
  | .ok type =>
    let kind : EncoderClassifierKind :=
      if type = "bert" then .BertEncoderClassifier
      else if type = "bert-classifier" then .BertEncoderClassifier
      else .EncoderClassifier
    match constructAll (fun ef => (ef.apply f.options).construct build) f.encoders with
    | .error e => .error e
    | .ok encs =>
      match constructAll (fun cf => (cf.apply f.options).construct) f.classifiers with
      | .error e => .error e
      | .ok clss =>
        let enccls : EncoderClassifier := ⟨kind, f.options, []⟩
        let enccls := encs.foldl (fun m e => m.push_back (.encoder e)) enccls
        let enccls := clss.foldl (fun m c => m.push_back (.classifier c)) enccls
        .ok (.add_cost (.enccls enccls) f.options)

/-! ## Library calls of `by_type`: regular expressions, `split`, `stoi` -/

/-- The regular expressions `by_type` uses: the empty word, one character,
`\d`, concatenation, `|`, greedy `?`, greedy `+`, and a capture group with its
number. -/
inductive Regex where
  | eps
  | chr (c : Char)
  | digit
  | seq (a b : Regex)
  | alt (a b : Regex)
  | opt (a : Regex)
  | plus (a : Regex)
  | group (i : Nat) (a : Regex)

/-- State of the backtracking matcher: the input still to read and the
captures made so far, the most recent first. -/
abbrev MatchState := List Char × List (Nat × List Char)

/-- Greedy repetition: after one round of `step` try further rounds before
stopping; a round that read nothing is not repeated.  The fuel bounds the
number of rounds. -/
def iterate (step : MatchState → List MatchState) : Nat → MatchState → List MatchState
  | 0, _ => []
  | fuel + 1, st =>
    (step st).flatMap fun st' =>
      (if st'.1.length < st.1.length then iterate step fuel st' else []) ++ [st']

/-- All ways a regular expression matches a prefix of the input, in the order
a backtracking matcher tries them. -/
def Regex.run : Regex → MatchState → List MatchState
  | .eps, st => [st]
  | .chr c, (s, k) =>
    match s with
    | x :: xs => if x = c then [(xs, k)] else []
    | [] => []
  | .digit, (s, k) =>
    match s with
    | x :: xs => if x.isDigit = true then [(xs, k)] else []
    | [] => []
  | .seq a b, st => (a.run st).flatMap b.run
  | .alt a b, st => a.run st ++ b.run st
  | .opt a, st => a.run st ++ [st]
  | .plus a, st => iterate a.run (st.1.length + 1) st
  | .group i a, st =>
    (a.run st).map fun st' => (st'.1, (i, st.1.take (st.1.length - st'.1.length)) :: st'.2)

/-- The regular expression of a literal word. -/
def Regex.lit (w : String) : Regex :=
  w.data.foldr (fun c r => .seq (.chr c) r) .eps

/-- Result of a match with captures (`regex::smatch`): the captures, none when
the match failed. -/
abbrev smatch := List (Nat × List Char)

/-- The text of capture `i` (`match[i].str()`), empty when the group took no
part in the match. -/
def smatch.str (m : smatch) (i : Nat) : List Char :=
  match m.find? (fun c => c.1 = i) with
  | some c => c.2
  | none => []

/-- `regex::regex_match(s, rx)`: the whole string matches. -/
def regex_match (s : List Char) (rx : Regex) : Bool :=
  (rx.run (s, [])).any fun st => st.1.isEmpty

/-- `regex::regex_match(s, match, rx)`: the captures of the first way the whole
string matches. -/
def regex_match_captures (s : List Char) (rx : Regex) : smatch :=
  match (rx.run (s, [])).find? (fun st => st.1.isEmpty) with
  | some st => st.2
  | none => []

/-- The pattern `transformer(\d\d)?(-(bert|gpt)(\d?))+` of line 303. -/
def transformerRegex : Regex :=
  .seq (.lit "transformer")
    (.seq (.opt (.group 1 (.seq .digit .digit)))
      (.plus (.group 2 (.seq (.chr '-')
        (.seq (.group 3 (.alt (.lit "bert") (.lit "gpt"))) (.group 4 (.opt .digit)))))))

/-- The pattern `smtransformer(-(bert|gpt)(\d?))+` of line 382. -/
def smtransformerRegex : Regex :=
  .seq (.lit "smtransformer")
    (.plus (.group 1 (.seq (.chr '-')
      (.seq (.group 2 (.alt (.lit "bert") (.lit "gpt"))) (.group 3 (.opt .digit))))))

/-- The pattern `(transformer)(\d)?(\d)?` of line 311. -/
def headRegex : Regex :=
  .seq (.group 1 (.lit "transformer")) (.seq (.opt (.group 2 .digit)) (.opt (.group 3 .digit)))

/-- The pattern `(bert|gpt)(\d)?` of lines 341 and 410. -/
def partRegex : Regex :=
  .seq (.group 1 (.alt (.lit "bert") (.lit "gpt"))) (.opt (.group 2 .digit))

/-- `utils::split(s, del)` for a one-character delimiter: the pieces between
the delimiters, in order. -/
def split (del : Char) : List Char → List (List Char)
  | [] => [[]]
  | c :: cs =>
    if c = del then [] :: split del cs
    else
      match split del cs with
      | [] => [[c]]
      | p :: ps => (c :: p) :: ps

/-- `std::stoi` on a string that starts with decimal digits: the number they
spell; no leading digit is `std::invalid_argument`, a number beyond `INT_MAX`
is `std::out_of_range`. -/
def stoi (s : List Char) : Except Error Nat :=
  match s.takeWhile Char.isDigit with
  | [] => .error .InvalidArgument
  | d :: ds =>
    let n := (d :: ds).foldl (fun n c => 10 * n + (c.toNat - 48)) 0
    if n < 2 ^ 31 then .ok n else .error .OutOfRange

/-- `std::vector::resize(n)` on a vector of `int`: cut to `n` entries or pad
with zeros. -/
def resize (v : List Int) (n : Nat) : List Int :=
  v.take n ++ List.replicate (n - v.length) 0

/-- `std::fill(v.begin(), v.end(), x)`. -/
def fill (v : List Int) (x : Int) : List Int :=
  v.map fun _ => x

/-! ## `by_type` -/

/-- Lines 108-115: the recipe of `s2s`, `amun` and `nematus`. -/
def by_type_s2s (build : Build) (type : String) (use : usage) (options : Options) :
    Except Error ModelBase :=
  encoder_decoder.apply options
    |>.set "usage" (.use use)
    |>.set "original-type" (.str type)
    |>.push_back_encoder (encoder |>.set "type" (.str "s2s"))
    |>.push_back_decoder (decoder |>.set "type" (.str "s2s"))
    |>.construct build

/-- Lines 117-123: the recipe of `transformer`. -/
def by_type_transformer (build : Build) (use : usage) (options : Options) :
    Except Error ModelBase :=
  encoder_decoder.apply options
    |>.set "usage" (.use use)
    |>.push_back_encoder (encoder |>.set "type" (.str "transformer"))
    |>.push_back_decoder (decoder |>.set "type" (.str "transformer"))
    |>.construct build

/-- Lines 125-132: the recipe of `transformer_s2s`. -/
def by_type_transformer_s2s (build : Build) (type : String) (use : usage) (options : Options) :
    Except Error ModelBase :=
  encoder_decoder.apply options
    |>.set "usage" (.use use)
    |>.set "original-type" (.str type)
    |>.push_back_encoder (encoder |>.set "type" (.str "transformer"))
    |>.push_back_decoder (decoder |>.set "type" (.str "s2s"))
    |>.construct build

/-- Lines 134-149 and 217-232: the recipe of `lm` (`subtype` is `s2s`) and of
`lm-transformer` (`subtype` is `transformer`).  `idx` is a `size_t`, so
`idx + 1` is computed modulo `2 ^ size_t_bits`. -/
def by_type_lm (build : Build) (subtype : String) (type : String) (use : usage)
    (options : Options) : Except Error ModelBase :=
  match (if options.has "index" = true then options.get_size_t "index" else .ok 0) with
  | .error e => .error e
  | .ok idx =>
    match options.get_ints "dim-vocabs" with
    | .error e => .error e
    | .ok dimVocabs =>
      match dimVocabs with
      | [] => .error .OutOfRange
      | vocab :: _ =>
        let dimVocabs := resize dimVocabs ((idx + 1) % 2 ^ size_t_bits)
        let dimVocabs := fill dimVocabs vocab
        encoder_decoder.apply options
          |>.set "usage" (.use use)
          |>.set "type" (.str subtype)
          |>.set "original-type" (.str type)
          |>.push_back_decoder (decoder
              |>.set "index" (.int idx)
              |>.set "dim-vocabs" (.ints dimVocabs))
          |>.construct build

/-- Lines 151-215: the recipe of `multi-s2s`, `shared-multi-s2s`
(`subtype` is `s2s`), `multi-transformer` and `shared-multi-transformer`
(`subtype` is `transformer`); `shared` tells whether the encoders share the
parameter name `encoder` or are numbered `encoder1`, `encoder2`. -/
def by_type_multi (build : Build) (subtype : String) (shared : Bool) (type : String)
    (use : usage) (options : Options) : Except Error ModelBase :=
  let numEncoders : Nat := 2
  let factory := encoder_decoder.apply options
    |>.set "usage" (.use use)
    |>.set "type" (.str subtype)
    |>.set "original-type" (.str type)
  let factory := (List.range numEncoders).foldl (fun (fac : EncoderDecoderFactory) i =>
    let pfx := if shared = true then "encoder" else "encoder" ++ toString (i + 1)
    fac.push_back_encoder (encoder |>.set "prefix" (.str pfx) |>.set "index" (.int i))) factory
  let factory := factory.push_back_decoder (decoder |>.set "index" (.int numEncoders))
  factory.construct build

/-- Lines 234-250: the recipe of `bert`. -/
def by_type_bert (build : Build) (use : usage) (options : Options) : Except Error ModelBase :=
  encoder_classifier.apply options
    |>.set "original-type" (.str "bert")
    |>.set "usage" (.use use)
    |>.push_back_encoder (encoder
        |>.set "type" (.str "bert-encoder")
        |>.set "index" (.int 0))
    |>.push_back_classifier (classifier
        |>.set "prefix" (.str "masked-lm")
        |>.set "type" (.str "bert-masked-lm")
        |>.set "index" (.int 0))
    |>.push_back_classifier (classifier
        |>.set "prefix" (.str "next-sentence")
        |>.set "type" (.str "bert-classifier")
        |>.set "index" (.int 1))
    |>.construct build

/-- Lines 252-263: the recipe of `bert-classifier`. -/
def by_type_bert_classifier (build : Build) (use : usage) (options : Options) :
    Except Error ModelBase :=
  encoder_classifier.apply options
    |>.set "original-type" (.str "bert-classifier")
    |>.set "usage" (.use use)
    |>.push_back_encoder (encoder
        |>.set "type" (.str "bert-encoder")
        |>.set "index" (.int 0))
    |>.push_back_classifier (classifier
        |>.set "type" (.str "bert-classifier")
        |>.set "index" (.int 1))
    |>.construct build

/-- Lines 265-297: the recipe of `bert-gpt`. -/
def by_type_bert_gpt (build : Build) (use : usage) (options : Options) :
    Except Error ModelBase :=
  match (encoder_decoder.apply options
      |>.set "usage" (.use use)
      |>.set "index" (.int 1)
      |>.set "type" (.str "transformer")
      |>.set "original-type" (.str "bert-gpt")
      |>.push_back_decoder (decoder |>.set "prefix" (.str "decoder"))
      |>.construct build) with
  | .error e => .error e
  | .ok gpt =>
    if use ≠ usage.training then .ok gpt
    else
      match (encoder_classifier.apply options
          |>.set "type" (.str "bert")
          |>.set "original-type" (.str "bert-gpt")
          |>.set "index" (.int 0)
          |>.set "usage" (.use use)
          |>.push_back_encoder (encoder
              |>.set "type" (.str "bert-encoder")
              |>.set "prefix" (.str "encoder"))
          |>.push_back_classifier (classifier
              |>.set "prefix" (.str "masked-lm")
              |>.set "type" (.str "bert-masked-lm"))
          |>.construct build) with
      | .error e => .error e
      | .ok bert => .ok (.MultiModel [bert, gpt])

/-- The body of the loops of lines 339-376 and 408-443, which differ only in
the first default stream `base` (2 and 3): parse part `i`, and build the BERT
or GPT head it names. -/
def by_type_auxiliary (build : Build) (base : Nat) (type : String) (use : usage)
    (options : Options) (i : Nat) (part : List Char) : Except Error ModelBase :=
  let m := regex_match_captures part partRegex
  let subtype := m.str 1
  let stream := m.str 2
  match (if stream.isEmpty = true then .ok (base + i - 1) else stoi stream) with
  | .error e => .error e
  | .ok streamNo =>
    if subtype = "bert".data then
      encoder_classifier.apply options
        |>.set "type" (.str "bert")
        |>.set "original-type" (.str type)
        |>.set "index" (.int streamNo)
        |>.set "usage" (.use use)
        |>.push_back_encoder (encoder
            |>.set "type" (.str "bert-encoder")
            |>.set "prefix" (.str "encoder"))
        |>.push_back_classifier (classifier
            |>.set "prefix" (.str "masked-lm")
            |>.set "type" (.str "bert-masked-lm")
            |>.set "label-smoothing" (.int 0))
        |>.construct build
    else if subtype = "gpt".data then
      encoder_decoder.apply options
        |>.set "type" (.str "transformer")
        |>.set "original-type" (.str type)
        |>.set "index" (.int streamNo)
        |>.set "usage" (.use use)
        |>.push_back_decoder (decoder |>.set "prefix" (.str "decoder"))
        |>.construct build
    else .error (.UnknownModelSubtype (String.mk subtype))

/-- The loop `for(int i = 1; i < parts.size(); ++i)`: the heads of the parts
from index `i` on, in order; the first failure ends construction. -/
def by_type_heads (body : Nat → List Char → Except Error ModelBase) :
    Nat → List (List Char) → Except Error (List ModelBase)
  | _, [] => .ok []
  | i, part :: rest =>
    match body i part with
    | .error e => .error e
    | .ok head =>
      match by_type_heads body (i + 1) rest with
      | .error e => .error e
      | .ok heads => .ok (head :: heads)

/-- Lines 304-378: the branch taken when the transformer pattern matches. -/
def by_type_transformer_composite (build : Build) (type : String) (use : usage)
    (options : Options) : Except Error ModelBase :=
  let parts := split '-' type.data
  let m := regex_match_captures (parts.headD []) headRegex
  let streamEnc := m.str 2
  let streamDec := m.str 3
  match (if streamEnc.isEmpty = true then .ok 0 else stoi streamEnc) with
  | .error e => .error e
  | .ok encoderStream =>
    match (if streamDec.isEmpty = true then .ok 1 else stoi streamDec) with
    | .error e => .error e
    | .ok decoderStream =>
      match (encoder_decoder.apply options
          |>.set "usage" (.use use)
          |>.set "original-type" (.str type)
          |>.push_back_encoder (encoder
              |>.set "type" (.str "transformer")
              |>.set "prefix" (.str "encoder")
              |>.set "index" (.int encoderStream))
          |>.push_back_decoder (decoder
              |>.set "type" (.str "transformer")
              |>.set "prefix" (.str "decoder")
              |>.set "index" (.int decoderStream))
          |>.construct build) with
      | .error e => .error e
      | .ok transformer =>
        if use ≠ usage.training then .ok transformer
        else
          match by_type_heads (by_type_auxiliary build 2 type use options) 1 parts.tail with
          | .error e => .error e
          | .ok heads => .ok (.MultiModel (transformer :: heads))

/-- Lines 383-445: the branch taken when the smtransformer pattern matches. -/
def by_type_smtransformer (build : Build) (type : String) (use : usage)
    (options : Options) : Except Error ModelBase :=
  match (encoder_decoder.apply options
      |>.set "usage" (.use use)
      |>.set "original-type" (.str type)
      |>.push_back_encoder (encoder
          |>.set "type" (.str "transformer")
          |>.set "prefix" (.str "encoder")
          |>.set "index" (.int 0))
      |>.push_back_encoder (encoder
          |>.set "type" (.str "transformer")
          |>.set "prefix" (.str "encoder")
          |>.set "index" (.int 1))
      |>.push_back_decoder (decoder
          |>.set "type" (.str "transformer")
          |>.set "prefix" (.str "decoder")
          |>.set "index" (.int 2))
      |>.construct build) with
  | .error e => .error e
  | .ok transformer =>
    if use ≠ usage.training then .ok transformer
    else
      let parts := split '-' type.data
      match by_type_heads (by_type_auxiliary build 3 type use options) 1 parts.tail with
      | .error e => .error e
      | .ok heads => .ok (.MultiModel (transformer :: heads))

/-- Lines 449-457 and 462-470: the recipe of the MNIST examples. -/
def by_type_mnist (kind : MnistKind) (use : usage) (options : Options) : ModelBase :=
  let mnist := ModelBase.Mnist kind options
  if use = usage.scoring then .Scorer mnist .MNISTLogsoftmax
  else if use = usage.training then .Trainer mnist .MNISTCrossEntropyCost
  else mnist

/-- Lines 472-479: the recipe of `char-s2s`. -/
def by_type_char_s2s (build : Build) (type : String) (use : usage) (options : Options) :
    Except Error ModelBase :=
  encoder_decoder.apply options
    |>.set "usage" (.use use)
    |>.set "original-type" (.str type)
    |>.push_back_encoder (encoder |>.set "type" (.str "char-s2s"))
    |>.push_back_decoder (decoder |>.set "type" (.str "s2s"))
    |>.construct build

/-- Lines 299-483 of `by_type`: what follows the literal base types up to
`bert-gpt`.  `type` is already the rewritten token. -/
def by_type_patterns (build : Build) (type : String) (use : usage) (options : Options) :
    Except Error ModelBase :=
  if regex_match type.data transformerRegex = true then
    by_type_transformer_composite build type use options
  else if regex_match type.data smtransformerRegex = true then
    by_type_smtransformer build type use options
  else if build.COMPILE_EXAMPLES = true ∧ type = "mnist-ffnn" then
    .ok (by_type_mnist .MnistFeedForwardNet use options)
  else if build.CUDNN = true ∧ build.COMPILE_EXAMPLES = true ∧ type = "mnist-lenet" then
    .ok (by_type_mnist .MnistLeNet use options)
  else if build.CUDNN = true ∧ type = "char-s2s" then
    by_type_char_s2s build type use options
  else .error (.UnknownModelType type)

/-- The function `by_type` (lines 105-484): the chain of tests on the model
type, in the order of the source. -/
def by_type (build : Build) (type : String) (use : usage) (options : Options) :
    Except Error ModelBase :=
  if type = "s2s" ∨ type = "amun" ∨ type = "nematus" then by_type_s2s build type use options
  else if type = "transformer" then by_type_transformer build use options
  else if type = "transformer_s2s" then by_type_transformer_s2s build type use options
  else if type = "lm" then by_type_lm build "s2s" type use options
  else if type = "multi-s2s" then by_type_multi build "s2s" false type use options
  else if type = "shared-multi-s2s" then by_type_multi build "s2s" true type use options
  else if type = "multi-transformer" then by_type_multi build "transformer" false type use options
  else if type = "shared-multi-transformer" then
    by_type_multi build "transformer" true type use options
  else if type = "lm-transformer" then by_type_lm build "transformer" type use options
  else if type = "bert" then by_type_bert build use options
  else if type = "bert-classifier" then by_type_bert_classifier build use options
  else if type = "bert-gpt" then by_type_bert_gpt build use options
  else
    let type := if type = "transformer-bert-gpt" then "transformer12-bert0" else type
    by_type_patterns build type use options

/-- `from_options` (lines 486-489). -/
def from_options (build : Build) (options : Options) (use : usage) : Except Error ModelBase :=
  match options.get_string "type" with
  | .error e => .error e
  | .ok type => by_type build type use options

/-! ## Gradient clippers (`src/clippers.h`)

The source computes in `float`.  The embedding computes in an ordered field
`K`, so every statement about it holds in exact real arithmetic (`K = ℝ`) and
can be evaluated in the rationals.  `clip` changes its tensor in place; here
it returns the changed tensor. -/

/-- Modelled from the spec: a tensor (declared outside the given sources) is
the sequence of its elements. -/
abbrev Tensor (K : Type) := List K

/-- Modelled from the spec: `Element(_1 = f(_1), t)` (declared in
`tensor_operators.h`, outside the given sources) replaces every element of
`t` by `f` of it. -/
def Element {K : Type} (f : K → K) (t : Tensor K) : Tensor K :=
  t.map f

/-- Modelled from the spec: `Clip(x, c)` (a functor declared outside the given
sources) clamps `x` to the interval `[-c, c]`. -/
def Clip {K : Type} [LinearOrderedField K] (x c : K) : K :=
  max (-c) (min c x)

/-- The class `Elementwise` (lines 20-30): its threshold `c_`, 10 by default. -/
structure Elementwise (K : Type) [LinearOrderedField K] where
  c_ : K := 10

/-- `Elementwise::clip` (lines 24-26). -/
def Elementwise.clip {K : Type} [LinearOrderedField K] (self : Elementwise K)
    (t : Tensor K) : Tensor K :=
  Element (fun x => Clip x self.c_) t

/-- The class `Norm` (lines 32-44): its threshold `c_`, 1 by default. -/
structure Norm (K : Type) [LinearOrderedField K] where
  c_ : K := 1

/-- `Norm::clip` (lines 36-40).  `L2Norm` is declared in `tensor_operators.h`,
outside the given sources, and is a parameter here. -/
def Norm.clip {K : Type} [LinearOrderedField K] (L2Norm : Tensor K → K) (self : Norm K)
    (t : Tensor K) : Tensor K :=
  let l2Norm := L2Norm t
  if l2Norm ≥ self.c_ then Element (fun x => (self.c_ / l2Norm) * x) t
  else t

/-! ## Reading a constructed model -/

/-- The role of a sub-model in a composite. -/
inductive Role where
  | encoder
  | decoder
  | classifier
  deriving DecidableEq, Repr

/-- The concrete class of a sub-model. -/
inductive SubModelClass where
  | EncoderS2S
  | CharS2SEncoder
  | EncoderTransformer
  | BertEncoder
  | DecoderS2S
  | DecoderTransformer
  | BertMaskedLM
  | BertClassifier
  deriving DecidableEq, Repr

/-- The role of a sub-model. -/
def SubModel.role : SubModel → Role
  | .encoder _ => .encoder
  | .decoder _ => .decoder
  | .classifier _ => .classifier

/-- The class of a sub-model. -/
def SubModel.cls : SubModel → SubModelClass
  | .encoder (.EncoderS2S _) => .EncoderS2S
  | .encoder (.CharS2SEncoder _) => .CharS2SEncoder
  | .encoder (.EncoderTransformer _) => .EncoderTransformer
  | .encoder (.BertEncoder _) => .BertEncoder
  | .decoder (.DecoderS2S _) => .DecoderS2S
  | .decoder (.DecoderTransformer _) => .DecoderTransformer
  | .classifier (.BertMaskedLM _) => .BertMaskedLM
  | .classifier (.BertClassifier _) => .BertClassifier

/-- The options a sub-model was created with. -/
def SubModel.options : SubModel → Options
  | .encoder (.EncoderS2S o) => o
  | .encoder (.CharS2SEncoder o) => o
  | .encoder (.EncoderTransformer o) => o
  | .encoder (.BertEncoder o) => o
  | .decoder (.DecoderS2S o) => o
  | .decoder (.DecoderTransformer o) => o
  | .classifier (.BertMaskedLM o) => o
  | .classifier (.BertClassifier o) => o

/-- The data stream a sub-model reads: its option `index`. -/
def SubModel.stream (s : SubModel) : Option Value :=
  s.options.find "index"

/-- The sub-models of a single composite, in order; a model that is not a
single composite has none. -/
def ModelBase.subs : ModelBase → List SubModel
  | .add_cost (.encdec m) _ => m.subs
  | .add_cost (.enccls m) _ => m.subs
  | _ => []

/-- The outer form of a model. -/
inductive Shape where
  | EncoderDecoder
  | EncoderClassifier
  | MultiModel
  | Other
  deriving DecidableEq, Repr

/-- The outer form of a model: one encoder-decoder composite, one
encoder-classifier composite, a `MultiModel`, or something else. -/
def ModelBase.shape : ModelBase → Shape
  | .add_cost (.encdec _) _ => .EncoderDecoder
  | .add_cost (.enccls _) _ => .EncoderClassifier
  | .MultiModel _ => .MultiModel
  | _ => .Other

/-- The members of a `MultiModel`, in order. -/
def ModelBase.members : ModelBase → List ModelBase
  | .MultiModel ms => ms
  | _ => []

/-- The class and the stream of every sub-model of a composite, in order. -/
def ModelBase.layout (m : ModelBase) : List (SubModelClass × Option Value) :=
  m.subs.map fun s => (s.cls, s.stream)

/-! ## Vocabulary of the statements

The words a pattern denotes, descriptor tokens built from their fields, and
the layouts the claims expect of a constructed model. -/

/-- The words a regular expression denotes. -/
def Regex.Matches : Regex → List Char → Prop
  | .eps, w => w = []
  | .chr c, w => w = [c]
  | .digit, w => ∃ c, c.isDigit = true ∧ w = [c]
  | .seq a b, w => ∃ u v, a.Matches u ∧ b.Matches v ∧ w = u ++ v
  | .alt a b, w => a.Matches w ∨ b.Matches w
  | .opt a, w => a.Matches w ∨ w = []
  | .plus a, w => ∃ ws : List (List Char), ws ≠ [] ∧ (∀ u ∈ ws, a.Matches u) ∧ w = ws.flatten
  | .group _ a, w => a.Matches w

/-- The two kinds of auxiliary head a descriptor can name. -/
inductive HeadKind where
  | bert
  | gpt
  deriving DecidableEq, Repr

/-- The form of the head of a kind: a BERT head is an encoder-classifier, a
GPT head an encoder-decoder. -/
def HeadKind.shape : HeadKind → Shape
  | .bert => .EncoderClassifier
  | .gpt => .EncoderDecoder

/-- The name of a head kind as it is written in a descriptor. -/
def HeadKind.name : HeadKind → String
  | .bert => "bert"
  | .gpt => "gpt"

/-- The character of a decimal digit. -/
def digitChar (d : Fin 10) : Char := Char.ofNat (48 + d.val)

/-- One auxiliary segment of a descriptor: the head kind and the stream digit,
when one is written. -/
structure Segment where
  kind : HeadKind
  digit : Option (Fin 10)
  deriving DecidableEq

/-- The text of a segment after its hyphen, for example `bert0` or `gpt`. -/
def Segment.part (s : Segment) : List Char :=
  s.kind.name.data ++ (match s.digit with
    | none => []
    | some d => [digitChar d])

/-- The text of a segment, hyphen included. -/
def Segment.text (s : Segment) : List Char := '-' :: s.part

/-- The digits written after the base name: none, or the encoder and the
decoder stream. -/
def streamChars : Option (Fin 10 × Fin 10) → List Char
  | none => []
  | some (a, b) => [digitChar a, digitChar b]

/-- The descriptor token with the given base name, stream digits and
segments. -/
def descriptor (base : String) (streams : Option (Fin 10 × Fin 10)) (segs : List Segment) :
    String :=
  String.mk (base.data ++ streamChars streams ++ segs.flatMap Segment.text)

/-- The repeated group of both composite patterns, with its group numbers. -/
def segmentRegex (i j k : Nat) : Regex :=
  .group i (.seq (.chr '-')
    (.seq (.group j (.alt (.lit "bert") (.lit "gpt"))) (.group k (.opt .digit))))

/-- The text of an optional digit. -/
def digitText : Option (Fin 10) → List Char
  | none => []
  | some d => [digitChar d]

/-- The stream of a segment at 0-based position `k` of the segment list: its
digit, or `base + k` when it has none. -/
def Segment.stream (base k : Nat) (s : Segment) : Nat :=
  match s.digit with
  | some d => d.val
  | none => base + k

/-- The sub-model classes and streams of an auxiliary head: a BERT head is a
BERT encoder with a masked-LM classifier, a GPT head is one transformer
decoder, each reading the head's stream. -/
def headLayout (kind : HeadKind) (stream : Nat) : List (SubModelClass × Option Value) :=
  match kind with
  | .bert => [(.BertEncoder, some (.int stream)), (.BertMaskedLM, some (.int stream))]
  | .gpt => [(.DecoderTransformer, some (.int stream))]

/-- The class and stream of every head of a segment list, the first segment
being at 0-based position `k`. -/
def headLayouts (base k : Nat) (segs : List Segment) : List (List (SubModelClass × Option Value)) :=
  (segs.enumFrom k).map fun p => headLayout p.2.kind (p.2.stream base p.1)

/-- The base types `by_type` tests before the composite patterns. -/
def coreBases : List String :=
  ["s2s", "amun", "nematus", "transformer", "transformer_s2s", "lm", "multi-s2s",
   "shared-multi-s2s", "multi-transformer", "shared-multi-transformer", "lm-transformer",
   "bert", "bert-classifier", "bert-gpt"]

/-- The alias rewrite of lines 299-301. -/
def rewriteAlias (type : String) : String :=
  if type = "transformer-bert-gpt" then "transformer12-bert0" else type

/-- The encoder stream a descriptor's digits give: the first digit, or 0. -/
def encoderStreamOf (streams : Option (Fin 10 × Fin 10)) : Nat :=
  match streams with
  | some (a, _) => a.val
  | none => 0

/-- The decoder stream a descriptor's digits give: the second digit, or 1. -/
def decoderStreamOf (streams : Option (Fin 10 × Fin 10)) : Nat :=
  match streams with
  | some (_, b) => b.val
  | none => 1

/-- The parameter-name option of a sub-model (its option `prefix`). -/
def SubModel.pfx (s : SubModel) : Option Value :=
  s.options.find "prefix"

/-- The literal base types of a build: the base types tested before the
patterns, and those of the optional ones that the build compiles in. -/
def literalBases (build : Build) : List String :=
  coreBases
    ++ (if build.COMPILE_EXAMPLES = true then ["mnist-ffnn"] else [])
    ++ (if build.CUDNN = true ∧ build.COMPILE_EXAMPLES = true then ["mnist-lenet"] else [])
    ++ (if build.CUDNN = true then ["char-s2s"] else [])

/-- The token `transformer<d><segments>` with exactly one stream digit. -/
def oneDigitDescriptor (d : Fin 10) (segs : List Segment) : String :=
  String.mk ("transformer".data ++ digitChar d :: segs.flatMap Segment.text)

/-- A result of `by_type` that is one encoder-decoder made of two encoders of
class `enc` on streams 0 and 1, named `pfx1` and `pfx2`, and then one decoder
of class `dec` on stream 2. -/
def isTwoEncoderModel (r : Except Error ModelBase) (enc dec : SubModelClass)
    (pfx1 pfx2 : String) : Prop :=
  ∃ m, r = .ok m ∧
    m.shape = .EncoderDecoder ∧
    m.subs.map SubModel.role = [.encoder, .encoder, .decoder] ∧
    m.layout = [(enc, some (.int 0)), (enc, some (.int 1)), (dec, some (.int 2))] ∧
    (m.subs.take 2).map SubModel.pfx = [some (.str pfx1), some (.str pfx2)]

/-- A result of `by_type` that is one encoder-decoder without encoder and with
exactly one decoder, of class `dec`, on stream `idx`, whose option
`dim-vocabs` is the list `vocabs`. -/
def isDecoderOnlyModel (r : Except Error ModelBase) (dec : SubModelClass) (idx : Nat)
    (vocabs : List Int) : Prop :=
  ∃ m, r = .ok m ∧
    m.shape = .EncoderDecoder ∧
    m.subs.map SubModel.role = [.decoder] ∧
    m.layout = [(dec, some (.int idx))] ∧
    m.subs.map (fun s => s.options.find "dim-vocabs") = [some (.ints vocabs)]

/-- The role of the sub-models of a class. -/
def SubModelClass.role : SubModelClass → Role
  | .EncoderS2S => .encoder
  | .CharS2SEncoder => .encoder
  | .EncoderTransformer => .encoder
  | .BertEncoder => .encoder
  | .DecoderS2S => .decoder
  | .DecoderTransformer => .decoder
  | .BertMaskedLM => .classifier
  | .BertClassifier => .classifier

/-- The `type` values `EncoderFactory::construct` recognises in a build, each
with the class it names. -/
def encoderTypes (build : Build) : List (String × SubModelClass) :=
  [("s2s", .EncoderS2S), ("transformer", .EncoderTransformer), ("bert-encoder", .BertEncoder)]
    ++ (if build.CUDNN = true then [("char-s2s", .CharS2SEncoder)] else [])

/-- The `type` values `DecoderFactory::construct` recognises, each with the
class it names. -/
def decoderTypes : List (String × SubModelClass) :=
  [("s2s", .DecoderS2S), ("transformer", .DecoderTransformer)]

/-- The `type` values `ClassifierFactory::construct` recognises, each with the
class it names. -/
def classifierTypes : List (String × SubModelClass) :=
  [("bert-masked-lm", .BertMaskedLM), ("bert-classifier", .BertClassifier)]

/-- The sum of the squares of the elements of a tensor. -/
def sumSquares {K : Type} [LinearOrderedField K] (t : Tensor K) : K :=
  (t.map fun x => x ^ 2).sum

/-- Modelled from the spec: `L2Norm` computes the L2 norm of a tensor, the
non-negative number whose square is the sum of the squares of the elements. -/
def IsL2Norm {K : Type} [LinearOrderedField K] (L2Norm : Tensor K → K) : Prop :=
  ∀ t, 0 ≤ L2Norm t ∧ L2Norm t ^ 2 = sumSquares t

/-- The factory after a sequence of `push_back` calls, each with an encoder
factory (left) or a decoder factory (right), in any interleaving. -/
def EncoderDecoderFactory.push_all (f : EncoderDecoderFactory)
    (pushes : List (EncoderFactory ⊕ DecoderFactory)) : EncoderDecoderFactory :=
  pushes.foldl (fun g p =>
    match p with
    | .inl e => g.push_back_encoder e
    | .inr d => g.push_back_decoder d) f

/-- The factory after a sequence of `push_back` calls, each with an encoder
factory (left) or a classifier factory (right), in any interleaving. -/
def EncoderClassifierFactory.push_all (f : EncoderClassifierFactory)
    (pushes : List (EncoderFactory ⊕ ClassifierFactory)) : EncoderClassifierFactory :=
  pushes.foldl (fun g p =>
    match p with
    | .inl e => g.push_back_encoder e
    | .inr c => g.push_back_classifier c) f

/-- The left entries of a list of pushes, in order. -/
def lefts {α β : Type} (pushes : List (α ⊕ β)) : List α :=
  pushes.filterMap Sum.getLeft?

/-- The right entries of a list of pushes, in order. -/
def rights {α β : Type} (pushes : List (α ⊕ β)) : List β :=
  pushes.filterMap Sum.getRight?

/-- A construction that does not end in the `ABORT` "Unknown model subtype"
of lines 374 and 441. -/
def NoSubtypeAbort {α : Type} (r : Except Error α) : Prop :=
  ∀ subtype, r ≠ .error (.UnknownModelSubtype subtype)

/-- The test of one branch of `by_type`: equality with one of some literal
base types, compiled in or not, or a full match of a pattern. -/
inductive Guard where
  | literal (names : List String) (enabled : Bool)
  | pattern (rx : Regex)

/-- Whether a token passes the test of a branch. -/
def Guard.holds (g : Guard) (type : String) : Bool :=
  match g with
  | .literal names enabled => enabled && decide (type ∈ names)
  | .pattern rx => regex_match type.data rx

/-- The branches of `by_type` for a token (after the alias rewrite), in the
order of the source: the test of each branch and what the branch returns. -/
def branches (build : Build) (type : String) (use : usage) (options : Options) :
    List (Guard × Except Error ModelBase) :=
  [(.literal ["s2s", "amun", "nematus"] true, by_type_s2s build type use options),
   (.literal ["transformer"] true, by_type_transformer build use options),
   (.literal ["transformer_s2s"] true, by_type_transformer_s2s build type use options),
   (.literal ["lm"] true, by_type_lm build "s2s" type use options),
   (.literal ["multi-s2s"] true, by_type_multi build "s2s" false type use options),
   (.literal ["shared-multi-s2s"] true, by_type_multi build "s2s" true type use options),
   (.literal ["multi-transformer"] true,
      by_type_multi build "transformer" false type use options),
   (.literal ["shared-multi-transformer"] true,
      by_type_multi build "transformer" true type use options),
   (.literal ["lm-transformer"] true, by_type_lm build "transformer" type use options),
   (.literal ["bert"] true, by_type_bert build use options),
   (.literal ["bert-classifier"] true, by_type_bert_classifier build use options),
   (.literal ["bert-gpt"] true, by_type_bert_gpt build use options),
   (.pattern transformerRegex, by_type_transformer_composite build type use options),
   (.pattern smtransformerRegex, by_type_smtransformer build type use options),
   (.literal ["mnist-ffnn"] build.COMPILE_EXAMPLES,
      .ok (by_type_mnist .MnistFeedForwardNet use options)),
   (.literal ["mnist-lenet"] (build.CUDNN && build.COMPILE_EXAMPLES),
      .ok (by_type_mnist .MnistLeNet use options)),
   (.literal ["char-s2s"] build.CUDNN, by_type_char_s2s build type use options)]

/-- Test the branches in the order of the list and return what the first
branch whose test the token passes returns, or `d` when there is none. -/
def dispatch {α : Type} (type : String) (d : α) : List (Guard × α) → α
  | [] => d
  | (g, a) :: rest => if g.holds type = true then a else dispatch type d rest

/-- The character every word of a pattern starts with, when the shape of the
pattern fixes one. -/
def Regex.first : Regex → Option Char
  | .eps => none
  | .chr c => some c
  | .digit => none
  | .seq a _ => a.first
  | .alt a b => if a.first = b.first then a.first else none
  | .opt _ => none
  | .plus a => a.first
  | .group _ a => a.first

/-- A check, on the tests alone, that no token passes both: two lists of
literals share no name, no literal of a list matches the pattern, two
patterns start with different characters. -/
def Guard.separate (g h : Guard) : Bool :=
  match g, h with
  | .literal names _, .literal names' _ => names.all fun x => !names'.contains x
  | .literal names _, .pattern rx => names.all fun x => !regex_match x.data rx
  | .pattern rx, .literal names _ => names.all fun x => !regex_match x.data rx
  | .pattern rx, .pattern rx' =>
    match rx.first, rx'.first with
    | some c, some c' => c != c'
    | _, _ => false

/-! ## Theorems -/

/-! ### The matcher accepts exactly the words of the pattern -/

/-- Every result of the repetition read a non-empty sequence of words of the
repeated pattern. -/
theorem iterate_sound (step : MatchState → List MatchState) (P : List Char → Prop)
    (hstep : ∀ st st', st' ∈ step st → ∃ w, P w ∧ st.1 = w ++ st'.1) :
    ∀ fuel st st', st' ∈ iterate step fuel st →
      ∃ ws : List (List Char), ws ≠ [] ∧ (∀ u ∈ ws, P u) ∧ st.1 = ws.flatten ++ st'.1 := by
  intro fuel
  induction fuel with
  | zero => intro st st' h; simp [iterate] at h
  | succ n ih =>
    intro st st' h
    simp only [iterate, List.mem_flatMap, List.mem_append, List.mem_singleton] at h
    obtain ⟨mid, hmid, h⟩ := h
    obtain ⟨w, hw, hst⟩ := hstep st mid hmid
    rcases h with h | h
    · split at h
      · obtain ⟨ws, _, hall, hws⟩ := ih mid st' h
        refine ⟨w :: ws, by simp, ?_, ?_⟩
        · intro u hu
          rcases List.mem_cons.mp hu with rfl | hu
          · exact hw
          · exact hall u hu
        · simp [hst, hws]
      · simp at h
    · subst h
      exact ⟨[w], by simp, by simpa using hw, by simp [hst]⟩

/-- Every result of the matcher read a word the pattern denotes. -/
theorem Regex.run_sound (r : Regex) :
    ∀ st st', st' ∈ r.run st → ∃ w, r.Matches w ∧ st.1 = w ++ st'.1 := by
  induction r with
  | eps => intro st st' h; simp [Regex.run] at h; subst h; exact ⟨[], rfl, rfl⟩
  | chr c =>
    rintro ⟨s, k⟩ st' h
    cases s with
    | nil => simp [Regex.run] at h
    | cons x xs =>
      simp only [Regex.run] at h
      split at h
      · simp at h; subst h; subst x; exact ⟨[c], rfl, rfl⟩
      · simp at h
  | digit =>
    rintro ⟨s, k⟩ st' h
    cases s with
    | nil => simp [Regex.run] at h
    | cons x xs =>
      simp only [Regex.run] at h
      split at h
      · rename_i hx; simp at h; subst h; exact ⟨[x], ⟨x, hx, rfl⟩, rfl⟩
      · simp at h
  | seq a b iha ihb =>
    intro st st' h
    simp only [Regex.run, List.mem_flatMap] at h
    obtain ⟨mid, h1, h2⟩ := h
    obtain ⟨u, hu, e1⟩ := iha st mid h1
    obtain ⟨v, hv, e2⟩ := ihb mid st' h2
    exact ⟨u ++ v, ⟨u, v, hu, hv, rfl⟩, by simp [e1, e2]⟩
  | alt a b iha ihb =>
    intro st st' h
    simp only [Regex.run, List.mem_append] at h
    rcases h with h | h
    · obtain ⟨w, hw, e⟩ := iha st st' h; exact ⟨w, Or.inl hw, e⟩
    · obtain ⟨w, hw, e⟩ := ihb st st' h; exact ⟨w, Or.inr hw, e⟩
  | opt a iha =>
    intro st st' h
    simp only [Regex.run, List.mem_append, List.mem_singleton] at h
    rcases h with h | h
    · obtain ⟨w, hw, e⟩ := iha st st' h; exact ⟨w, Or.inl hw, e⟩
    · subst h; exact ⟨[], Or.inr rfl, rfl⟩
  | plus a iha =>
    intro st st' h
    simp only [Regex.run] at h
    obtain ⟨ws, hne, hall, e⟩ := iterate_sound a.run a.Matches iha _ st st' h
    exact ⟨ws.flatten, ⟨ws, hne, hall, rfl⟩, e⟩
  | group i a iha =>
    intro st st' h
    simp only [Regex.run, List.mem_map] at h
    obtain ⟨mid, h1, rfl⟩ := h
    obtain ⟨w, hw, e⟩ := iha st mid h1
    exact ⟨w, hw, e⟩

/-- The repetition reads every non-empty sequence of words of the repeated
pattern, given fuel beyond the length of the input. -/
theorem iterate_complete (step : MatchState → List MatchState) (P : List Char → Prop)
    (hstep : ∀ w, P w → ∀ s k, ∃ k', (s, k') ∈ step (w ++ s, k)) :
    ∀ ws : List (List Char), ws ≠ [] → (∀ u ∈ ws, P u) → ∀ fuel s k,
      (ws.flatten ++ s).length < fuel → ∃ k', (s, k') ∈ iterate step fuel (ws.flatten ++ s, k) := by
  intro ws
  induction ws with
  | nil => intro h; exact absurd rfl h
  | cons u ws ih =>
    intro _ hall fuel s k hfuel
    have hu : P u := hall u (List.mem_cons_self _ _)
    have hrest : ∀ v ∈ ws, P v := fun v hv => hall v (List.mem_cons_of_mem _ hv)
    cases fuel with
    | zero => simp at hfuel
    | succ n =>
      by_cases hws : ws = []
      · subst hws
        obtain ⟨k', hk'⟩ := hstep u hu s k
        refine ⟨k', ?_⟩
        simp only [iterate, List.mem_flatMap, List.mem_append, List.mem_singleton]
        exact ⟨(s, k'), by simpa using hk', Or.inr rfl⟩
      · by_cases hue : u = []
        · subst hue
          have := ih hws hrest (n + 1) s k (by simpa using hfuel)
          simpa using this
        · obtain ⟨k1, hk1⟩ := hstep u hu (ws.flatten ++ s) k
          have hlen : (ws.flatten ++ s).length < (u ++ (ws.flatten ++ s)).length := by
            have : 0 < u.length := List.length_pos.mpr hue
            simp only [List.length_append] at *
            omega
          have hfuel' : (ws.flatten ++ s).length < n := by
            simp only [List.flatten_cons, List.append_assoc] at hfuel
            omega
          obtain ⟨k', hk'⟩ := ih hws hrest n s k1 hfuel'
          refine ⟨k', ?_⟩
          simp only [iterate, List.mem_flatMap, List.mem_append, List.mem_singleton,
            List.flatten_cons, List.append_assoc]
          refine ⟨(ws.flatten ++ s, k1), hk1, Or.inl ?_⟩
          rw [if_pos hlen]
          exact hk'

/-- The matcher reads every word the pattern denotes, whatever follows it. -/
theorem Regex.run_complete (r : Regex) :
    ∀ w, r.Matches w → ∀ s k, ∃ k', (s, k') ∈ r.run (w ++ s, k) := by
  induction r with
  | eps => intro w h s k; simp [Regex.Matches] at h; subst h; exact ⟨k, by simp [Regex.run]⟩
  | chr c => intro w h s k; simp [Regex.Matches] at h; subst h; exact ⟨k, by simp [Regex.run]⟩
  | digit =>
    intro w h s k
    obtain ⟨c, hc, rfl⟩ := h
    exact ⟨k, by simp [Regex.run, hc]⟩
  | seq a b iha ihb =>
    intro w h s k
    obtain ⟨u, v, hu, hv, rfl⟩ := h
    obtain ⟨k1, h1⟩ := iha u hu (v ++ s) k
    obtain ⟨k2, h2⟩ := ihb v hv s k1
    refine ⟨k2, ?_⟩
    simp only [Regex.run, List.mem_flatMap, List.append_assoc]
    exact ⟨_, h1, h2⟩
  | alt a b iha ihb =>
    intro w h s k
    rcases h with h | h
    · obtain ⟨k', h'⟩ := iha w h s k; exact ⟨k', by simp [Regex.run, h']⟩
    · obtain ⟨k', h'⟩ := ihb w h s k; exact ⟨k', by simp [Regex.run, h']⟩
  | opt a iha =>
    intro w h s k
    rcases h with h | h
    · obtain ⟨k', h'⟩ := iha w h s k; exact ⟨k', by simp [Regex.run, h']⟩
    · subst h; exact ⟨k, by simp [Regex.run]⟩
  | plus a iha =>
    intro w h s k
    obtain ⟨ws, hne, hall, rfl⟩ := h
    simp only [Regex.run]
    exact iterate_complete a.run a.Matches iha ws hne hall _ s k (Nat.lt_succ_self _)
  | group i a iha =>
    intro w h s k
    obtain ⟨k', h'⟩ := iha w h s k
    exact ⟨_, by simp only [Regex.run, List.mem_map]; exact ⟨_, h', rfl⟩⟩

/-- The matcher accepts exactly the words the regular expression denotes. -/
theorem regex_match_iff (s : List Char) (rx : Regex) :
    regex_match s rx = true ↔ rx.Matches s := by
  constructor
  · intro h
    simp only [regex_match, List.any_eq_true] at h
    obtain ⟨st, hst, he⟩ := h
    obtain ⟨w, hw, e⟩ := rx.run_sound _ _ hst
    have : st.1 = [] := by simpa using he
    simp [this] at e
    rw [e]; exact hw
  · intro h
    obtain ⟨k', hk'⟩ := rx.run_complete s h [] []
    simp only [regex_match, List.any_eq_true]
    exact ⟨([], k'), by simpa using hk', rfl⟩

/-! ### The patterns of `by_type` and the descriptors -/

/-- The characters `\d` matches are the ten decimal digits. -/
theorem isDigit_iff (c : Char) : c.isDigit = true ↔ ∃ d : Fin 10, c = digitChar d := by
  constructor
  · intro h
    simp only [Char.isDigit, Bool.and_eq_true, decide_eq_true_eq] at h
    obtain ⟨h1, h2⟩ := h
    have h1' : 48 ≤ c.toNat := h1
    have h2' : c.toNat ≤ 57 := h2
    refine ⟨⟨c.toNat - 48, by omega⟩, ?_⟩
    simp only [digitChar]
    rw [show 48 + (c.toNat - 48) = c.toNat by omega, Char.ofNat_toNat]
  · rintro ⟨d, rfl⟩
    revert d
    decide

/-- `std::stoi` of one digit is its value. -/
theorem stoi_digitChar (d : Fin 10) : stoi [digitChar d] = .ok d.val := by
  fin_cases d <;> rfl

theorem digitChar_ne_hyphen : ∀ d : Fin 10, digitChar d ≠ '-' := by decide

theorem matches_seq (a b : Regex) (w : List Char) :
    (Regex.seq a b).Matches w ↔ ∃ u v, a.Matches u ∧ b.Matches v ∧ w = u ++ v := Iff.rfl

theorem matches_alt (a b : Regex) (w : List Char) :
    (Regex.alt a b).Matches w ↔ a.Matches w ∨ b.Matches w := Iff.rfl

theorem matches_opt (a : Regex) (w : List Char) :
    (Regex.opt a).Matches w ↔ a.Matches w ∨ w = [] := Iff.rfl

theorem matches_group (i : Nat) (a : Regex) (w : List Char) :
    (Regex.group i a).Matches w ↔ a.Matches w := Iff.rfl

theorem matches_chr (c : Char) (w : List Char) : (Regex.chr c).Matches w ↔ w = [c] := Iff.rfl

theorem matches_digit (w : List Char) :
    Regex.digit.Matches w ↔ ∃ c, c.isDigit = true ∧ w = [c] := Iff.rfl

theorem matches_plus (a : Regex) (w : List Char) :
    (Regex.plus a).Matches w ↔
      ∃ ws : List (List Char), ws ≠ [] ∧ (∀ u ∈ ws, a.Matches u) ∧ w = ws.flatten := Iff.rfl

theorem matches_foldr_lit (l : List Char) :
    ∀ u, (l.foldr (fun c r => Regex.seq (.chr c) r) .eps).Matches u ↔ u = l := by
  induction l with
  | nil => intro u; simp [Regex.Matches]
  | cons c cs ih =>
    intro u
    simp only [List.foldr_cons, Regex.Matches, ih]
    constructor
    · rintro ⟨a, b, rfl, rfl, rfl⟩; rfl
    · rintro rfl; exact ⟨[c], cs, rfl, rfl, rfl⟩

theorem matches_lit (w : String) (u : List Char) : (Regex.lit w).Matches u ↔ u = w.data :=
  matches_foldr_lit w.data u

theorem matches_kind (u : List Char) :
    (Regex.alt (.lit "bert") (.lit "gpt")).Matches u ↔ ∃ k : HeadKind, u = k.name.data := by
  simp only [matches_alt, matches_lit]
  constructor
  · rintro (h | h)
    · exact ⟨.bert, h⟩
    · exact ⟨.gpt, h⟩
  · rintro ⟨k, rfl⟩
    cases k
    · exact Or.inl rfl
    · exact Or.inr rfl

theorem matches_optDigit (u : List Char) :
    (Regex.opt .digit).Matches u ↔ ∃ d : Option (Fin 10), u = (match d with
      | none => []
      | some d => [digitChar d]) := by
  simp only [matches_opt, matches_digit]
  constructor
  · rintro (⟨c, hc, rfl⟩ | rfl)
    · obtain ⟨d, rfl⟩ := (isDigit_iff c).mp hc
      exact ⟨some d, rfl⟩
    · exact ⟨none, rfl⟩
  · rintro ⟨d, rfl⟩
    cases d with
    | none => exact Or.inr rfl
    | some d => exact Or.inl ⟨_, (isDigit_iff _).mpr ⟨d, rfl⟩, rfl⟩

theorem matches_optGroupDigit (i : Nat) (u : List Char) :
    (Regex.opt (.group i .digit)).Matches u ↔ ∃ d : Option (Fin 10), u = (match d with
      | none => []
      | some d => [digitChar d]) :=
  matches_optDigit u

/-- The words of `(bert|gpt)(\d)?` are the texts of the segments. -/
theorem matches_partRegex (u : List Char) : partRegex.Matches u ↔ ∃ s : Segment, u = s.part := by
  simp only [partRegex, matches_seq, matches_optGroupDigit, matches_group, matches_kind]
  constructor
  · rintro ⟨a, b, ⟨k, rfl⟩, ⟨d, rfl⟩, rfl⟩
    exact ⟨⟨k, d⟩, rfl⟩
  · rintro ⟨⟨k, d⟩, rfl⟩
    exact ⟨_, _, ⟨k, rfl⟩, ⟨d, rfl⟩, rfl⟩

theorem matches_segmentRegex (i j k : Nat) (u : List Char) :
    (segmentRegex i j k).Matches u ↔ ∃ s : Segment, u = s.text := by
  simp only [segmentRegex, matches_seq, matches_group, matches_chr, matches_kind,
    matches_optDigit]
  constructor
  · rintro ⟨a, b, rfl, ⟨c, e, ⟨k, rfl⟩, ⟨d, rfl⟩, rfl⟩, rfl⟩
    exact ⟨⟨k, d⟩, rfl⟩
  · rintro ⟨⟨k, d⟩, rfl⟩
    exact ⟨_, _, rfl, ⟨_, _, ⟨k, rfl⟩, ⟨d, rfl⟩, rfl⟩, rfl⟩

/-- The words of `(-(bert|gpt)(\d?))+` are the texts of the non-empty segment
lists. -/
theorem matches_segments (i j k : Nat) (u : List Char) :
    (Regex.plus (segmentRegex i j k)).Matches u ↔
      ∃ segs : List Segment, segs ≠ [] ∧ u = segs.flatMap Segment.text := by
  simp only [matches_plus]
  constructor
  · rintro ⟨ws, hne, hall, rfl⟩
    have key : ∀ ws : List (List Char), (∀ u ∈ ws, (segmentRegex i j k).Matches u) →
        ∃ segs : List Segment, segs.length = ws.length ∧ ws.flatten = segs.flatMap Segment.text := by
      intro ws
      induction ws with
      | nil => intro _; exact ⟨[], rfl, rfl⟩
      | cons w ws ih =>
        intro h
        obtain ⟨s, hs⟩ := (matches_segmentRegex i j k w).mp (h w (List.mem_cons_self _ _))
        obtain ⟨segs, hl, he⟩ := ih (fun u hu => h u (List.mem_cons_of_mem _ hu))
        exact ⟨s :: segs, by simp [hl], by simp [hs, he]⟩
    obtain ⟨segs, hl, he⟩ := key ws hall
    refine ⟨segs, ?_, he⟩
    intro h
    subst h
    exact hne (List.length_eq_zero.mp hl.symm)
  · rintro ⟨segs, hne, rfl⟩
    refine ⟨segs.map Segment.text, by simpa using hne, ?_, ?_⟩
    · intro u hu
      obtain ⟨s, _, rfl⟩ := List.mem_map.mp hu
      exact (matches_segmentRegex i j k _).mpr ⟨s, rfl⟩
    · simp [List.flatMap]

theorem matches_streams (i : Nat) (u : List Char) :
    (Regex.opt (.group i (.seq .digit .digit))).Matches u ↔
      ∃ streams : Option (Fin 10 × Fin 10), u = streamChars streams := by
  simp only [matches_opt, matches_group, matches_seq, matches_digit]
  constructor
  · rintro (⟨a, b, ⟨c1, h1, rfl⟩, ⟨c2, h2, rfl⟩, rfl⟩ | rfl)
    · obtain ⟨d1, rfl⟩ := (isDigit_iff c1).mp h1
      obtain ⟨d2, rfl⟩ := (isDigit_iff c2).mp h2
      exact ⟨some (d1, d2), rfl⟩
    · exact ⟨none, rfl⟩
  · rintro ⟨streams, rfl⟩
    match streams with
    | none => exact Or.inr rfl
    | some (d1, d2) =>
      exact Or.inl ⟨_, _, ⟨_, (isDigit_iff _).mpr ⟨d1, rfl⟩, rfl⟩,
        ⟨_, (isDigit_iff _).mpr ⟨d2, rfl⟩, rfl⟩, rfl⟩

theorem transformerRegex_eq : transformerRegex =
    .seq (.lit "transformer")
      (.seq (.opt (.group 1 (.seq .digit .digit))) (.plus (segmentRegex 2 3 4))) := rfl

theorem smtransformerRegex_eq : smtransformerRegex =
    .seq (.lit "smtransformer") (.plus (segmentRegex 1 2 3)) := rfl

/-- The transformer pattern accepts exactly the descriptors with base
`transformer`, no or two stream digits, and at least one segment. -/
theorem regex_match_transformerRegex (type : String) :
    regex_match type.data transformerRegex = true ↔
      ∃ streams segs, segs ≠ [] ∧ type = descriptor "transformer" streams segs := by
  rw [regex_match_iff, transformerRegex_eq]
  simp only [matches_seq, matches_lit, matches_streams, matches_segments]
  constructor
  · rintro ⟨a, b, rfl, ⟨c, e, ⟨streams, rfl⟩, ⟨segs, hne, rfl⟩, rfl⟩, h⟩
    refine ⟨streams, segs, hne, ?_⟩
    apply String.ext
    simp [descriptor, h]
  · rintro ⟨streams, segs, hne, rfl⟩
    exact ⟨_, _, rfl, ⟨_, _, ⟨streams, rfl⟩, ⟨segs, hne, rfl⟩, rfl⟩, by simp [descriptor]⟩

/-- The smtransformer pattern accepts exactly the descriptors with base
`smtransformer`, no stream digits, and at least one segment. -/
theorem regex_match_smtransformerRegex (type : String) :
    regex_match type.data smtransformerRegex = true ↔
      ∃ segs, segs ≠ [] ∧ type = descriptor "smtransformer" none segs := by
  rw [regex_match_iff, smtransformerRegex_eq]
  simp only [matches_seq, matches_lit, matches_segments]
  constructor
  · rintro ⟨a, b, rfl, ⟨segs, hne, rfl⟩, h⟩
    refine ⟨segs, hne, ?_⟩
    apply String.ext
    simp [descriptor, h, streamChars]
  · rintro ⟨segs, hne, rfl⟩
    exact ⟨_, _, rfl, ⟨segs, hne, rfl⟩, by simp [descriptor, streamChars]⟩

/-! ### Splitting and parsing a descriptor -/

theorem split_of_not_mem (del : Char) :
    ∀ w : List Char, del ∉ w → split del w = [w] := by
  intro w
  induction w with
  | nil => intro _; rfl
  | cons c cs ih =>
    intro h
    have hc : c ≠ del := fun e => h (by simp [e])
    have hcs : del ∉ cs := fun e => h (List.mem_cons_of_mem _ e)
    simp [split, hc, ih hcs]

theorem split_append (del : Char) :
    ∀ w rest : List Char, del ∉ w → split del (w ++ del :: rest) = w :: split del rest := by
  intro w
  induction w with
  | nil => intro rest _; simp [split]
  | cons c cs ih =>
    intro rest h
    have hc : c ≠ del := fun e => h (by simp [e])
    have hcs : del ∉ cs := fun e => h (List.mem_cons_of_mem _ e)
    simp [split, hc, ih rest hcs]

theorem hyphen_not_mem_part (s : Segment) : '-' ∉ s.part := by
  obtain ⟨k, d⟩ := s
  cases k <;> cases d with
  | none => decide
  | some d => revert d; decide

theorem hyphen_not_mem_streamChars (streams : Option (Fin 10 × Fin 10)) :
    '-' ∉ streamChars streams := by
  match streams with
  | none => decide
  | some (a, b) => revert a b; decide

theorem split_segments (w : List Char) (hw : '-' ∉ w) :
    ∀ segs : List Segment, split '-' (w ++ segs.flatMap Segment.text) = w :: segs.map Segment.part := by
  intro segs
  induction segs generalizing w with
  | nil => simpa using split_of_not_mem '-' w hw
  | cons s segs ih =>
    have := split_append '-' w (s.part ++ segs.flatMap Segment.text) hw
    simp only [List.flatMap_cons, Segment.text, List.cons_append, List.map_cons]
    rw [this, ih s.part (hyphen_not_mem_part s)]

/-- Splitting a descriptor on the hyphen gives the base with its digits and
then the segments. -/
theorem split_descriptor (base : String) (hbase : '-' ∉ base.data)
    (streams : Option (Fin 10 × Fin 10)) (segs : List Segment) :
    split '-' (descriptor base streams segs).data =
      (base.data ++ streamChars streams) :: segs.map Segment.part := by
  simp only [descriptor]
  apply split_segments
  intro h
  rcases List.mem_append.mp h with h | h
  · exact hbase h
  · exact hyphen_not_mem_streamChars streams h

/-- The captures `by_type` reads from a segment: its kind and its digit. -/
theorem captures_part (s : Segment) :
    (regex_match_captures s.part partRegex).str 1 = s.kind.name.data ∧
    (regex_match_captures s.part partRegex).str 2 = digitText s.digit := by
  obtain ⟨k, d⟩ := s
  cases k <;> cases d with
  | none => decide
  | some d => revert d; decide

/-- The captures `by_type` reads from the first part of a descriptor: the two
stream digits, or nothing. -/
theorem captures_head (streams : Option (Fin 10 × Fin 10)) :
    (regex_match_captures ("transformer".data ++ streamChars streams) headRegex).str 2 =
      digitText (streams.map Prod.fst) ∧
    (regex_match_captures ("transformer".data ++ streamChars streams) headRegex).str 3 =
      digitText (streams.map Prod.snd) := by
  match streams with
  | none => decide
  | some (a, b) => revert a b; decide

/-! ### The auxiliary heads -/

theorem stream_choice (base i : Nat) (hi : 1 ≤ i) (kind : HeadKind) (d : Option (Fin 10)) :
    (if (digitText d).isEmpty = true then Except.ok (base + i - 1) else stoi (digitText d)) =
      (Except.ok (Segment.stream base (i - 1) ⟨kind, d⟩) : Except Error Nat) := by
  cases d with
  | none =>
    simp only [digitText, List.isEmpty_nil, if_true, Segment.stream]
    congr 1
    omega
  | some d =>
    simp only [digitText, List.isEmpty_cons, Segment.stream, stoi_digitChar]
    simp

/-- The loop body builds, for every segment, a head of the segment's kind on
the segment's stream. -/
theorem by_type_auxiliary_segment (build : Build) (base : Nat) (type : String) (use : usage)
    (options : Options) (i : Nat) (hi : 1 ≤ i) (s : Segment) :
    ∃ head, by_type_auxiliary build base type use options i s.part = .ok head ∧
      head.layout = headLayout s.kind (s.stream base (i - 1)) ∧
      head.shape = s.kind.shape := by
  obtain ⟨h1, h2⟩ := captures_part s
  obtain ⟨k, d⟩ := s
  simp only [by_type_auxiliary, h1, h2, stream_choice base i hi k d]
  cases k
  · simp [HeadKind.name, EncoderClassifierFactory.construct, EncoderClassifierFactory.set,
      EncoderClassifierFactory.apply, EncoderClassifierFactory.push_back_encoder,
      EncoderClassifierFactory.push_back_classifier, encoder_classifier, encoder, classifier,
      EncoderFactory.set, EncoderFactory.apply, EncoderFactory.construct,
      ClassifierFactory.set, ClassifierFactory.apply, ClassifierFactory.construct,
      Options.set, Options.merge, Options.get_string, Options.find, findEntry, constructAll,
      EncoderClassifier.push_back, ModelBase.layout, ModelBase.subs, SubModel.cls,
      SubModel.stream, SubModel.options, headLayout, ModelBase.shape, HeadKind.shape]
  · simp [HeadKind.name, EncoderDecoderFactory.construct, EncoderDecoderFactory.set,
      EncoderDecoderFactory.apply, EncoderDecoderFactory.push_back_decoder,
      encoder_decoder, decoder, DecoderFactory.set, DecoderFactory.apply,
      DecoderFactory.construct, Options.set, Options.merge, Options.get_string, Options.find,
      findEntry, constructAll, EncoderDecoder.push_back, ModelBase.layout, ModelBase.subs,
      SubModel.cls, SubModel.stream, SubModel.options, headLayout, ModelBase.shape, HeadKind.shape]

/-- The loop builds one head per segment, in order, and never fails on the
segments of a descriptor. -/
theorem by_type_heads_segments (build : Build) (base : Nat) (type : String) (use : usage)
    (options : Options) :
    ∀ (segs : List Segment) (i : Nat), 1 ≤ i →
      ∃ heads, by_type_heads (by_type_auxiliary build base type use options) i
          (segs.map Segment.part) = .ok heads ∧
        heads.map ModelBase.layout = headLayouts base (i - 1) segs ∧
        heads.map ModelBase.shape = segs.map (fun s => s.kind.shape) ∧
        heads.length = segs.length := by
  intro segs
  induction segs with
  | nil => intro i _; exact ⟨[], rfl, rfl, rfl, rfl⟩
  | cons s segs ih =>
    intro i hi
    obtain ⟨head, h1, h2, h6⟩ := by_type_auxiliary_segment build base type use options i hi s
    obtain ⟨heads, h3, h4, h7, h5⟩ := ih (i + 1) (by omega)
    refine ⟨head :: heads, ?_, ?_, by simp [h6, h7], by simp [h5]⟩
    · simp only [List.map_cons, by_type_heads, h1, h3]
    · simp only [List.map_cons, h2, h4, headLayouts, List.enumFrom_cons]
      congr 3
      omega

/-! ### The dispatch of `by_type` on a descriptor -/

/-- A token that is none of the base types tested first reaches the patterns,
after the alias rewrite. -/
theorem by_type_of_not_core (build : Build) (type : String) (use : usage) (options : Options)
    (h : type ∉ coreBases) :
    by_type build type use options = by_type_patterns build (rewriteAlias type) use options := by
  simp only [coreBases, List.mem_cons, List.mem_singleton, List.not_mem_nil, or_false,
    not_or] at h
  obtain ⟨h1, h2, h3, h4, h5, h6, h7, h8, h9, h10, h11, h12, h13, h14⟩ := h
  simp only [by_type, h1, h2, h3, h4, h5, h6, h7, h8, h9, h10, h11, h12, h13, h14, or_self,
    if_false, rewriteAlias]

theorem core_transformer_next :
    ∀ l ∈ coreBases, l.data.take 11 = "transformer".data →
      l.data.get? 11 = none ∨ l.data.get? 11 = some '_' := by decide

theorem core_not_sm : ∀ l ∈ coreBases, l.data.take 2 ≠ "sm".data := by decide

theorem descriptor_transformer_next (streams : Option (Fin 10 × Fin 10)) (segs : List Segment)
    (hne : segs ≠ []) :
    (descriptor "transformer" streams segs).data.take 11 = "transformer".data ∧
    ∃ c, (descriptor "transformer" streams segs).data.get? 11 = some c ∧ c ≠ '_' := by
  constructor
  · simp [descriptor]
  · match streams, segs with
    | some (a, b), _ =>
      refine ⟨digitChar a, by simp [descriptor, streamChars], ?_⟩
      revert a; decide
    | none, s :: _ =>
      exact ⟨'-', by simp [descriptor, streamChars, Segment.text], by decide⟩

theorem descriptor_transformer_not_core (streams : Option (Fin 10 × Fin 10))
    (segs : List Segment) (hne : segs ≠ []) :
    descriptor "transformer" streams segs ∉ coreBases := by
  intro h
  obtain ⟨h1, c, h2, h3⟩ := descriptor_transformer_next streams segs hne
  rcases core_transformer_next _ h h1 with h4 | h4
  · rw [h4] at h2; cases h2
  · rw [h4] at h2; cases h2; exact h3 rfl

theorem descriptor_sm_not_core (segs : List Segment) :
    descriptor "smtransformer" none segs ∉ coreBases := by
  intro h
  exact core_not_sm _ h (by simp [descriptor])

theorem head_streams (streams : Option (Fin 10 × Fin 10)) :
    (if (digitText (streams.map Prod.fst)).isEmpty = true then Except.ok 0
      else stoi (digitText (streams.map Prod.fst))) =
        (Except.ok (encoderStreamOf streams) : Except Error Nat) ∧
    (if (digitText (streams.map Prod.snd)).isEmpty = true then Except.ok 1
      else stoi (digitText (streams.map Prod.snd))) =
        (Except.ok (decoderStreamOf streams) : Except Error Nat) := by
  match streams with
  | none => exact ⟨rfl, rfl⟩
  | some (a, b) =>
    simp only [Option.map_some', digitText, List.isEmpty_cons, stoi_digitChar, encoderStreamOf,
      decoderStreamOf]
    simp

theorem hyphen_not_mem_transformer : '-' ∉ "transformer".data := by decide

theorem hyphen_not_mem_smtransformer : '-' ∉ "smtransformer".data := by decide

/-- The primary model of the transformer branch. -/
theorem construct_primary (build : Build) (type : String) (use : usage) (options : Options)
    (enc dec : Nat) (t : String) (ht : options.find "type" = some (.str t)) :
    ∃ primary,
      (encoder_decoder.apply options
        |>.set "usage" (.use use)
        |>.set "original-type" (.str type)
        |>.push_back_encoder (encoder
            |>.set "type" (.str "transformer")
            |>.set "prefix" (.str "encoder")
            |>.set "index" (.int enc))
        |>.push_back_decoder (decoder
            |>.set "type" (.str "transformer")
            |>.set "prefix" (.str "decoder")
            |>.set "index" (.int dec))
        |>.construct build) = .ok primary ∧
      primary.shape = .EncoderDecoder ∧
      primary.layout = [(.EncoderTransformer, some (.int enc)),
        (.DecoderTransformer, some (.int dec))] := by
  simp only [Options.find] at ht
  simp [EncoderDecoderFactory.construct, EncoderDecoderFactory.set,
    EncoderDecoderFactory.apply, EncoderDecoderFactory.push_back_decoder,
    EncoderDecoderFactory.push_back_encoder, encoder_decoder, decoder, encoder,
    DecoderFactory.set, DecoderFactory.apply, DecoderFactory.construct,
    EncoderFactory.set, EncoderFactory.apply, EncoderFactory.construct,
    Options.set, Options.merge, Options.get_string, Options.find,
    findEntry, constructAll, EncoderDecoder.push_back, ht, ModelBase.layout, ModelBase.subs,
    SubModel.cls, SubModel.stream, SubModel.options, ModelBase.shape]

/-- What `by_type` does on a descriptor of the transformer family other than
the alias, for options that hold a string `type`. -/
theorem by_type_transformer_descriptor (build : Build) (streams : Option (Fin 10 × Fin 10))
    (segs : List Segment) (use : usage) (options : Options) (t : String)
    (hne : segs ≠ []) (ht : options.find "type" = some (.str t))
    (halias : descriptor "transformer" streams segs ≠ "transformer-bert-gpt") :
    ∃ primary heads,
      primary.shape = .EncoderDecoder ∧
      primary.layout = [(.EncoderTransformer, some (.int (encoderStreamOf streams))),
        (.DecoderTransformer, some (.int (decoderStreamOf streams)))] ∧
      heads.map ModelBase.layout = headLayouts 2 0 segs ∧
      heads.map ModelBase.shape = segs.map (fun s => s.kind.shape) ∧
      heads.length = segs.length ∧
      by_type build (descriptor "transformer" streams segs) use options =
        .ok (if use = usage.training then .MultiModel (primary :: heads) else primary) := by
  have hm : regex_match (descriptor "transformer" streams segs).data transformerRegex = true :=
    (regex_match_transformerRegex _).mpr ⟨streams, segs, hne, rfl⟩
  obtain ⟨c2, c3⟩ := captures_head streams
  obtain ⟨e1, e2⟩ := head_streams streams
  obtain ⟨heads, k1, k2, k4, k3⟩ := by_type_heads_segments build 2
    (descriptor "transformer" streams segs) use options segs 1 (le_refl 1)
  obtain ⟨primary, p1, p2, p3⟩ := construct_primary build
    (descriptor "transformer" streams segs) use options (encoderStreamOf streams)
    (decoderStreamOf streams) t ht
  refine ⟨primary, heads, p2, p3, k2, k4, k3, ?_⟩
  rw [by_type_of_not_core build _ use options (descriptor_transformer_not_core streams segs hne)]
  simp only [rewriteAlias, if_neg halias, by_type_patterns, hm, if_true,
    by_type_transformer_composite, split_descriptor "transformer" hyphen_not_mem_transformer,
    List.headD_cons, List.tail_cons, c2, c3, e1, e2, k1, p1]
  cases use <;> simp

/-- The primary model of the smtransformer branch. -/
theorem construct_sm_primary (build : Build) (type : String) (use : usage) (options : Options)
    (t : String) (ht : options.find "type" = some (.str t)) :
    ∃ primary,
      (encoder_decoder.apply options
        |>.set "usage" (.use use)
        |>.set "original-type" (.str type)
        |>.push_back_encoder (encoder
            |>.set "type" (.str "transformer")
            |>.set "prefix" (.str "encoder")
            |>.set "index" (.int 0))
        |>.push_back_encoder (encoder
            |>.set "type" (.str "transformer")
            |>.set "prefix" (.str "encoder")
            |>.set "index" (.int 1))
        |>.push_back_decoder (decoder
            |>.set "type" (.str "transformer")
            |>.set "prefix" (.str "decoder")
            |>.set "index" (.int 2))
        |>.construct build) = .ok primary ∧
      primary.shape = .EncoderDecoder ∧
      primary.layout = [(.EncoderTransformer, some (.int 0)),
        (.EncoderTransformer, some (.int 1)), (.DecoderTransformer, some (.int 2))] ∧
      primary.subs.map SubModel.pfx = [some (.str "encoder"), some (.str "encoder"),
        some (.str "decoder")] := by
  simp only [Options.find] at ht
  simp [EncoderDecoderFactory.construct, EncoderDecoderFactory.set,
    EncoderDecoderFactory.apply, EncoderDecoderFactory.push_back_decoder,
    EncoderDecoderFactory.push_back_encoder, encoder_decoder, decoder, encoder,
    DecoderFactory.set, DecoderFactory.apply, DecoderFactory.construct,
    EncoderFactory.set, EncoderFactory.apply, EncoderFactory.construct,
    Options.set, Options.merge, Options.get_string, Options.find,
    findEntry, constructAll, EncoderDecoder.push_back, ht, ModelBase.layout, ModelBase.subs,
    SubModel.cls, SubModel.stream, SubModel.options, ModelBase.shape, SubModel.pfx]

theorem descriptor_sm_not_transformer (segs : List Segment) :
    regex_match (descriptor "smtransformer" none segs).data transformerRegex = false := by
  rw [Bool.eq_false_iff]
  intro h
  obtain ⟨streams, segs', _, e⟩ := (regex_match_transformerRegex _).mp h
  have := congrArg (fun s : String => s.data.head?) e
  simp [descriptor] at this

theorem descriptor_sm_not_alias (segs : List Segment) :
    descriptor "smtransformer" none segs ≠ "transformer-bert-gpt" := by
  intro e
  have := congrArg (fun s : String => s.data.head?) e
  simp [descriptor] at this

/-- What `by_type` does on a descriptor of the smtransformer family, for
options that hold a string `type`. -/
theorem by_type_smtransformer_descriptor (build : Build) (segs : List Segment) (use : usage)
    (options : Options) (t : String) (hne : segs ≠ [])
    (ht : options.find "type" = some (.str t)) :
    ∃ primary heads,
      primary.shape = .EncoderDecoder ∧
      primary.layout = [(.EncoderTransformer, some (.int 0)),
        (.EncoderTransformer, some (.int 1)), (.DecoderTransformer, some (.int 2))] ∧
      primary.subs.map SubModel.pfx = [some (.str "encoder"), some (.str "encoder"),
        some (.str "decoder")] ∧
      heads.map ModelBase.layout = headLayouts 3 0 segs ∧
      heads.map ModelBase.shape = segs.map (fun s => s.kind.shape) ∧
      heads.length = segs.length ∧
      by_type build (descriptor "smtransformer" none segs) use options =
        .ok (if use = usage.training then .MultiModel (primary :: heads) else primary) := by
  have hm : regex_match (descriptor "smtransformer" none segs).data smtransformerRegex = true :=
    (regex_match_smtransformerRegex _).mpr ⟨segs, hne, rfl⟩
  obtain ⟨heads, k1, k2, k4, k3⟩ := by_type_heads_segments build 3
    (descriptor "smtransformer" none segs) use options segs 1 (le_refl 1)
  obtain ⟨primary, p1, p2, p3, p4⟩ := construct_sm_primary build
    (descriptor "smtransformer" none segs) use options t ht
  refine ⟨primary, heads, p2, p3, p4, k2, k4, k3, ?_⟩
  rw [by_type_of_not_core build _ use options (descriptor_sm_not_core segs)]
  have hs := split_descriptor "smtransformer" hyphen_not_mem_smtransformer none segs
  simp only [rewriteAlias, if_neg (descriptor_sm_not_alias segs), by_type_patterns, hm,
    descriptor_sm_not_transformer, if_true, by_type_smtransformer, hs,
    List.tail_cons, k1, p1]
  cases use <;> simp

/-! ### C1: explicit stream digits -/

theorem headLayouts_explicit (base : Nat) (heads : List (HeadKind × Fin 10)) :
    ∀ k, headLayouts base k (heads.map fun h => ⟨h.1, some h.2⟩) =
      heads.map fun h => headLayout h.1 h.2.val := by
  induction heads with
  | nil => intro k; rfl
  | cons h heads ih =>
    intro k
    have := ih (k + 1)
    simp only [headLayouts] at this
    simp only [headLayouts, List.map_cons, List.enumFrom_cons, this]
    rfl

theorem descriptor_digits_not_alias (a b : Fin 10) (segs : List Segment) :
    descriptor "transformer" (some (a, b)) segs ≠ "transformer-bert-gpt" := by
  intro e
  have h := congrArg (fun s : String => s.data.get? 11) e
  have h' : some (digitChar a) = some '-' := by simpa [descriptor, streamChars] using h
  exact digitChar_ne_hyphen a (Option.some.inj h')

/-- C1: for a token `transformer<d1><d2>` followed by one or more segments
`-(bert|gpt)<d>`, each with its digit, `by_type` under training usage returns a
`MultiModel` whose first member is a transformer encoder-decoder with the
encoder on stream `d1` and the decoder on stream `d2`, and whose further
members are one head per segment, in the order of the segments, of the
segment's kind and on the segment's stream. -/
theorem C1_explicit_streams (build : Build) (d1 d2 : Fin 10)
    (heads : List (HeadKind × Fin 10)) (options : Options) (t : String)
    (hne : heads ≠ []) (ht : options.find "type" = some (.str t)) :
    ∃ primary aux,
      by_type build (descriptor "transformer" (some (d1, d2))
        (heads.map fun h => ⟨h.1, some h.2⟩)) usage.training options =
          .ok (.MultiModel (primary :: aux)) ∧
      primary.shape = .EncoderDecoder ∧
      primary.layout = [(.EncoderTransformer, some (.int d1.val)),
        (.DecoderTransformer, some (.int d2.val))] ∧
      aux.map ModelBase.shape = heads.map (fun h => h.1.shape) ∧
      aux.map ModelBase.layout = heads.map fun h => headLayout h.1 h.2.val := by
  obtain ⟨primary, aux, p1, p2, p3, p6, _, p5⟩ := by_type_transformer_descriptor build
    (some (d1, d2)) (heads.map fun h => ⟨h.1, some h.2⟩) usage.training options t
    (by simpa using hne) ht (descriptor_digits_not_alias d1 d2 _)
  refine ⟨primary, aux, by simpa using p5, p1, p2, ?_, ?_⟩
  · simpa using p6
  · rw [p3, headLayouts_explicit]

/-- C1 at `transformer12-bert0-gpt2`: encoder stream 1, decoder stream 2, then
a BERT head on stream 0 and a GPT head on stream 2. -/
theorem C1_explicit_streams_witness :
    ∃ primary aux,
      by_type ⟨false, false⟩ "transformer12-bert0-gpt2" usage.training
        ⟨[("type", .str "transformer12-bert0-gpt2")]⟩ = .ok (.MultiModel (primary :: aux)) ∧
      primary.shape = .EncoderDecoder ∧
      primary.layout = [(.EncoderTransformer, some (.int 1)),
        (.DecoderTransformer, some (.int 2))] ∧
      aux.map ModelBase.shape = [.EncoderClassifier, .EncoderDecoder] ∧
      aux.map ModelBase.layout = [headLayout .bert 0, headLayout .gpt 2] :=
  C1_explicit_streams ⟨false, false⟩ 1 2 [(.bert, 0), (.gpt, 2)]
    ⟨[("type", .str "transformer12-bert0-gpt2")]⟩ "transformer12-bert0-gpt2"
    (by decide) (by decide)

/-! ### C2: default streams -/

theorem headLayouts_getElem? (base : Nat) (segs : List Segment) (k : Nat) :
    (headLayouts base 0 segs)[k]? =
      segs[k]?.map fun s => headLayout s.kind (s.stream base k) := by
  simp only [headLayouts, List.getElem?_map, List.getElem?_enumFrom, Option.map_map]
  cases segs[k]? <;> simp

theorem alias_eq_descriptor :
    "transformer-bert-gpt" = descriptor "transformer" none [⟨.bert, none⟩, ⟨.gpt, none⟩] := by
  decide

/-- The alias rewrite makes `by_type` treat the alias as `transformer12-bert0`. -/
theorem by_type_alias (build : Build) (use : usage) (options : Options) :
    by_type build "transformer-bert-gpt" use options =
      by_type build "transformer12-bert0" use options := rfl

/-- C2, counterexample: the token `transformer-bert-gpt` is accepted by the
transformer pattern and carries no digit, yet under training its encoder reads
stream 1, its decoder stream 2, and its only head is a BERT head on stream 0,
not encoder 0, decoder 1 and heads on streams 2 and 3. -/
theorem C2_alias_counterexample :
    regex_match "transformer-bert-gpt".data transformerRegex = true ∧
    "transformer-bert-gpt" = descriptor "transformer" none [⟨.bert, none⟩, ⟨.gpt, none⟩] ∧
    (by_type ⟨false, false⟩ "transformer-bert-gpt" usage.training
        ⟨[("type", .str "transformer-bert-gpt")]⟩).toOption.map
      (fun m => m.members.map ModelBase.layout) =
        some [[(.EncoderTransformer, some (.int 1)), (.DecoderTransformer, some (.int 2))],
          headLayout .bert 0] ∧
    ¬ ∃ primary heads,
      by_type ⟨false, false⟩ "transformer-bert-gpt" usage.training
        ⟨[("type", .str "transformer-bert-gpt")]⟩ = .ok (.MultiModel (primary :: heads)) ∧
      primary.layout = [(.EncoderTransformer, some (.int 0)),
        (.DecoderTransformer, some (.int 1))] ∧
      heads.map ModelBase.layout = [headLayout .bert 2, headLayout .gpt 3] := by
  have e : (by_type ⟨false, false⟩ "transformer-bert-gpt" usage.training
        ⟨[("type", .str "transformer-bert-gpt")]⟩).toOption.map
      (fun m => m.members.map ModelBase.layout) =
        some [[(.EncoderTransformer, some (.int 1)), (.DecoderTransformer, some (.int 2))],
          headLayout .bert 0] := by decide
  refine ⟨by decide, by decide, e, ?_⟩
  rintro ⟨primary, heads, h, hl, hh⟩
  rw [h] at e
  simp only [Except.toOption, Option.map_some', ModelBase.members, List.map_cons, hl, hh] at e
  revert e
  decide

/-- C2, amended: for every descriptor of the transformer family other than the
alias `transformer-bert-gpt`, and every descriptor of the smtransformer
family, `by_type` under training gives the encoder stream 0 and the decoder
stream 1 when the stream digits are absent, and the head of the segment at
0-based position `k` reads the segment's digit, or, when it has none, stream
`2 + k` (transformer family) or `3 + k` (smtransformer family), whatever the
other segments carry.  The descriptors with a non-empty segment list are
exactly the tokens the two patterns accept (`regex_match_transformerRegex`,
`regex_match_smtransformerRegex`). -/
theorem C2_default_streams (build : Build) (streams : Option (Fin 10 × Fin 10))
    (segs : List Segment) (options : Options) (t : String)
    (hne : segs ≠ []) (ht : options.find "type" = some (.str t))
    (halias : descriptor "transformer" streams segs ≠ "transformer-bert-gpt") :
    (∃ primary heads,
      by_type build (descriptor "transformer" streams segs) usage.training options =
        .ok (.MultiModel (primary :: heads)) ∧
      primary.layout = [(.EncoderTransformer, some (.int (encoderStreamOf streams))),
        (.DecoderTransformer, some (.int (decoderStreamOf streams)))] ∧
      heads.length = segs.length ∧
      ∀ k, (heads.map ModelBase.layout)[k]? = segs[k]?.map fun (s : Segment) =>
        headLayout s.kind (s.stream 2 k)) ∧
    (∃ primary heads,
      by_type build (descriptor "smtransformer" none segs) usage.training options =
        .ok (.MultiModel (primary :: heads)) ∧
      heads.length = segs.length ∧
      ∀ k, (heads.map ModelBase.layout)[k]? = segs[k]?.map fun (s : Segment) =>
        headLayout s.kind (s.stream 3 k)) := by
  constructor
  · obtain ⟨primary, heads, _, p2, p3, _, p4, p5⟩ := by_type_transformer_descriptor build
      streams segs usage.training options t hne ht halias
    refine ⟨primary, heads, by simpa using p5, p2, p4, ?_⟩
    intro k
    rw [p3, headLayouts_getElem?]
  · obtain ⟨primary, heads, _, _, _, p3, _, p4, p5⟩ := by_type_smtransformer_descriptor build
      segs usage.training options t hne ht
    refine ⟨primary, heads, by simpa using p5, p4, ?_⟩
    intro k
    rw [p3, headLayouts_getElem?]

/-- C2 at `transformer-bert5-gpt` and `smtransformer-bert5-gpt`: the GPT head at
position 1 has no digit and reads stream 3 (transformer family) and stream 4
(smtransformer family), next to a BERT head on stream 5. -/
theorem C2_default_streams_witness :
    (∃ primary heads,
      by_type ⟨false, false⟩ "transformer-bert5-gpt" usage.training
        ⟨[("type", .str "transformer-bert5-gpt")]⟩ = .ok (.MultiModel (primary :: heads)) ∧
      primary.layout = [(.EncoderTransformer, some (.int 0)),
        (.DecoderTransformer, some (.int 1))] ∧
      heads.length = 2 ∧
      ∀ k, (heads.map ModelBase.layout)[k]? =
        ([⟨.bert, some 5⟩, ⟨.gpt, none⟩] : List Segment)[k]?.map fun (s : Segment) =>
          headLayout s.kind (s.stream 2 k)) ∧
    (∃ primary heads,
      by_type ⟨false, false⟩ "smtransformer-bert5-gpt" usage.training
        ⟨[("type", .str "transformer-bert5-gpt")]⟩ = .ok (.MultiModel (primary :: heads)) ∧
      heads.length = 2 ∧
      ∀ k, (heads.map ModelBase.layout)[k]? =
        ([⟨.bert, some 5⟩, ⟨.gpt, none⟩] : List Segment)[k]?.map fun (s : Segment) =>
          headLayout s.kind (s.stream 3 k)) :=
  C2_default_streams ⟨false, false⟩ none [⟨.bert, some 5⟩, ⟨.gpt, none⟩]
    ⟨[("type", .str "transformer-bert5-gpt")]⟩ "transformer-bert5-gpt"
    (by decide) (by decide) (by decide)

/-! ### C3: the alias -/

/-- C3: for every usage and every options value `by_type` returns for
`transformer-bert-gpt` what it returns for `transformer12-bert0`; when the
options hold a string `type`, that is a transformer encoder-decoder with the
encoder on stream 1 and the decoder on stream 2, alone for a usage other than
training, and under training followed by exactly one head, a BERT head on
stream 0. -/
theorem C3_alias_precedence (build : Build) (use : usage) (options : Options) :
    by_type build "transformer-bert-gpt" use options =
      by_type build "transformer12-bert0" use options ∧
    ∀ t, options.find "type" = some (.str t) →
      ∃ primary bert,
        by_type build "transformer-bert-gpt" use options =
          .ok (if use = usage.training then .MultiModel [primary, bert] else primary) ∧
        primary.shape = .EncoderDecoder ∧
        primary.layout = [(.EncoderTransformer, some (.int 1)),
          (.DecoderTransformer, some (.int 2))] ∧
        bert.shape = .EncoderClassifier ∧
        bert.layout = [(.BertEncoder, some (.int 0)), (.BertMaskedLM, some (.int 0))] := by
  refine ⟨rfl, ?_⟩
  intro t ht
  obtain ⟨primary, heads, p1, p2, p3, p6, p4, p5⟩ := by_type_transformer_descriptor build
    (some (1, 2)) [⟨.bert, some 0⟩] use options t (by decide) ht (by decide)
  match heads, p3, p6, p4, p5 with
  | [bert], p3, p6, _, p5 =>
    refine ⟨primary, bert, p5, p1, p2, ?_, ?_⟩
    · simpa [HeadKind.shape] using p6
    · simpa [headLayouts, headLayout, Segment.stream] using p3

/-- C3 under training, for the options that hold the token as `type`. -/
theorem C3_alias_precedence_witness :
    by_type ⟨false, false⟩ "transformer-bert-gpt" usage.training
        ⟨[("type", .str "transformer-bert-gpt")]⟩ =
      by_type ⟨false, false⟩ "transformer12-bert0" usage.training
        ⟨[("type", .str "transformer-bert-gpt")]⟩ ∧
    ∃ primary bert,
      by_type ⟨false, false⟩ "transformer-bert-gpt" usage.training
          ⟨[("type", .str "transformer-bert-gpt")]⟩ = .ok (.MultiModel [primary, bert]) ∧
      primary.shape = .EncoderDecoder ∧
      primary.layout = [(.EncoderTransformer, some (.int 1)),
        (.DecoderTransformer, some (.int 2))] ∧
      bert.shape = .EncoderClassifier ∧
      bert.layout = [(.BertEncoder, some (.int 0)), (.BertMaskedLM, some (.int 0))] :=
  ⟨(C3_alias_precedence ⟨false, false⟩ usage.training
      ⟨[("type", .str "transformer-bert-gpt")]⟩).1,
    (C3_alias_precedence ⟨false, false⟩ usage.training
      ⟨[("type", .str "transformer-bert-gpt")]⟩).2 "transformer-bert-gpt" (by decide)⟩

/-! ### C4: usage pruning -/

/-- C4, counterexample: the token `transformer-bert-gpt` is accepted by the
transformer pattern and has two segments, yet under training the `MultiModel`
has two members, not three. -/
theorem C4_alias_counterexample :
    regex_match "transformer-bert-gpt".data transformerRegex = true ∧
    "transformer-bert-gpt" = descriptor "transformer" none [⟨.bert, none⟩, ⟨.gpt, none⟩] ∧
    ∃ model,
      by_type ⟨false, false⟩ "transformer-bert-gpt" usage.training
        ⟨[("type", .str "transformer-bert-gpt")]⟩ = .ok model ∧
      model.shape = .MultiModel ∧
      model.members.length = 2 ∧
      model.members.length ≠ 1 + ([⟨.bert, none⟩, ⟨.gpt, none⟩] : List Segment).length := by
  refine ⟨by decide, by decide, ?_⟩
  obtain ⟨primary, heads, _, _, _, _, p4, p5⟩ := by_type_transformer_descriptor ⟨false, false⟩
    (some (1, 2)) [⟨.bert, some 0⟩] usage.training ⟨[("type", .str "transformer-bert-gpt")]⟩
    "transformer-bert-gpt" (by decide) (by decide) (by decide)
  refine ⟨.MultiModel (primary :: heads), ?_, rfl, ?_, ?_⟩
  · rw [by_type_alias]
    exact p5
  · simp [ModelBase.members, p4]
  · simp [ModelBase.members, p4]

/-- C4, amended: for every descriptor of the transformer family other than the
alias `transformer-bert-gpt`, and every descriptor of the smtransformer
family, `by_type` returns for a usage other than training one encoder-decoder,
the primary model, and no `MultiModel`; under training it returns a
`MultiModel` whose members are the primary encoder-decoder and then one head
per segment, in the order of the segments, so `1 + segs.length` members.  The
descriptors with a non-empty segment list are exactly the tokens the two
patterns accept (`regex_match_transformerRegex`,
`regex_match_smtransformerRegex`). -/
theorem C4_usage_pruning (build : Build) (streams : Option (Fin 10 × Fin 10))
    (segs : List Segment) (use : usage) (options : Options) (t : String)
    (hne : segs ≠ []) (ht : options.find "type" = some (.str t))
    (halias : descriptor "transformer" streams segs ≠ "transformer-bert-gpt") :
    (∃ primary heads,
      by_type build (descriptor "transformer" streams segs) use options =
        .ok (if use = usage.training then .MultiModel (primary :: heads) else primary) ∧
      primary.shape = .EncoderDecoder ∧
      primary.layout = [(.EncoderTransformer, some (.int (encoderStreamOf streams))),
        (.DecoderTransformer, some (.int (decoderStreamOf streams)))] ∧
      heads.map ModelBase.shape = segs.map (fun s => s.kind.shape) ∧
      (ModelBase.MultiModel (primary :: heads)).members.length = 1 + segs.length) ∧
    (∃ primary heads,
      by_type build (descriptor "smtransformer" none segs) use options =
        .ok (if use = usage.training then .MultiModel (primary :: heads) else primary) ∧
      primary.shape = .EncoderDecoder ∧
      primary.layout = [(.EncoderTransformer, some (.int 0)),
        (.EncoderTransformer, some (.int 1)), (.DecoderTransformer, some (.int 2))] ∧
      heads.map ModelBase.shape = segs.map (fun s => s.kind.shape) ∧
      (ModelBase.MultiModel (primary :: heads)).members.length = 1 + segs.length) := by
  constructor
  · obtain ⟨primary, heads, p1, p2, _, p6, p4, p5⟩ := by_type_transformer_descriptor build
      streams segs use options t hne ht halias
    exact ⟨primary, heads, p5, p1, p2, p6, by simp [ModelBase.members, p4]; omega⟩
  · obtain ⟨primary, heads, p1, p2, _, _, p6, p4, p5⟩ := by_type_smtransformer_descriptor build
      segs use options t hne ht
    exact ⟨primary, heads, p5, p1, p2, p6, by simp [ModelBase.members, p4]; omega⟩

/-- C4 at `transformer-gpt-bert3` under scoring: only the primary
encoder-decoder is returned. -/
theorem C4_usage_pruning_witness :
    (∃ primary heads,
      by_type ⟨false, false⟩ "transformer-gpt-bert3" usage.scoring
          ⟨[("type", .str "transformer-gpt-bert3")]⟩ =
        .ok (if usage.scoring = usage.training then .MultiModel (primary :: heads)
          else primary) ∧
      primary.shape = .EncoderDecoder ∧
      primary.layout = [(.EncoderTransformer, some (.int 0)),
        (.DecoderTransformer, some (.int 1))] ∧
      heads.map ModelBase.shape = [.EncoderDecoder, .EncoderClassifier] ∧
      (ModelBase.MultiModel (primary :: heads)).members.length = 1 + 2) ∧
    (∃ primary heads,
      by_type ⟨false, false⟩ "smtransformer-gpt-bert3" usage.scoring
          ⟨[("type", .str "transformer-gpt-bert3")]⟩ =
        .ok (if usage.scoring = usage.training then .MultiModel (primary :: heads)
          else primary) ∧
      primary.shape = .EncoderDecoder ∧
      primary.layout = [(.EncoderTransformer, some (.int 0)),
        (.EncoderTransformer, some (.int 1)), (.DecoderTransformer, some (.int 2))] ∧
      heads.map ModelBase.shape = [.EncoderDecoder, .EncoderClassifier] ∧
      (ModelBase.MultiModel (primary :: heads)).members.length = 1 + 2) :=
  C4_usage_pruning ⟨false, false⟩ none [⟨.gpt, none⟩, ⟨.bert, some 3⟩] usage.scoring
    ⟨[("type", .str "transformer-gpt-bert3")]⟩ "transformer-gpt-bert3"
    (by decide) (by decide) (by decide)

/-! ### C5: `bert-gpt` -/

/-- The decoder model of the `bert-gpt` recipe. -/
theorem construct_bert_gpt_decoder (build : Build) (use : usage) (options : Options) :
    ∃ gpt,
      (encoder_decoder.apply options
        |>.set "usage" (.use use)
        |>.set "index" (.int 1)
        |>.set "type" (.str "transformer")
        |>.set "original-type" (.str "bert-gpt")
        |>.push_back_decoder (decoder |>.set "prefix" (.str "decoder"))
        |>.construct build) = .ok gpt ∧
      gpt.shape = .EncoderDecoder ∧
      gpt.layout = [(.DecoderTransformer, some (.int 1))] := by
  simp [EncoderDecoderFactory.construct, EncoderDecoderFactory.set,
    EncoderDecoderFactory.apply, EncoderDecoderFactory.push_back_decoder,
    encoder_decoder, decoder, DecoderFactory.set, DecoderFactory.apply,
    DecoderFactory.construct, Options.set, Options.merge, Options.get_string, Options.find,
    findEntry, constructAll, EncoderDecoder.push_back,
    ModelBase.layout, ModelBase.subs, SubModel.cls, SubModel.stream, SubModel.options,
    ModelBase.shape]

/-- The BERT model of the `bert-gpt` recipe. -/
theorem construct_bert_gpt_encoder (build : Build) (use : usage) (options : Options) :
    ∃ bert,
      (encoder_classifier.apply options
        |>.set "type" (.str "bert")
        |>.set "original-type" (.str "bert-gpt")
        |>.set "index" (.int 0)
        |>.set "usage" (.use use)
        |>.push_back_encoder (encoder
            |>.set "type" (.str "bert-encoder")
            |>.set "prefix" (.str "encoder"))
        |>.push_back_classifier (classifier
            |>.set "prefix" (.str "masked-lm")
            |>.set "type" (.str "bert-masked-lm"))
        |>.construct build) = .ok bert ∧
      bert.shape = .EncoderClassifier ∧
      bert.layout = [(.BertEncoder, some (.int 0)), (.BertMaskedLM, some (.int 0))] := by
  simp [EncoderClassifierFactory.construct,
    EncoderClassifierFactory.set, EncoderClassifierFactory.apply,
    EncoderClassifierFactory.push_back_encoder,
    EncoderClassifierFactory.push_back_classifier, encoder_classifier, encoder, classifier,
    EncoderFactory.set, EncoderFactory.apply, EncoderFactory.construct,
    ClassifierFactory.set, ClassifierFactory.apply, ClassifierFactory.construct,
    Options.set, Options.merge, Options.get_string, Options.find,
    findEntry, constructAll, EncoderClassifier.push_back,
    ModelBase.layout, ModelBase.subs, SubModel.cls, SubModel.stream, SubModel.options,
    ModelBase.shape]

/-- C5: for base type `bert-gpt`, every build and every options value,
`by_type` returns for a usage other than training one encoder-decoder holding
a single transformer decoder on stream 1 and nothing else; under training it
returns a `MultiModel` of exactly two members, first the BERT
encoder-classifier (a BERT encoder and a masked-LM classifier on stream 0),
then that transformer decoder model. -/
theorem C5_bert_gpt (build : Build) (use : usage) (options : Options) :
    ∃ gpt bert,
      by_type build "bert-gpt" use options =
        .ok (if use = usage.training then .MultiModel [bert, gpt] else gpt) ∧
      gpt.shape = .EncoderDecoder ∧
      gpt.layout = [(.DecoderTransformer, some (.int 1))] ∧
      bert.shape = .EncoderClassifier ∧
      bert.layout = [(.BertEncoder, some (.int 0)), (.BertMaskedLM, some (.int 0))] := by
  obtain ⟨gpt, g1, g2, g3⟩ := construct_bert_gpt_decoder build use options
  obtain ⟨bert, b1, b2, b3⟩ := construct_bert_gpt_encoder build use options
  refine ⟨gpt, bert, ?_, g2, g3, b2, b3⟩
  have h : by_type build "bert-gpt" use options = by_type_bert_gpt build use options := rfl
  rw [h]
  simp only [by_type_bert_gpt, g1, b1]
  cases use <;> simp

/-! ### C6: unknown model types -/

theorem alias_matches : regex_match "transformer-bert-gpt".data transformerRegex = true := by
  decide

/-- A token that is no literal base type of the build and matches neither
pattern ends in the last `ABORT` of `by_type`. -/
theorem by_type_unknown (build : Build) (type : String) (use : usage) (options : Options)
    (hlit : type ∉ literalBases build)
    (h1 : regex_match type.data transformerRegex = false)
    (h2 : regex_match type.data smtransformerRegex = false) :
    by_type build type use options = .error (.UnknownModelType type) := by
  have halias : type ≠ "transformer-bert-gpt" := by
    rintro rfl
    rw [alias_matches] at h1
    cases h1
  simp only [literalBases, List.mem_append, not_or] at hlit
  obtain ⟨⟨⟨hcore, hffnn⟩, hlenet⟩, hchar⟩ := hlit
  rw [by_type_of_not_core build type use options hcore]
  have e1 : ¬ (build.COMPILE_EXAMPLES = true ∧ type = "mnist-ffnn") := by
    rintro ⟨hb, rfl⟩
    simp [hb] at hffnn
  have e2 : ¬ (build.CUDNN = true ∧ build.COMPILE_EXAMPLES = true ∧ type = "mnist-lenet") := by
    rintro ⟨hb, hc, rfl⟩
    simp [hb, hc] at hlenet
  have e3 : ¬ (build.CUDNN = true ∧ type = "char-s2s") := by
    rintro ⟨hb, rfl⟩
    simp [hb] at hchar
  simp only [rewriteAlias, if_neg halias, by_type_patterns, h1, h2, if_neg e1, if_neg e2,
    if_neg e3, Bool.false_eq_true, if_false]

/-- C6: a token that is none of the literal base types of the build (compared
as exact strings) and that matches neither composite pattern makes `by_type`
fail with the unknown-model-type error carrying that token, for every usage
and options value. -/
theorem C6_unknown_model_type (build : Build) (type : String) (use : usage)
    (options : Options)
    (hlit : type ∉ literalBases build)
    (h1 : regex_match type.data transformerRegex = false)
    (h2 : regex_match type.data smtransformerRegex = false) :
    by_type build type use options = .error (.UnknownModelType type) :=
  by_type_unknown build type use options hlit h1 h2

/-- C6 at `frobnicate` and at `Transformer` (the comparison with `transformer`
is case-sensitive), for the build with every optional base compiled in. -/
theorem C6_unknown_model_type_witness :
    ("frobnicate" ∉ literalBases ⟨true, true⟩ ∧
      regex_match "frobnicate".data transformerRegex = false ∧
      regex_match "frobnicate".data smtransformerRegex = false ∧
      by_type ⟨true, true⟩ "frobnicate" usage.training ⟨[("type", .str "frobnicate")]⟩ =
        .error (.UnknownModelType "frobnicate")) ∧
    ("Transformer" ∉ literalBases ⟨true, true⟩ ∧
      regex_match "Transformer".data transformerRegex = false ∧
      regex_match "Transformer".data smtransformerRegex = false ∧
      by_type ⟨true, true⟩ "Transformer" usage.scoring ⟨[("type", .str "Transformer")]⟩ =
        .error (.UnknownModelType "Transformer")) :=
  ⟨⟨by decide, by decide, by decide,
    C6_unknown_model_type ⟨true, true⟩ "frobnicate" usage.training
      ⟨[("type", .str "frobnicate")]⟩ (by decide) (by decide) (by decide)⟩,
   ⟨by decide, by decide, by decide,
    C6_unknown_model_type ⟨true, true⟩ "Transformer" usage.scoring
      ⟨[("type", .str "Transformer")]⟩ (by decide) (by decide) (by decide)⟩⟩

/-! ### C7: unknown subtypes -/

theorem literal_no_head (build : Build) :
    ∀ l ∈ literalBases build,
      ¬ (regex_match ((split '-' l.data).headD []) headRegex = true ∧
        (split '-' l.data).tail ≠ []) := by
  cases build with
  | mk a b => cases a <;> cases b <;> decide

theorem headRegex_not_smtransformer :
    regex_match "smtransformer".data headRegex = false := by decide

/-- C7, counterexample: under training `transformer-xyz` fails with the
unknown-model-type error, not with the unknown-model-subtype error. -/
theorem C7_xyz_counterexample :
    by_type ⟨false, false⟩ "transformer-xyz" usage.training
        ⟨[("type", .str "transformer-xyz")]⟩ = .error (.UnknownModelType "transformer-xyz") ∧
    ∀ subtype, by_type ⟨false, false⟩ "transformer-xyz" usage.training
        ⟨[("type", .str "transformer-xyz")]⟩ ≠ .error (.UnknownModelSubtype subtype) := by
  have h : by_type ⟨false, false⟩ "transformer-xyz" usage.training
      ⟨[("type", .str "transformer-xyz")]⟩ = .error (.UnknownModelType "transformer-xyz") :=
    by_type_unknown _ _ _ _ (by decide) (by decide) (by decide)
  refine ⟨h, ?_⟩
  intro subtype e
  rw [h] at e
  cases e

/-- C7, amended: a token whose first part matches `(transformer)(\d)?(\d)?` and
that has an auxiliary part whose subtype, as the loop of `by_type` reads it, is
neither `bert` nor `gpt`, makes `by_type` fail with the unknown-model-type
error carrying the token, for every usage: the composite pattern rejects the
token before any subtype is looked at. -/
theorem C7_bad_subtype_is_unknown_type (build : Build) (type : String) (use : usage)
    (options : Options)
    (hhead : regex_match ((split '-' type.data).headD []) headRegex = true)
    (hsub : ∃ part ∈ (split '-' type.data).tail,
      (regex_match_captures part partRegex).str 1 ≠ "bert".data ∧
      (regex_match_captures part partRegex).str 1 ≠ "gpt".data) :
    by_type build type use options = .error (.UnknownModelType type) := by
  obtain ⟨part, hpart, hb, hg⟩ := hsub
  apply by_type_unknown
  · intro hl
    exact literal_no_head build type hl ⟨hhead, List.ne_nil_of_mem hpart⟩
  · rw [Bool.eq_false_iff]
    intro h
    obtain ⟨streams, segs, _, rfl⟩ := (regex_match_transformerRegex _).mp h
    rw [split_descriptor "transformer" hyphen_not_mem_transformer, List.tail_cons] at hpart
    obtain ⟨s, _, rfl⟩ := List.mem_map.mp hpart
    obtain ⟨c1, _⟩ := captures_part s
    rw [c1] at hb hg
    cases hk : s.kind
    · rw [hk] at hb; exact hb rfl
    · rw [hk] at hg; exact hg rfl
  · rw [Bool.eq_false_iff]
    intro h
    obtain ⟨segs, _, rfl⟩ := (regex_match_smtransformerRegex _).mp h
    rw [split_descriptor "smtransformer" hyphen_not_mem_smtransformer] at hhead
    simp only [List.headD_cons, streamChars, List.append_nil] at hhead
    rw [headRegex_not_smtransformer] at hhead
    cases hhead

/-- C7 amended, at `transformer-xyz` and at `transformer12-bert0-lstm`. -/
theorem C7_bad_subtype_is_unknown_type_witness :
    by_type ⟨true, true⟩ "transformer-xyz" usage.training
        ⟨[("type", .str "transformer-xyz")]⟩ = .error (.UnknownModelType "transformer-xyz") ∧
    by_type ⟨true, true⟩ "transformer12-bert0-lstm" usage.training
        ⟨[("type", .str "transformer12-bert0-lstm")]⟩ =
      .error (.UnknownModelType "transformer12-bert0-lstm") :=
  ⟨C7_bad_subtype_is_unknown_type ⟨true, true⟩ "transformer-xyz" usage.training
      ⟨[("type", .str "transformer-xyz")]⟩ (by decide) ⟨"xyz".data, by decide⟩,
   C7_bad_subtype_is_unknown_type ⟨true, true⟩ "transformer12-bert0-lstm" usage.training
      ⟨[("type", .str "transformer12-bert0-lstm")]⟩ (by decide) ⟨"lstm".data, by decide⟩⟩

/-! ### C8: a single stream digit -/

/-- The transformer pattern rejects a token with exactly one stream digit. -/
theorem oneDigit_not_transformer (d : Fin 10) (segs : List Segment) (hne : segs ≠ []) :
    regex_match (oneDigitDescriptor d segs).data transformerRegex = false := by
  rw [Bool.eq_false_iff]
  intro h
  obtain ⟨streams, segs', hne', e⟩ := (regex_match_transformerRegex _).mp h
  have e' : digitChar d :: segs.flatMap Segment.text =
      streamChars streams ++ segs'.flatMap Segment.text := by
    have := congrArg String.data e
    simpa [oneDigitDescriptor, descriptor] using this
  rcases streams with _ | ⟨a, b⟩
  · cases segs' with
    | nil => exact hne' rfl
    | cons s' rest =>
      simp only [streamChars, List.nil_append, List.flatMap_cons, Segment.text,
        List.cons_append, List.cons.injEq] at e'
      exact digitChar_ne_hyphen d e'.1
  · cases segs with
    | nil => exact hne rfl
    | cons s rest =>
      simp only [streamChars, List.flatMap_cons, Segment.text, List.cons_append,
        List.nil_append, List.cons.injEq] at e'
      exact digitChar_ne_hyphen b e'.2.1.symm

theorem oneDigit_not_smtransformer (d : Fin 10) (segs : List Segment) :
    regex_match (oneDigitDescriptor d segs).data smtransformerRegex = false := by
  rw [Bool.eq_false_iff]
  intro h
  obtain ⟨segs', _, e⟩ := (regex_match_smtransformerRegex _).mp h
  have := congrArg (fun s : String => s.data.head?) e
  simp [oneDigitDescriptor, descriptor] at this

theorem literal_transformer_next (build : Build) :
    ∀ l ∈ literalBases build, l.data.take 11 = "transformer".data →
      l.data.get? 11 = none ∨ l.data.get? 11 = some '_' := by
  cases build with
  | mk a b => cases a <;> cases b <;> decide

theorem digitChar_ne_underscore : ∀ d : Fin 10, digitChar d ≠ '_' := by decide

theorem oneDigit_not_literal (build : Build) (d : Fin 10) (segs : List Segment) :
    oneDigitDescriptor d segs ∉ literalBases build := by
  intro h
  have h1 : (oneDigitDescriptor d segs).data.take 11 = "transformer".data := by
    simp [oneDigitDescriptor]
  have h2 : (oneDigitDescriptor d segs).data.get? 11 = some (digitChar d) := by
    simp [oneDigitDescriptor]
  rcases literal_transformer_next build _ h h1 with h3 | h3
  · rw [h3] at h2; cases h2
  · rw [h3] at h2
    exact digitChar_ne_underscore d (Option.some.inj h2).symm

/-- C8, counterexample: `transformer1-bert`, with exactly one digit after
`transformer`, is not accepted by the composite pattern, and `by_type` fails
with the unknown-model-type error instead of building a model. -/
theorem C8_one_digit_counterexample :
    oneDigitDescriptor 1 [⟨.bert, none⟩] = "transformer1-bert" ∧
    regex_match "transformer1-bert".data transformerRegex = false ∧
    by_type ⟨false, false⟩ "transformer1-bert" usage.training
        ⟨[("type", .str "transformer1-bert")]⟩ =
      .error (.UnknownModelType "transformer1-bert") :=
  ⟨by decide, by decide, by_type_unknown _ _ _ _ (by decide) (by decide) (by decide)⟩

/-- C8, amended: the two stream digits of the composite pattern are one
optional field of two digits.  For every non-empty list of segments the
pattern accepts the token without stream digits and the token with both, and
for every digit `d` the token `transformer<d><segments>` with exactly one
digit is not accepted: `by_type` fails with the unknown-model-type error
carrying the token, for every usage and options value. -/
theorem C8_stream_digits_come_in_pairs (build : Build) (d : Fin 10) (segs : List Segment)
    (use : usage) (options : Options) (hne : segs ≠ []) :
    (∀ streams, regex_match (descriptor "transformer" streams segs).data transformerRegex
      = true) ∧
    regex_match (oneDigitDescriptor d segs).data transformerRegex = false ∧
    by_type build (oneDigitDescriptor d segs) use options =
      .error (.UnknownModelType (oneDigitDescriptor d segs)) :=
  ⟨fun streams => (regex_match_transformerRegex _).mpr ⟨streams, segs, hne, rfl⟩,
    oneDigit_not_transformer d segs hne,
    by_type_unknown build _ use options (oneDigit_not_literal build d segs)
      (oneDigit_not_transformer d segs hne) (oneDigit_not_smtransformer d segs)⟩

/-- C8 amended, at `transformer7-gpt-bert2`. -/
theorem C8_stream_digits_come_in_pairs_witness :
    (∀ streams, regex_match (descriptor "transformer" streams
        [⟨.gpt, none⟩, ⟨.bert, some 2⟩]).data transformerRegex = true) ∧
    regex_match "transformer7-gpt-bert2".data transformerRegex = false ∧
    by_type ⟨false, false⟩ "transformer7-gpt-bert2" usage.scoring ⟨[]⟩ =
      .error (.UnknownModelType "transformer7-gpt-bert2") :=
  C8_stream_digits_come_in_pairs ⟨false, false⟩ 7 [⟨.gpt, none⟩, ⟨.bert, some 2⟩]
    usage.scoring ⟨[]⟩ (by decide)

/-! ### C9: two encoders -/

/-- The model the two-encoder recipe constructs. -/
theorem by_type_multi_two_encoders (build : Build) (shared : Bool) (type : String)
    (use : usage) (options : Options) :
    isTwoEncoderModel (by_type_multi build "s2s" shared type use options)
      .EncoderS2S .DecoderS2S
      (if shared = true then "encoder" else "encoder1")
      (if shared = true then "encoder" else "encoder2") ∧
    isTwoEncoderModel (by_type_multi build "transformer" shared type use options)
      .EncoderTransformer .DecoderTransformer
      (if shared = true then "encoder" else "encoder1")
      (if shared = true then "encoder" else "encoder2") := by
  have hr : List.range 2 = [0, 1] := rfl
  cases shared
  all_goals
    simp [isTwoEncoderModel, by_type_multi, hr, EncoderDecoderFactory.construct,
      EncoderDecoderFactory.set,
      EncoderDecoderFactory.apply, EncoderDecoderFactory.push_back_decoder,
      EncoderDecoderFactory.push_back_encoder, encoder_decoder, decoder, encoder,
      DecoderFactory.set, DecoderFactory.apply, DecoderFactory.construct,
      EncoderFactory.set, EncoderFactory.apply, EncoderFactory.construct,
      Options.set, Options.merge, Options.get_string, Options.find,
      findEntry, constructAll, EncoderDecoder.push_back, ModelBase.layout, ModelBase.subs,
      SubModel.cls, SubModel.stream, SubModel.options, ModelBase.shape, SubModel.pfx,
      SubModel.role]
  decide

/-- C9: for each of `multi-s2s`, `shared-multi-s2s`, `multi-transformer` and
`shared-multi-transformer`, every build, usage and options value, `by_type`
builds one encoder-decoder whose sub-models are two encoders on streams 0 and
1 and then one decoder on stream 2; the encoders are named `encoder1` and
`encoder2` in the plain variants and both `encoder` in the shared variants. -/
theorem C9_two_encoders (build : Build) (use : usage) (options : Options) :
    isTwoEncoderModel (by_type build "multi-s2s" use options)
      .EncoderS2S .DecoderS2S "encoder1" "encoder2" ∧
    isTwoEncoderModel (by_type build "shared-multi-s2s" use options)
      .EncoderS2S .DecoderS2S "encoder" "encoder" ∧
    isTwoEncoderModel (by_type build "multi-transformer" use options)
      .EncoderTransformer .DecoderTransformer "encoder1" "encoder2" ∧
    isTwoEncoderModel (by_type build "shared-multi-transformer" use options)
      .EncoderTransformer .DecoderTransformer "encoder" "encoder" :=
  ⟨(by_type_multi_two_encoders build false "multi-s2s" use options).1,
   (by_type_multi_two_encoders build true "shared-multi-s2s" use options).1,
   (by_type_multi_two_encoders build false "multi-transformer" use options).2,
   (by_type_multi_two_encoders build true "shared-multi-transformer" use options).2⟩

/-! ### C10: language models -/

/-- `resize(n)` followed by `fill` gives `n` copies of the value. -/
theorem fill_resize (v : List Int) (n : Nat) (x : Int) :
    fill (resize v n) x = List.replicate n x := by
  have hl : (resize v n).length = n := by
    simp only [resize, List.length_append, List.length_take, List.length_replicate]
    omega
  simp only [fill]
  rw [← hl, List.map_const', hl]
  simp [hl]

/-- The factory the language-model recipe hands to `construct`. -/
theorem by_type_lm_decoder (build : Build) (subtype : String) (type : String) (use : usage)
    (options : Options) (x : Int) (rest : List Int) (idx : Nat)
    (hv : options.find "dim-vocabs" = some (.ints (x :: rest)))
    (hidx : (options.find "index" = none ∧ idx = 0) ∨
      (options.find "index" = some (.int idx) ∧ idx < 2 ^ size_t_bits)) :
    by_type_lm build subtype type use options =
      (encoder_decoder.apply options
          |>.set "usage" (.use use)
          |>.set "type" (.str subtype)
          |>.set "original-type" (.str type)
          |>.push_back_decoder (decoder
              |>.set "index" (.int idx)
              |>.set "dim-vocabs"
                (.ints (List.replicate ((idx + 1) % 2 ^ size_t_bits) x)))
          |>.construct build) := by
  have h1 : (if options.has "index" = true then options.get_size_t "index" else .ok 0) =
      (Except.ok idx : Except Error Nat) := by
    rcases hidx with ⟨h, rfl⟩ | ⟨h, hlt⟩
    · simp [Options.has, h]
    · have : (idx : Int) < 2 ^ size_t_bits := by exact_mod_cast hlt
      simp [Options.has, Options.get_size_t, h, this]
  have h2 : options.get_ints "dim-vocabs" = .ok (x :: rest) := by
    simp [Options.get_ints, hv]
  simp only [by_type_lm, h1, h2, fill_resize]

/-- The model the language-model factory constructs. -/
theorem construct_lm (build : Build) (type : String) (use : usage) (options : Options)
    (idx : Nat) (vocabs : List Int) :
    isDecoderOnlyModel
      (encoder_decoder.apply options
          |>.set "usage" (.use use)
          |>.set "type" (.str "s2s")
          |>.set "original-type" (.str type)
          |>.push_back_decoder (decoder
              |>.set "index" (.int idx)
              |>.set "dim-vocabs" (.ints vocabs))
          |>.construct build) .DecoderS2S idx vocabs ∧
    isDecoderOnlyModel
      (encoder_decoder.apply options
          |>.set "usage" (.use use)
          |>.set "type" (.str "transformer")
          |>.set "original-type" (.str type)
          |>.push_back_decoder (decoder
              |>.set "index" (.int idx)
              |>.set "dim-vocabs" (.ints vocabs))
          |>.construct build) .DecoderTransformer idx vocabs := by
  simp [isDecoderOnlyModel, EncoderDecoderFactory.construct, EncoderDecoderFactory.set,
    EncoderDecoderFactory.apply, EncoderDecoderFactory.push_back_decoder,
    encoder_decoder, decoder, DecoderFactory.set, DecoderFactory.apply,
    DecoderFactory.construct, Options.set, Options.merge, Options.get_string, Options.find,
    findEntry, constructAll, EncoderDecoder.push_back, ModelBase.layout, ModelBase.subs,
    SubModel.cls, SubModel.stream, SubModel.options, ModelBase.shape, SubModel.role]

/-- C10, counterexample: with `index` = 2^64 - 1, the largest `size_t`, the
size `idx + 1` wraps to 0, and the decoder of `lm` gets an empty `dim-vocabs`
list, not one of `idx + 1` entries. -/
theorem C10_index_wrap_counterexample :
    isDecoderOnlyModel
      (by_type ⟨false, false⟩ "lm" usage.training
        ⟨[("index", .int 18446744073709551615), ("dim-vocabs", .ints [7])]⟩)
      .DecoderS2S 18446744073709551615 [] ∧
    ¬ ∃ vocabs : List Int, vocabs.length = 18446744073709551615 + 1 ∧
      isDecoderOnlyModel
        (by_type ⟨false, false⟩ "lm" usage.training
          ⟨[("index", .int 18446744073709551615), ("dim-vocabs", .ints [7])]⟩)
        .DecoderS2S 18446744073709551615 vocabs := by
  have h : by_type ⟨false, false⟩ "lm" usage.training
      ⟨[("index", .int 18446744073709551615), ("dim-vocabs", .ints [7])]⟩ = _ :=
    by_type_lm_decoder ⟨false, false⟩ "s2s" "lm" usage.training
      ⟨[("index", .int 18446744073709551615), ("dim-vocabs", .ints [7])]⟩ 7 []
      18446744073709551615 (by decide) (Or.inr ⟨by decide, by decide⟩)
  have hw : (18446744073709551615 + 1) % 2 ^ size_t_bits = 0 := by decide
  rw [hw, List.replicate_zero] at h
  have h0 := (construct_lm ⟨false, false⟩ "lm" usage.training
    ⟨[("index", .int 18446744073709551615), ("dim-vocabs", .ints [7])]⟩
    18446744073709551615 []).1
  rw [← h] at h0
  refine ⟨h0, ?_⟩
  rintro ⟨vocabs, hl, m, hm, _, _, _, hv⟩
  obtain ⟨m', hm', _, _, _, hv'⟩ := h0
  rw [hm] at hm'
  cases hm'
  rw [hv] at hv'
  simp only [List.cons.injEq, Option.some.injEq, Value.ints.injEq, and_true] at hv'
  rw [hv'] at hl
  simp at hl

/-- C10, amended: for base types `lm` and `lm-transformer` and every options
value with a non-empty `dim-vocabs` list `v` whose `index` is absent (then
`idx` is 0) or an `idx` with `idx + 1 < 2 ^ 64`, `by_type` builds an
encoder-decoder with no encoder and exactly one decoder, on stream `idx`,
whose `dim-vocabs` list has exactly `idx + 1` entries, every one equal to the
first entry of `v`. -/
theorem C10_language_model (build : Build) (use : usage) (options : Options)
    (v : List Int) (idx : Nat) (hne : v ≠ [])
    (hv : options.find "dim-vocabs" = some (.ints v))
    (hidx : (options.find "index" = none ∧ idx = 0) ∨
      (options.find "index" = some (.int idx) ∧ idx + 1 < 2 ^ size_t_bits)) :
    isDecoderOnlyModel (by_type build "lm" use options)
      .DecoderS2S idx (List.replicate (idx + 1) (v.head hne)) ∧
    isDecoderOnlyModel (by_type build "lm-transformer" use options)
      .DecoderTransformer idx (List.replicate (idx + 1) (v.head hne)) := by
  have hlt : idx + 1 < 2 ^ size_t_bits := by
    rcases hidx with ⟨_, rfl⟩ | ⟨_, h⟩
    · decide
    · exact h
  have hidx' : (options.find "index" = none ∧ idx = 0) ∨
      (options.find "index" = some (.int idx) ∧ idx < 2 ^ size_t_bits) := by
    rcases hidx with h | ⟨h, _⟩
    · exact Or.inl h
    · exact Or.inr ⟨h, by omega⟩
  match v, hne, hv with
  | x :: rest, _, hv =>
    have e1 : by_type build "lm" use options = by_type_lm build "s2s" "lm" use options := rfl
    have e2 : by_type build "lm-transformer" use options =
        by_type_lm build "transformer" "lm-transformer" use options := rfl
    rw [e1, e2, by_type_lm_decoder build "s2s" "lm" use options x rest idx hv hidx',
      by_type_lm_decoder build "transformer" "lm-transformer" use options x rest idx hv hidx',
      Nat.mod_eq_of_lt hlt]
    exact ⟨(construct_lm build "lm" use options idx _).1,
      (construct_lm build "lm-transformer" use options idx _).2⟩

/-- C10 amended, at `index` 1 and `dim-vocabs` [5, 6, 7], where the list is
cut to two entries, and at `index` 2 and `dim-vocabs` [5], where it is padded
to three. -/
theorem C10_language_model_witness :
    (isDecoderOnlyModel (by_type ⟨false, false⟩ "lm" usage.scoring
        ⟨[("dim-vocabs", .ints [5, 6, 7]), ("index", .int 1)]⟩)
      .DecoderS2S 1 [5, 5] ∧
    isDecoderOnlyModel (by_type ⟨false, false⟩ "lm-transformer" usage.scoring
        ⟨[("dim-vocabs", .ints [5, 6, 7]), ("index", .int 1)]⟩)
      .DecoderTransformer 1 [5, 5]) ∧
    (isDecoderOnlyModel (by_type ⟨false, false⟩ "lm" usage.training
        ⟨[("dim-vocabs", .ints [5]), ("index", .int 2)]⟩)
      .DecoderS2S 2 [5, 5, 5] ∧
    isDecoderOnlyModel (by_type ⟨false, false⟩ "lm-transformer" usage.training
        ⟨[("dim-vocabs", .ints [5]), ("index", .int 2)]⟩)
      .DecoderTransformer 2 [5, 5, 5]) :=
  ⟨C10_language_model ⟨false, false⟩ usage.scoring
    ⟨[("dim-vocabs", .ints [5, 6, 7]), ("index", .int 1)]⟩ [5, 6, 7] 1 (by decide)
    (by decide) (Or.inr ⟨by decide, by decide⟩),
   C10_language_model ⟨false, false⟩ usage.training
    ⟨[("dim-vocabs", .ints [5]), ("index", .int 2)]⟩ [5] 2 (by decide)
    (by decide) (Or.inr ⟨by decide, by decide⟩)⟩

/-! ### C11: `bert` and `bert-classifier` -/

/-- The model the `bert` recipe constructs. -/
theorem construct_bert (build : Build) (use : usage) (options : Options) (t : String)
    (ht : options.find "type" = some (.str t)) :
    ∃ m, by_type_bert build use options = .ok m ∧
      m.shape = .EncoderClassifier ∧
      m.subs.map SubModel.role = [.encoder, .classifier, .classifier] ∧
      m.layout = [(.BertEncoder, some (.int 0)), (.BertMaskedLM, some (.int 0)),
        (.BertClassifier, some (.int 1))] := by
  simp only [Options.find] at ht
  simp [by_type_bert, EncoderClassifierFactory.construct,
    EncoderClassifierFactory.set, EncoderClassifierFactory.apply,
    EncoderClassifierFactory.push_back_encoder,
    EncoderClassifierFactory.push_back_classifier, encoder_classifier, encoder, classifier,
    EncoderFactory.set, EncoderFactory.apply, EncoderFactory.construct,
    ClassifierFactory.set, ClassifierFactory.apply, ClassifierFactory.construct,
    Options.set, Options.merge, Options.get_string, Options.find,
    findEntry, constructAll, EncoderClassifier.push_back, ht,
    ModelBase.layout, ModelBase.subs, SubModel.cls, SubModel.stream, SubModel.options,
    ModelBase.shape, SubModel.role]

/-- The model the `bert-classifier` recipe constructs. -/
theorem construct_bert_classifier (build : Build) (use : usage) (options : Options)
    (t : String) (ht : options.find "type" = some (.str t)) :
    ∃ m, by_type_bert_classifier build use options = .ok m ∧
      m.shape = .EncoderClassifier ∧
      m.subs.map SubModel.role = [.encoder, .classifier] ∧
      m.layout = [(.BertEncoder, some (.int 0)), (.BertClassifier, some (.int 1))] := by
  simp only [Options.find] at ht
  simp [by_type_bert_classifier, EncoderClassifierFactory.construct,
    EncoderClassifierFactory.set, EncoderClassifierFactory.apply,
    EncoderClassifierFactory.push_back_encoder,
    EncoderClassifierFactory.push_back_classifier, encoder_classifier, encoder, classifier,
    EncoderFactory.set, EncoderFactory.apply, EncoderFactory.construct,
    ClassifierFactory.set, ClassifierFactory.apply, ClassifierFactory.construct,
    Options.set, Options.merge, Options.get_string, Options.find,
    findEntry, constructAll, EncoderClassifier.push_back, ht,
    ModelBase.layout, ModelBase.subs, SubModel.cls, SubModel.stream, SubModel.options,
    ModelBase.shape, SubModel.role]

/-- C11, counterexample: for options that hold no `type`, `by_type` builds no
model for `bert`: the read of `type` at line 88 fails. -/
theorem C11_no_type_counterexample :
    by_type ⟨false, false⟩ "bert" usage.training ⟨[]⟩ = .error (.RequiredOption "type") ∧
    by_type ⟨false, false⟩ "bert-classifier" usage.training ⟨[]⟩ =
      .error (.RequiredOption "type") ∧
    ¬ ∃ m, by_type ⟨false, false⟩ "bert" usage.training ⟨[]⟩ = .ok m := by
  refine ⟨rfl, rfl, ?_⟩
  rintro ⟨m, h⟩
  have e : by_type ⟨false, false⟩ "bert" usage.training ⟨[]⟩ =
      .error (.RequiredOption "type") := rfl
  rw [e] at h
  cases h

/-- C11, amended: for every build, every usage and every options value that
holds a string `type`, `by_type` builds for `bert` one encoder-classifier whose
sub-models are a BERT encoder on stream 0, a masked-LM classifier on stream 0
and a BERT classifier (next sentence) on stream 1, in this order, and for
`bert-classifier` one encoder-classifier whose sub-models are one BERT encoder
and then one BERT classifier. -/
theorem C11_bert_recipes (build : Build) (use : usage) (options : Options) (t : String)
    (ht : options.find "type" = some (.str t)) :
    (∃ m, by_type build "bert" use options = .ok m ∧
      m.shape = .EncoderClassifier ∧
      m.subs.map SubModel.role = [.encoder, .classifier, .classifier] ∧
      m.layout = [(.BertEncoder, some (.int 0)), (.BertMaskedLM, some (.int 0)),
        (.BertClassifier, some (.int 1))]) ∧
    (∃ m, by_type build "bert-classifier" use options = .ok m ∧
      m.shape = .EncoderClassifier ∧
      m.subs.map SubModel.role = [.encoder, .classifier] ∧
      m.subs.map SubModel.cls = [.BertEncoder, .BertClassifier]) := by
  constructor
  · exact construct_bert build use options t ht
  · obtain ⟨m, h1, h2, h3, h4⟩ := construct_bert_classifier build use options t ht
    refine ⟨m, h1, h2, h3, ?_⟩
    have := congrArg (List.map Prod.fst) h4
    simpa [ModelBase.layout] using this

/-- C11 amended, for scoring and options that hold `bert` as `type`. -/
theorem C11_bert_recipes_witness :
    (∃ m, by_type ⟨false, false⟩ "bert" usage.scoring ⟨[("type", .str "bert")]⟩ = .ok m ∧
      m.shape = .EncoderClassifier ∧
      m.subs.map SubModel.role = [.encoder, .classifier, .classifier] ∧
      m.layout = [(.BertEncoder, some (.int 0)), (.BertMaskedLM, some (.int 0)),
        (.BertClassifier, some (.int 1))]) ∧
    (∃ m, by_type ⟨false, false⟩ "bert-classifier" usage.scoring
        ⟨[("type", .str "bert")]⟩ = .ok m ∧
      m.shape = .EncoderClassifier ∧
      m.subs.map SubModel.role = [.encoder, .classifier] ∧
      m.subs.map SubModel.cls = [.BertEncoder, .BertClassifier]) :=
  C11_bert_recipes ⟨false, false⟩ usage.scoring ⟨[("type", .str "bert")]⟩ "bert" (by decide)

/-! ### C12: the smtransformer family -/

/-- The role of a sub-model is the role of its class. -/
theorem SubModel.role_eq (s : SubModel) : s.role = s.cls.role := by
  rcases s with e | d | c
  · cases e <;> rfl
  · cases d <;> rfl
  · cases c <;> rfl

/-- The roles of a composite follow from its layout. -/
theorem ModelBase.roles_of_layout (m : ModelBase) :
    m.subs.map SubModel.role = m.layout.map fun p => p.1.role := by
  simp [ModelBase.layout, SubModel.role_eq]

/-- C12: for every token the smtransformer pattern accepts, every build and
usage, and options that hold a string `type`, the token is a descriptor
`smtransformer<segments>`, and the primary model `by_type` builds is one
encoder-decoder with two transformer encoders on streams 0 and 1, both named
`encoder`, and one transformer decoder on stream 2, whatever the segments
carry; it is returned alone for a usage other than training, and under
training it is followed by one head per segment, the head at 0-based position
`k` reading the segment's digit or, without one, stream `3 + k`. -/
theorem C12_smtransformer (build : Build) (type : String) (use : usage) (options : Options)
    (t : String) (hacc : regex_match type.data smtransformerRegex = true)
    (ht : options.find "type" = some (.str t)) :
    ∃ segs primary heads,
      segs ≠ [] ∧ type = descriptor "smtransformer" none segs ∧
      by_type build type use options =
        .ok (if use = usage.training then .MultiModel (primary :: heads) else primary) ∧
      primary.shape = .EncoderDecoder ∧
      primary.subs.map SubModel.role = [.encoder, .encoder, .decoder] ∧
      primary.layout = [(.EncoderTransformer, some (.int 0)),
        (.EncoderTransformer, some (.int 1)), (.DecoderTransformer, some (.int 2))] ∧
      (primary.subs.take 2).map SubModel.pfx = [some (.str "encoder"), some (.str "encoder")] ∧
      heads.length = segs.length ∧
      ∀ k, (heads.map ModelBase.layout)[k]? = segs[k]?.map fun (s : Segment) =>
        headLayout s.kind (match s.digit with
          | some d => d.val
          | none => 3 + k) := by
  obtain ⟨segs, hne, rfl⟩ := (regex_match_smtransformerRegex type).mp hacc
  obtain ⟨primary, heads, p1, p2, p3, p4, _, p6, p7⟩ := by_type_smtransformer_descriptor build
    segs use options t hne ht
  refine ⟨segs, primary, heads, hne, rfl, p7, p1, ?_, p2, ?_, p6, ?_⟩
  · rw [ModelBase.roles_of_layout, p2]
    rfl
  · rw [List.map_take, p3]
    rfl
  · intro k
    rw [p4, headLayouts_getElem?]
    rfl

/-- C12 at `smtransformer-bert-gpt7-gpt` under training: heads on streams 3, 7
and 5. -/
theorem C12_smtransformer_witness :
    ∃ segs primary heads,
      segs ≠ [] ∧ "smtransformer-bert-gpt7-gpt" = descriptor "smtransformer" none segs ∧
      by_type ⟨false, false⟩ "smtransformer-bert-gpt7-gpt" usage.training
          ⟨[("type", .str "smtransformer-bert-gpt7-gpt")]⟩ =
        .ok (if usage.training = usage.training then .MultiModel (primary :: heads)
          else primary) ∧
      primary.shape = .EncoderDecoder ∧
      primary.subs.map SubModel.role = [.encoder, .encoder, .decoder] ∧
      primary.layout = [(.EncoderTransformer, some (.int 0)),
        (.EncoderTransformer, some (.int 1)), (.DecoderTransformer, some (.int 2))] ∧
      (primary.subs.take 2).map SubModel.pfx = [some (.str "encoder"), some (.str "encoder")] ∧
      heads.length = segs.length ∧
      ∀ k, (heads.map ModelBase.layout)[k]? = segs[k]?.map fun (s : Segment) =>
        headLayout s.kind (match s.digit with
          | some d => d.val
          | none => 3 + k) :=
  C12_smtransformer ⟨false, false⟩ "smtransformer-bert-gpt7-gpt" usage.training
    ⟨[("type", .str "smtransformer-bert-gpt7-gpt")]⟩ "smtransformer-bert-gpt7-gpt"
    (by decide) (by decide)

/-! ### C13: the component factories -/

/-- C13: a component factory whose option `type` reads as the string `type`
constructs a sub-model exactly when `type` is one of the values it recognises
(`s2s`, `transformer`, `bert-encoder`, and `char-s2s` under `CUDNN`, for an
encoder; `s2s`, `transformer` for a decoder; `bert-masked-lm`,
`bert-classifier` for a classifier); the sub-model then has the class `type`
names and the options of the factory, and for every other string construction
fails with the unknown-type error of the factory. -/
theorem C13_component_factories (build : Build) (options : Options) (type : String)
    (ht : options.get_string "type" = .ok type) :
    ((∀ cls, (type, cls) ∈ encoderTypes build →
        ∃ e, EncoderFactory.construct build ⟨options⟩ = .ok e ∧
          (SubModel.encoder e).cls = cls ∧ (SubModel.encoder e).options = options) ∧
      ((∀ cls, (type, cls) ∉ encoderTypes build) →
        EncoderFactory.construct build ⟨options⟩ = .error .UnknownEncoderType)) ∧
    ((∀ cls, (type, cls) ∈ decoderTypes →
        ∃ d, DecoderFactory.construct ⟨options⟩ = .ok d ∧
          (SubModel.decoder d).cls = cls ∧ (SubModel.decoder d).options = options) ∧
      ((∀ cls, (type, cls) ∉ decoderTypes) →
        DecoderFactory.construct ⟨options⟩ = .error .UnknownDecoderType)) ∧
    ((∀ cls, (type, cls) ∈ classifierTypes →
        ∃ c, ClassifierFactory.construct ⟨options⟩ = .ok c ∧
          (SubModel.classifier c).cls = cls ∧ (SubModel.classifier c).options = options) ∧
      ((∀ cls, (type, cls) ∉ classifierTypes) →
        ClassifierFactory.construct ⟨options⟩ = .error .UnknownClassifierType)) := by
  refine ⟨⟨?_, ?_⟩, ⟨?_, ?_⟩, ⟨?_, ?_⟩⟩
  · intro cls h
    simp only [EncoderFactory.construct, ht]
    rcases build with ⟨cudnn, ex⟩
    cases cudnn
    · simp only [encoderTypes, Bool.false_eq_true, if_false, List.append_nil, List.mem_cons,
        Prod.mk.injEq, List.mem_singleton, List.not_mem_nil, or_false] at h
      rcases h with ⟨rfl, rfl⟩ | ⟨rfl, rfl⟩ | ⟨rfl, rfl⟩ <;>
        simp [SubModel.cls, SubModel.options]
    · simp only [encoderTypes, if_true, List.cons_append, List.nil_append, List.mem_cons,
        Prod.mk.injEq, List.mem_singleton, List.not_mem_nil, or_false] at h
      rcases h with ⟨rfl, rfl⟩ | ⟨rfl, rfl⟩ | ⟨rfl, rfl⟩ | ⟨rfl, rfl⟩ <;>
        simp [SubModel.cls, SubModel.options]
  · intro h
    simp only [EncoderFactory.construct, ht]
    rcases build with ⟨cudnn, ex⟩
    cases cudnn
    · have h1 := h .EncoderS2S
      have h2 := h .EncoderTransformer
      have h3 := h .BertEncoder
      simp only [encoderTypes, Bool.false_eq_true, if_false, List.append_nil, List.mem_cons,
        Prod.mk.injEq, List.mem_singleton, List.not_mem_nil, or_false] at h1 h2 h3
      simp_all
    · have h1 := h .EncoderS2S
      have h2 := h .EncoderTransformer
      have h3 := h .BertEncoder
      have h4 := h .CharS2SEncoder
      simp only [encoderTypes, if_true, List.cons_append, List.nil_append, List.mem_cons,
        Prod.mk.injEq, List.mem_singleton, List.not_mem_nil, or_false] at h1 h2 h3 h4
      simp_all
  · intro cls h
    simp only [DecoderFactory.construct, ht]
    simp only [decoderTypes, List.mem_cons, Prod.mk.injEq, List.mem_singleton,
      List.not_mem_nil, or_false] at h
    rcases h with ⟨rfl, rfl⟩ | ⟨rfl, rfl⟩ <;>
      simp [SubModel.cls, SubModel.options]
  · intro h
    simp only [DecoderFactory.construct, ht]
    have h1 := h .DecoderS2S
    have h2 := h .DecoderTransformer
    simp only [decoderTypes, List.mem_cons, Prod.mk.injEq, List.mem_singleton,
      List.not_mem_nil, or_false] at h1 h2
    simp_all
  · intro cls h
    simp only [ClassifierFactory.construct, ht]
    simp only [classifierTypes, List.mem_cons, Prod.mk.injEq, List.mem_singleton,
      List.not_mem_nil, or_false] at h
    rcases h with ⟨rfl, rfl⟩ | ⟨rfl, rfl⟩ <;>
      simp [SubModel.cls, SubModel.options]
  · intro h
    simp only [ClassifierFactory.construct, ht]
    have h1 := h .BertMaskedLM
    have h2 := h .BertClassifier
    simp only [classifierTypes, List.mem_cons, Prod.mk.injEq, List.mem_singleton,
      List.not_mem_nil, or_false] at h1 h2
    simp_all

/-- C13 at `transformer`, which names an encoder and a decoder but no
classifier, and at `char-s2s` in a build without `CUDNN`, which names no
encoder. -/
theorem C13_component_factories_witness :
    (∃ e, EncoderFactory.construct ⟨false, false⟩ ⟨⟨[("type", .str "transformer")]⟩⟩ = .ok e ∧
      (SubModel.encoder e).cls = .EncoderTransformer ∧
      (SubModel.encoder e).options = ⟨[("type", .str "transformer")]⟩) ∧
    (∃ d, DecoderFactory.construct ⟨⟨[("type", .str "transformer")]⟩⟩ = .ok d ∧
      (SubModel.decoder d).cls = .DecoderTransformer ∧
      (SubModel.decoder d).options = ⟨[("type", .str "transformer")]⟩) ∧
    ClassifierFactory.construct ⟨⟨[("type", .str "transformer")]⟩⟩ =
      .error .UnknownClassifierType ∧
    EncoderFactory.construct ⟨false, false⟩ ⟨⟨[("type", .str "char-s2s")]⟩⟩ =
      .error .UnknownEncoderType :=
  ⟨(C13_component_factories ⟨false, false⟩ ⟨[("type", .str "transformer")]⟩ "transformer"
      rfl).1.1 .EncoderTransformer (by decide),
   (C13_component_factories ⟨false, false⟩ ⟨[("type", .str "transformer")]⟩ "transformer"
      rfl).2.1.1 .DecoderTransformer (by decide),
   (C13_component_factories ⟨false, false⟩ ⟨[("type", .str "transformer")]⟩ "transformer"
      rfl).2.2.2 (by intro cls; cases cls <;> decide),
   (C13_component_factories ⟨false, false⟩ ⟨[("type", .str "char-s2s")]⟩ "char-s2s"
      rfl).1.2 (by intro cls; cases cls <;> decide)⟩

/-! ### C14: norm clipping at or below the threshold -/

/-- C14: for a threshold `c > 0` and a tensor whose norm is at most `c`,
`Norm(c).clip` leaves the tensor as it is, also when the norm equals `c` and
the test `l2Norm >= c_` takes the rescaling branch (the factor is then 1). -/
theorem C14_norm_clip_identity {K : Type} [LinearOrderedField K] (L2Norm : Tensor K → K)
    (c : K) (t : Tensor K) (hc : 0 < c) (hle : L2Norm t ≤ c) :
    (Norm.mk c).clip L2Norm t = t := by
  simp only [Norm.clip]
  split
  · next hge =>
    have heq : L2Norm t = c := le_antisymm hle hge
    have hne : c ≠ 0 := ne_of_gt hc
    simp [Element, heq, div_self hne]
  · rfl

/-- C14 for the Euclidean norm of the reals, at the tensor `[3, 4]` of norm 5
and the threshold 5, where the rescaling branch is taken. -/
theorem C14_norm_clip_identity_witness :
    (5 : ℝ) ≤ (fun u : Tensor ℝ => Real.sqrt (sumSquares u)) [3, 4] ∧
    (Norm.mk (5 : ℝ)).clip (fun u => Real.sqrt (sumSquares u)) [3, 4] = [3, 4] := by
  have h : Real.sqrt (sumSquares ([3, 4] : Tensor ℝ)) = 5 := by
    rw [show sumSquares ([3, 4] : Tensor ℝ) = 5 ^ 2 by norm_num [sumSquares]]
    exact Real.sqrt_sq (by norm_num)
  exact ⟨le_of_eq h.symm,
    C14_norm_clip_identity (fun u => Real.sqrt (sumSquares u)) 5 [3, 4] (by norm_num)
      (le_of_eq h)⟩

/-! ### C15: norm clipping above the threshold -/

/-- A sum of squares is not negative. -/
theorem sumSquares_nonneg {K : Type} [LinearOrderedField K] (t : Tensor K) :
    0 ≤ sumSquares t := by
  induction t with
  | nil => simp [sumSquares]
  | cons x t ih =>
    simp only [sumSquares, List.map_cons, List.sum_cons] at ih ⊢
    positivity

/-- The square root of the sum of squares is the L2 norm of the reals. -/
theorem isL2Norm_sqrt : IsL2Norm fun u : Tensor ℝ => Real.sqrt (sumSquares u) :=
  fun t => ⟨Real.sqrt_nonneg _, Real.sq_sqrt (sumSquares_nonneg t)⟩

/-- C15: for a threshold `c > 0` and a tensor whose L2 norm is above `c`,
`Norm(c).clip` multiplies every element by `c / norm`, and the L2 norm of the
result is exactly `c`. -/
theorem C15_norm_clip_rescales {K : Type} [LinearOrderedField K] (L2Norm : Tensor K → K)
    (c : K) (t : Tensor K) (hnorm : IsL2Norm L2Norm) (hc : 0 < c) (hgt : c < L2Norm t) :
    (Norm.mk c).clip L2Norm t = t.map (fun x => x * (c / L2Norm t)) ∧
    L2Norm ((Norm.mk c).clip L2Norm t) = c := by
  have hclip : (Norm.mk c).clip L2Norm t = t.map (fun x => x * (c / L2Norm t)) := by
    simp only [Norm.clip, if_pos (le_of_lt hgt), Element]
    congr 1
    funext x
    ring
  refine ⟨hclip, ?_⟩
  have hn : 0 < L2Norm t := lt_trans hc hgt
  have hsum : ∀ (a : K) (u : Tensor K), sumSquares (u.map fun x => x * a) = a ^ 2 * sumSquares u := by
    intro a u
    induction u with
    | nil => simp [sumSquares]
    | cons x u ih =>
      simp only [sumSquares, List.map_cons, List.sum_cons] at ih ⊢
      rw [ih]
      ring
  have hsq : L2Norm ((Norm.mk c).clip L2Norm t) ^ 2 = c ^ 2 := by
    rw [(hnorm _).2, hclip, hsum, ← (hnorm t).2]
    field_simp
  have h0 : 0 ≤ L2Norm ((Norm.mk c).clip L2Norm t) := (hnorm _).1
  exact (sq_eq_sq₀ h0 hc.le).mp hsq

/-- C15 for the Euclidean norm of the reals, at the tensor `[3, 4]` of norm 5
and the threshold 1: the result is `[3/5, 4/5]`, of norm 1. -/
theorem C15_norm_clip_rescales_witness :
    (Norm.mk (1 : ℝ)).clip (fun u => Real.sqrt (sumSquares u)) [3, 4] = [3 / 5, 4 / 5] ∧
    Real.sqrt (sumSquares ((Norm.mk (1 : ℝ)).clip (fun u => Real.sqrt (sumSquares u))
      [3, 4])) = 1 := by
  have h : Real.sqrt (sumSquares ([3, 4] : Tensor ℝ)) = 5 := by
    rw [show sumSquares ([3, 4] : Tensor ℝ) = 5 ^ 2 by norm_num [sumSquares]]
    exact Real.sqrt_sq (by norm_num)
  have key := C15_norm_clip_rescales (fun u : Tensor ℝ => Real.sqrt (sumSquares u)) 1 [3, 4]
    isL2Norm_sqrt (by norm_num) (by show (1 : ℝ) < Real.sqrt (sumSquares [3, 4]); rw [h]; norm_num)
  refine ⟨?_, key.2⟩
  rw [key.1]
  simp only [h, List.map_cons, List.map_nil]
  norm_num

/-! ### C16: elementwise clipping bounds every element -/

/-- For a threshold `c ≥ 0`, `Clip` lands in `[-c, c]`. -/
theorem Clip_mem_interval {K : Type} [LinearOrderedField K] (x c : K) (hc : 0 ≤ c) :
    -c ≤ Clip x c ∧ Clip x c ≤ c := by
  refine ⟨le_max_left _ _, max_le ?_ (min_le_left _ _)⟩
  linarith

/-- `Clip` leaves the numbers of `[-c, c]` as they are. -/
theorem Clip_of_mem_interval {K : Type} [LinearOrderedField K] (x c : K)
    (h1 : -c ≤ x) (h2 : x ≤ c) : Clip x c = x := by
  simp [Clip, min_eq_right h2, max_eq_right h1]

/-- C16: for a threshold `c ≥ 0` and every tensor, `Elementwise(c).clip` gives
a tensor of the same length, whose element at every index is the clamped
input element, and all of whose elements lie in `[-c, c]`. -/
theorem C16_elementwise_clip_bounds {K : Type} [LinearOrderedField K] (c : K)
    (t : Tensor K) (hc : 0 ≤ c) :
    ((Elementwise.mk c).clip t).length = t.length ∧
    (∀ i : Nat, ((Elementwise.mk c).clip t)[i]? = t[i]?.map fun x => Clip x c) ∧
    ∀ y ∈ (Elementwise.mk c).clip t, -c ≤ y ∧ y ≤ c := by
  refine ⟨by simp [Elementwise.clip, Element], ?_, ?_⟩
  · intro i
    simp [Elementwise.clip, Element]
  · intro y hy
    simp only [Elementwise.clip, Element, List.mem_map] at hy
    obtain ⟨x, _, rfl⟩ := hy
    exact Clip_mem_interval x c hc

/-- C16 in the rationals, at the threshold 2 and the tensor `[-5, 1, 2, 7/2]`. -/
theorem C16_elementwise_clip_bounds_witness :
    (Elementwise.mk (2 : ℚ)).clip [-5, 1, 2, 7 / 2] = [-2, 1, 2, 2] ∧
    ((Elementwise.mk (2 : ℚ)).clip [-5, 1, 2, 7 / 2]).length = 4 ∧
    ∀ y ∈ (Elementwise.mk (2 : ℚ)).clip [-5, 1, 2, 7 / 2], -2 ≤ y ∧ y ≤ 2 :=
  ⟨by norm_num [Elementwise.clip, Element, Clip],
    (C16_elementwise_clip_bounds (2 : ℚ) [-5, 1, 2, 7 / 2] (by norm_num)).1,
    (C16_elementwise_clip_bounds (2 : ℚ) [-5, 1, 2, 7 / 2] (by norm_num)).2.2⟩

/-! ### C17: elementwise clipping is idempotent -/

/-- C17: for a threshold `c ≥ 0` and every tensor, clipping twice with
`Elementwise(c)` gives what clipping once gives. -/
theorem C17_elementwise_clip_idempotent {K : Type} [LinearOrderedField K] (c : K)
    (t : Tensor K) (hc : 0 ≤ c) :
    (Elementwise.mk c).clip ((Elementwise.mk c).clip t) = (Elementwise.mk c).clip t := by
  simp only [Elementwise.clip, Element, List.map_map]
  apply List.map_congr_left
  intro x _
  exact Clip_of_mem_interval _ c (Clip_mem_interval x c hc).1 (Clip_mem_interval x c hc).2

/-- C17 in the rationals, at the threshold 2 and the tensor `[-5, 1, 2, 7/2]`. -/
theorem C17_elementwise_clip_idempotent_witness :
    (Elementwise.mk (2 : ℚ)).clip ((Elementwise.mk (2 : ℚ)).clip [-5, 1, 2, 7 / 2]) =
      (Elementwise.mk (2 : ℚ)).clip [-5, 1, 2, 7 / 2] :=
  C17_elementwise_clip_idempotent (2 : ℚ) [-5, 1, 2, 7 / 2] (by norm_num)

/-! ### C18: the role order of a composite -/

/-- `constructAll` succeeds exactly when every construction succeeds, and then
gives the results in the order of the inputs. -/
theorem constructAll_eq_ok_iff {α β : Type} (f : α → Except Error β) :
    ∀ (l : List α) (bs : List β),
      constructAll f l = .ok bs ↔ List.Forall₂ (fun a b => f a = .ok b) l bs := by
  intro l
  induction l with
  | nil =>
    intro bs
    cases bs <;> simp [constructAll]
  | cons a l ih =>
    intro bs
    simp only [constructAll]
    cases hfa : f a with
    | error e =>
      simp only []
      constructor
      · intro h; cases h
      · intro h
        cases h with
        | cons h1 _ => rw [hfa] at h1; cases h1
    | ok b =>
      simp only []
      cases hrest : constructAll f l with
      | error e =>
        simp only []
        constructor
        · intro h; cases h
        · intro h
          cases h with
          | cons _ h2 =>
            rw [← ih] at h2
            rw [hrest] at h2
            cases h2
      | ok bs' =>
        simp only []
        constructor
        · intro h
          cases h
          exact List.Forall₂.cons hfa ((ih bs').mp hrest)
        · intro h
          cases h with
          | cons h1 h2 =>
            rw [hfa] at h1
            cases h1
            rw [← ih, hrest] at h2
            cases h2
            rfl

/-- The pushes of encoder factories go to `encoders_` and those of decoder
factories to `decoders_`, each list in the order of the calls. -/
theorem EncoderDecoderFactory.push_all_eq (pushes : List (EncoderFactory ⊕ DecoderFactory)) :
    ∀ f : EncoderDecoderFactory, f.push_all pushes =
      ⟨f.options, f.encoders ++ lefts pushes, f.decoders ++ rights pushes⟩ := by
  induction pushes with
  | nil => intro f; simp [EncoderDecoderFactory.push_all, lefts, rights]
  | cons p pushes ih =>
    intro f
    have h := ih (match p with
      | .inl e => f.push_back_encoder e
      | .inr d => f.push_back_decoder d)
    simp only [EncoderDecoderFactory.push_all, List.foldl_cons] at h ⊢
    rw [h]
    cases p <;>
      simp [EncoderDecoderFactory.push_back_encoder, EncoderDecoderFactory.push_back_decoder,
        lefts, rights]

/-- The pushes of encoder factories go to `encoders_` and those of classifier
factories to `classifiers_`, each list in the order of the calls. -/
theorem EncoderClassifierFactory.push_all_classifier_eq
    (pushes : List (EncoderFactory ⊕ ClassifierFactory)) :
    ∀ f : EncoderClassifierFactory, f.push_all pushes =
      ⟨f.options, f.encoders ++ lefts pushes, f.classifiers ++ rights pushes⟩ := by
  induction pushes with
  | nil => intro f; simp [EncoderClassifierFactory.push_all, lefts, rights]
  | cons p pushes ih =>
    intro f
    have h := ih (match p with
      | .inl e => f.push_back_encoder e
      | .inr c => f.push_back_classifier c)
    simp only [EncoderClassifierFactory.push_all, List.foldl_cons] at h ⊢
    rw [h]
    cases p <;>
      simp [EncoderClassifierFactory.push_back_encoder,
        EncoderClassifierFactory.push_back_classifier, lefts, rights]

/-- Every push is a left or a right entry. -/
theorem lefts_length_add_rights_length {α β : Type} (pushes : List (α ⊕ β)) :
    (lefts pushes).length + (rights pushes).length = pushes.length := by
  induction pushes with
  | nil => rfl
  | cons p pushes ih =>
    cases p <;> simp [lefts, rights] at ih ⊢ <;> omega

/-- Pushing a list of sub-models into an encoder-decoder appends them. -/
theorem EncoderDecoder.foldl_push_back (l : List SubModel) :
    ∀ m : EncoderDecoder, (l.foldl (fun m s => m.push_back s) m) =
      ⟨m.kind, m.options, m.subs ++ l⟩ := by
  induction l with
  | nil => intro m; simp
  | cons s l ih =>
    intro m
    rw [List.foldl_cons, ih]
    simp [EncoderDecoder.push_back]

/-- Pushing a list of sub-models into an encoder-classifier appends them. -/
theorem EncoderClassifier.foldl_push_back_classifier (l : List SubModel) :
    ∀ m : EncoderClassifier, (l.foldl (fun m s => m.push_back s) m) =
      ⟨m.kind, m.options, m.subs ++ l⟩ := by
  induction l with
  | nil => intro m; simp
  | cons s l ih =>
    intro m
    rw [List.foldl_cons, ih]
    simp [EncoderClassifier.push_back]

/-- What `EncoderDecoderFactory::construct` returns, in one piece. -/
theorem EncoderDecoderFactory.construct_eq_ok_iff (build : Build) (f : EncoderDecoderFactory)
    (m : ModelBase) :
    f.construct build = .ok m ↔
      ∃ t encs decs, f.options.get_string "type" = .ok t ∧
        List.Forall₂ (fun ef e => (ef.apply f.options).construct build = .ok e)
          f.encoders encs ∧
        List.Forall₂ (fun df d => (df.apply f.options).construct = .ok d) f.decoders decs ∧
        m = .add_cost (.encdec ⟨if t = "nematus" then .Nematus
              else if t = "amun" then .Amun else .EncoderDecoder,
            f.options, encs.map SubModel.encoder ++ decs.map SubModel.decoder⟩) f.options := by
  simp only [EncoderDecoderFactory.construct, ← constructAll_eq_ok_iff]
  have hfold : ∀ (k : EncoderDecoderKind) (encs : List EncoderBase) (decs : List DecoderBase),
      List.foldl (fun m d => m.push_back (SubModel.decoder d))
        (List.foldl (fun m e => m.push_back (SubModel.encoder e))
          (⟨k, f.options, []⟩ : EncoderDecoder) encs) decs =
        ⟨k, f.options, encs.map SubModel.encoder ++ decs.map SubModel.decoder⟩ := by
    intro k encs decs
    have h1 := EncoderDecoder.foldl_push_back (encs.map SubModel.encoder) ⟨k, f.options, []⟩
    have h2 := EncoderDecoder.foldl_push_back (decs.map SubModel.decoder)
      ⟨k, f.options, encs.map SubModel.encoder⟩
    simp only [List.foldl_map, List.nil_append] at h1 h2
    rw [h1, h2]
  cases ht : f.options.get_string "type" with
  | error e => simp
  | ok t =>
    cases he : constructAll (fun ef => (ef.apply f.options).construct build) f.encoders with
    | error e => simp
    | ok encs =>
      cases hd : constructAll (fun df => (df.apply f.options).construct) f.decoders with
      | error e => simp
      | ok decs =>
        simp only [hfold, Except.ok.injEq]
        constructor
        · rintro rfl
          exact ⟨t, encs, decs, rfl, rfl, rfl, rfl⟩
        · rintro ⟨t', encs', decs', h1, h2, h3, rfl⟩
          cases h1; cases h2; cases h3
          rfl

/-- What `EncoderClassifierFactory::construct` returns, in one piece. -/
theorem EncoderClassifierFactory.construct_classifier_eq_ok_iff (build : Build)
    (f : EncoderClassifierFactory) (m : ModelBase) :
    f.construct build = .ok m ↔
      ∃ t encs clss, f.options.get_string "type" = .ok t ∧
        List.Forall₂ (fun ef e => (ef.apply f.options).construct build = .ok e)
          f.encoders encs ∧
        List.Forall₂ (fun cf c => (cf.apply f.options).construct = .ok c)
          f.classifiers clss ∧
        m = .add_cost (.enccls ⟨if t = "bert" then .BertEncoderClassifier
              else if t = "bert-classifier" then .BertEncoderClassifier
              else .EncoderClassifier,
            f.options, encs.map SubModel.encoder ++ clss.map SubModel.classifier⟩)
          f.options := by
  simp only [EncoderClassifierFactory.construct, ← constructAll_eq_ok_iff]
  have hfold : ∀ (k : EncoderClassifierKind) (encs : List EncoderBase)
      (clss : List ClassifierBase),
      List.foldl (fun m c => m.push_back (SubModel.classifier c))
        (List.foldl (fun m e => m.push_back (SubModel.encoder e))
          (⟨k, f.options, []⟩ : EncoderClassifier) encs) clss =
        ⟨k, f.options, encs.map SubModel.encoder ++ clss.map SubModel.classifier⟩ := by
    intro k encs clss
    have h1 := EncoderClassifier.foldl_push_back_classifier (encs.map SubModel.encoder)
      ⟨k, f.options, []⟩
    have h2 := EncoderClassifier.foldl_push_back_classifier (clss.map SubModel.classifier)
      ⟨k, f.options, encs.map SubModel.encoder⟩
    simp only [List.foldl_map, List.nil_append] at h1 h2
    rw [h1, h2]
  cases ht : f.options.get_string "type" with
  | error e => simp
  | ok t =>
    cases he : constructAll (fun ef => (ef.apply f.options).construct build) f.encoders with
    | error e => simp
    | ok encs =>
      cases hd : constructAll (fun cf => (cf.apply f.options).construct) f.classifiers with
      | error e => simp
      | ok clss =>
        simp only [hfold, Except.ok.injEq]
        constructor
        · rintro rfl
          exact ⟨t, encs, clss, rfl, rfl, rfl, rfl⟩
        · rintro ⟨t', encs', clss', h1, h2, h3, rfl⟩
          cases h1; cases h2; cases h3
          rfl

/-- The roles of a list of constructed sub-models of one role. -/
theorem map_role_map {α : Type} (mk : α → SubModel) (r : Role) (h : ∀ a, (mk a).role = r)
    (l : List α) : (l.map mk).map SubModel.role = List.replicate l.length r := by
  induction l with
  | nil => rfl
  | cons a l ih => simp [List.replicate_succ, h a, ih]

/-- C18: push encoder factories and decoder factories into an
`EncoderDecoderFactory` in any interleaving.  `construct` returns a model
exactly when the option `type` can be read and every pushed factory
constructs its sub-model; the sub-models of that model are then the encoders
of the pushed encoder factories, in the order they were pushed, followed by
the decoders of the pushed decoder factories, in the order they were pushed,
one sub-model per pushed factory.  The same holds for an
`EncoderClassifierFactory`, with classifiers for decoders. -/
theorem C18_role_order (build : Build) (options : Options)
    (pushes : List (EncoderFactory ⊕ DecoderFactory))
    (pushes' : List (EncoderFactory ⊕ ClassifierFactory)) :
    (∀ m, ((⟨options, [], []⟩ : EncoderDecoderFactory).push_all pushes).construct build
        = .ok m ↔
      ∃ t encs decs, options.get_string "type" = .ok t ∧
        List.Forall₂ (fun ef e => (ef.apply options).construct build = .ok e)
          (lefts pushes) encs ∧
        List.Forall₂ (fun df d => (df.apply options).construct = .ok d) (rights pushes) decs ∧
        m.shape = .EncoderDecoder ∧
        m.subs = encs.map SubModel.encoder ++ decs.map SubModel.decoder ∧
        m.subs.map SubModel.role = List.replicate (lefts pushes).length Role.encoder ++
          List.replicate (rights pushes).length Role.decoder ∧
        m.subs.length = pushes.length ∧
        m = .add_cost (.encdec ⟨if t = "nematus" then .Nematus
              else if t = "amun" then .Amun else .EncoderDecoder,
            options, m.subs⟩) options) ∧
    (∀ m, ((⟨options, [], []⟩ : EncoderClassifierFactory).push_all pushes').construct build
        = .ok m ↔
      ∃ t encs clss, options.get_string "type" = .ok t ∧
        List.Forall₂ (fun ef e => (ef.apply options).construct build = .ok e)
          (lefts pushes') encs ∧
        List.Forall₂ (fun cf c => (cf.apply options).construct = .ok c) (rights pushes') clss ∧
        m.shape = .EncoderClassifier ∧
        m.subs = encs.map SubModel.encoder ++ clss.map SubModel.classifier ∧
        m.subs.map SubModel.role = List.replicate (lefts pushes').length Role.encoder ++
          List.replicate (rights pushes').length Role.classifier ∧
        m.subs.length = pushes'.length ∧
        m = .add_cost (.enccls ⟨if t = "bert" then .BertEncoderClassifier
              else if t = "bert-classifier" then .BertEncoderClassifier
              else .EncoderClassifier,
            options, m.subs⟩) options) := by
  constructor
  · intro m
    rw [EncoderDecoderFactory.push_all_eq, EncoderDecoderFactory.construct_eq_ok_iff]
    simp only [List.nil_append]
    constructor
    · rintro ⟨t, encs, decs, h1, h2, h3, rfl⟩
      refine ⟨t, encs, decs, h1, h2, h3, rfl, rfl, ?_, ?_, rfl⟩
      · simp only [ModelBase.subs, List.map_append, h2.length_eq, h3.length_eq]
        rw [map_role_map SubModel.encoder Role.encoder (fun _ => rfl),
          map_role_map SubModel.decoder Role.decoder (fun _ => rfl)]
      · simp only [ModelBase.subs, List.length_append, List.length_map, ← h2.length_eq,
          ← h3.length_eq]
        exact lefts_length_add_rights_length pushes
    · rintro ⟨t, encs, decs, h1, h2, h3, _, h5, _, _, h8⟩
      exact ⟨t, encs, decs, h1, h2, h3, by rw [h8, h5]⟩
  · intro m
    rw [EncoderClassifierFactory.push_all_classifier_eq, EncoderClassifierFactory.construct_classifier_eq_ok_iff]
    simp only [List.nil_append]
    constructor
    · rintro ⟨t, encs, clss, h1, h2, h3, rfl⟩
      refine ⟨t, encs, clss, h1, h2, h3, rfl, rfl, ?_, ?_, rfl⟩
      · simp only [ModelBase.subs, List.map_append, h2.length_eq, h3.length_eq]
        rw [map_role_map SubModel.encoder Role.encoder (fun _ => rfl),
          map_role_map SubModel.classifier Role.classifier (fun _ => rfl)]
      · simp only [ModelBase.subs, List.length_append, List.length_map, ← h2.length_eq,
          ← h3.length_eq]
        exact lefts_length_add_rights_length pushes'
    · rintro ⟨t, encs, clss, h1, h2, h3, _, h5, _, _, h8⟩
      exact ⟨t, encs, clss, h1, h2, h3, by rw [h8, h5]⟩

/-- C18 for the pushes decoder, encoder, decoder, encoder: construction
succeeds, and the model has the two encoders first and then the two decoders. -/
theorem C18_role_order_witness :
    (∃ m, ((⟨⟨[("type", .str "s2s")]⟩, [], []⟩ : EncoderDecoderFactory).push_all
        [.inr (decoder.set "index" (.int 2)), .inl (encoder.set "index" (.int 0)),
          .inr (decoder.set "index" (.int 3)), .inl (encoder.set "index" (.int 1))]).construct
        ⟨false, false⟩ = .ok m) ∧
    ∀ m, ((⟨⟨[("type", .str "s2s")]⟩, [], []⟩ : EncoderDecoderFactory).push_all
        [.inr (decoder.set "index" (.int 2)), .inl (encoder.set "index" (.int 0)),
          .inr (decoder.set "index" (.int 3)), .inl (encoder.set "index" (.int 1))]).construct
        ⟨false, false⟩ = .ok m →
      m.subs.map SubModel.role = [.encoder, .encoder, .decoder, .decoder] ∧
      m.subs.length = 4 := by
  refine ⟨⟨_, rfl⟩, ?_⟩
  intro m hm
  obtain ⟨_, _, _, _, _, _, _, _, h6, h7, _⟩ :=
    ((C18_role_order ⟨false, false⟩ ⟨[("type", .str "s2s")]⟩
      [.inr (decoder.set "index" (.int 2)), .inl (encoder.set "index" (.int 0)),
        .inr (decoder.set "index" (.int 3)), .inl (encoder.set "index" (.int 1))] []).1 m).mp hm
  exact ⟨h6, h7⟩

/-! ### C19: the subtype abort is unreachable

The typed reads, the component factories, the composite factories and every
recipe of `by_type` end, when they fail, in another error than "Unknown model
subtype"; the lemmas `noSubtypeAbort_*` follow the calls from the leaves up to
`by_type`. -/

theorem noSubtypeAbort_ok {α : Type} (a : α) : NoSubtypeAbort (Except.ok a : Except Error α) :=
  fun _ h => by cases h

theorem noSubtypeAbort_get_string (o : Options) (key : String) :
    NoSubtypeAbort (o.get_string key) := by
  intro s h
  simp only [Options.get_string] at h
  split at h <;> cases h

theorem noSubtypeAbort_get_size_t (o : Options) (key : String) :
    NoSubtypeAbort (o.get_size_t key) := by
  intro s h
  simp only [Options.get_size_t] at h
  split at h
  · split at h <;> cases h
  · cases h

theorem noSubtypeAbort_get_ints (o : Options) (key : String) :
    NoSubtypeAbort (o.get_ints key) := by
  intro s h
  simp only [Options.get_ints] at h
  split at h <;> cases h

theorem noSubtypeAbort_encoder (build : Build) (f : EncoderFactory) :
    NoSubtypeAbort (f.construct build) := by
  intro s h
  simp only [EncoderFactory.construct] at h
  split at h
  · rename_i e he
    cases h
    exact noSubtypeAbort_get_string _ _ s he
  · repeat' split at h
    all_goals cases h

theorem noSubtypeAbort_decoder (f : DecoderFactory) : NoSubtypeAbort f.construct := by
  intro s h
  simp only [DecoderFactory.construct] at h
  split at h
  · rename_i e he
    cases h
    exact noSubtypeAbort_get_string _ _ s he
  · repeat' split at h
    all_goals cases h

theorem noSubtypeAbort_classifier (f : ClassifierFactory) : NoSubtypeAbort f.construct := by
  intro s h
  simp only [ClassifierFactory.construct] at h
  split at h
  · rename_i e he
    cases h
    exact noSubtypeAbort_get_string _ _ s he
  · repeat' split at h
    all_goals cases h

theorem noSubtypeAbort_constructAll {α β : Type} (f : α → Except Error β)
    (hf : ∀ a, NoSubtypeAbort (f a)) : ∀ l, NoSubtypeAbort (constructAll f l) := by
  intro l
  induction l with
  | nil => exact noSubtypeAbort_ok _
  | cons a l ih =>
    intro s h
    simp only [constructAll] at h
    split at h
    · rename_i e he
      cases h
      exact hf a s he
    · split at h
      · rename_i e he
        cases h
        exact ih s he
      · cases h

theorem noSubtypeAbort_encoder_decoder (build : Build) (f : EncoderDecoderFactory) :
    NoSubtypeAbort (f.construct build) := by
  intro s h
  simp only [EncoderDecoderFactory.construct] at h
  split at h
  · rename_i e he
    cases h
    exact noSubtypeAbort_get_string _ _ s he
  · split at h
    · rename_i e he
      cases h
      exact noSubtypeAbort_constructAll _ (fun ef => noSubtypeAbort_encoder build _) _ s he
    · split at h
      · rename_i e he
        cases h
        exact noSubtypeAbort_constructAll _ (fun df => noSubtypeAbort_decoder _) _ s he
      · cases h

theorem noSubtypeAbort_encoder_classifier (build : Build) (f : EncoderClassifierFactory) :
    NoSubtypeAbort (f.construct build) := by
  intro s h
  simp only [EncoderClassifierFactory.construct] at h
  split at h
  · rename_i e he
    cases h
    exact noSubtypeAbort_get_string _ _ s he
  · split at h
    · rename_i e he
      cases h
      exact noSubtypeAbort_constructAll _ (fun ef => noSubtypeAbort_encoder build _) _ s he
    · split at h
      · rename_i e he
        cases h
        exact noSubtypeAbort_constructAll _ (fun cf => noSubtypeAbort_classifier _) _ s he
      · cases h

theorem noSubtypeAbort_lm (build : Build) (subtype type : String) (use : usage)
    (options : Options) : NoSubtypeAbort (by_type_lm build subtype type use options) := by
  intro s h
  simp only [by_type_lm] at h
  split at h
  · rename_i e he
    cases h
    split at he
    · exact noSubtypeAbort_get_size_t _ _ s he
    · cases he
  · split at h
    · rename_i e he
      cases h
      exact noSubtypeAbort_get_ints _ _ s he
    · split at h
      · cases h
      · exact noSubtypeAbort_encoder_decoder build _ s h

theorem noSubtypeAbort_bert_gpt (build : Build) (use : usage) (options : Options) :
    NoSubtypeAbort (by_type_bert_gpt build use options) := by
  intro s h
  simp only [by_type_bert_gpt] at h
  split at h
  · rename_i e he
    cases h
    exact noSubtypeAbort_encoder_decoder build _ s he
  · split at h
    · cases h
    · split at h
      · rename_i e he
        cases h
        exact noSubtypeAbort_encoder_classifier build _ s he
      · cases h

/-- The loop over the segments of a descriptor succeeds. -/
theorem by_type_heads_ok (build : Build) (base : Nat) (type : String) (use : usage)
    (options : Options) (segs : List Segment) (i : Nat) (hi : 1 ≤ i) :
    ∃ heads, by_type_heads (by_type_auxiliary build base type use options) i
      (segs.map Segment.part) = .ok heads ∧ heads.length = segs.length := by
  obtain ⟨heads, h, _, _, hl⟩ := by_type_heads_segments build base type use options segs i hi
  exact ⟨heads, h, hl⟩

theorem noSubtypeAbort_transformer_composite (build : Build) (type : String) (use : usage)
    (options : Options) (hacc : regex_match type.data transformerRegex = true) :
    NoSubtypeAbort (by_type_transformer_composite build type use options) := by
  obtain ⟨streams, segs, hne, rfl⟩ := (regex_match_transformerRegex type).mp hacc
  obtain ⟨c2, c3⟩ := captures_head streams
  obtain ⟨e1, e2⟩ := head_streams streams
  obtain ⟨heads, k1, _⟩ := by_type_heads_ok build 2
    (descriptor "transformer" streams segs) use options segs 1 (le_refl 1)
  intro s h
  simp only [by_type_transformer_composite,
    split_descriptor "transformer" hyphen_not_mem_transformer,
    List.headD_cons, List.tail_cons, c2, c3, e1, e2, k1] at h
  split at h
  · rename_i e he
    cases h
    exact noSubtypeAbort_encoder_decoder build _ s he
  · split at h <;> cases h

theorem noSubtypeAbort_smtransformer (build : Build) (type : String) (use : usage)
    (options : Options) (hacc : regex_match type.data smtransformerRegex = true) :
    NoSubtypeAbort (by_type_smtransformer build type use options) := by
  obtain ⟨segs, hne, rfl⟩ := (regex_match_smtransformerRegex type).mp hacc
  obtain ⟨heads, k1, _⟩ := by_type_heads_ok build 3
    (descriptor "smtransformer" none segs) use options segs 1 (le_refl 1)
  have hs := split_descriptor "smtransformer" hyphen_not_mem_smtransformer none segs
  intro s h
  simp only [by_type_smtransformer, hs, List.tail_cons, k1] at h
  split at h
  · rename_i e he
    cases h
    exact noSubtypeAbort_encoder_decoder build _ s he
  · split at h <;> cases h

theorem noSubtypeAbort_patterns (build : Build) (type : String) (use : usage)
    (options : Options) : NoSubtypeAbort (by_type_patterns build type use options) := by
  intro s h
  simp only [by_type_patterns] at h
  split at h
  · rename_i hacc
    exact noSubtypeAbort_transformer_composite build type use options hacc s h
  · split at h
    · rename_i hacc
      exact noSubtypeAbort_smtransformer build type use options hacc s h
    · split at h
      · cases h
      · split at h
        · cases h
        · split at h
          · exact noSubtypeAbort_encoder_decoder build _ s h
          · cases h

theorem noSubtypeAbort_multi (build : Build) (subtype : String) (shared : Bool)
    (type : String) (use : usage) (options : Options) :
    NoSubtypeAbort (by_type_multi build subtype shared type use options) := by
  simp only [by_type_multi]
  exact noSubtypeAbort_encoder_decoder build _

theorem noSubtypeAbort_core (build : Build) (type : String) (use : usage)
    (options : Options) (hcore : type ∈ coreBases) :
    NoSubtypeAbort (by_type build type use options) := by
  simp only [coreBases, List.mem_cons, List.mem_singleton, List.not_mem_nil, or_false]
    at hcore
  rcases hcore with rfl | rfl | rfl | rfl | rfl | rfl | rfl | rfl | rfl | rfl | rfl | rfl |
    rfl | rfl
  · exact noSubtypeAbort_encoder_decoder build _
  · exact noSubtypeAbort_encoder_decoder build _
  · exact noSubtypeAbort_encoder_decoder build _
  · exact noSubtypeAbort_encoder_decoder build _
  · exact noSubtypeAbort_encoder_decoder build _
  · exact noSubtypeAbort_lm build "s2s" "lm" use options
  · exact noSubtypeAbort_multi build "s2s" false "multi-s2s" use options
  · exact noSubtypeAbort_multi build "s2s" true "shared-multi-s2s" use options
  · exact noSubtypeAbort_multi build "transformer" false "multi-transformer" use options
  · exact noSubtypeAbort_multi build "transformer" true "shared-multi-transformer" use options
  · exact noSubtypeAbort_lm build "transformer" "lm-transformer" use options
  · exact noSubtypeAbort_encoder_classifier build _
  · exact noSubtypeAbort_encoder_classifier build _
  · exact noSubtypeAbort_bert_gpt build use options

/-- No call of `by_type` ends in the `ABORT` "Unknown model subtype". -/
theorem noSubtypeAbort_by_type (build : Build) (type : String) (use : usage)
    (options : Options) : NoSubtypeAbort (by_type build type use options) := by
  by_cases hcore : type ∈ coreBases
  · exact noSubtypeAbort_core build type use options hcore
  · rw [by_type_of_not_core build type use options hcore]
    exact noSubtypeAbort_patterns build _ use options

/-- The first part of a descriptor of the transformer family matches
`(transformer)(\d)?(\d)?`. -/
theorem head_matches (streams : Option (Fin 10 × Fin 10)) :
    regex_match ("transformer".data ++ streamChars streams) headRegex = true := by
  match streams with
  | none => decide
  | some (a, b) => revert a b; decide

/-- The text of a segment matches `(bert|gpt)(\d)?`. -/
theorem part_matches (s : Segment) : regex_match s.part partRegex = true :=
  (regex_match_iff _ _).mpr ((matches_partRegex _).mpr ⟨s, rfl⟩)

/-- What the loop reads from a part of an accepted token. -/
theorem parts_of_segments (segs : List Segment) :
    ∀ part ∈ segs.map Segment.part,
      regex_match part partRegex = true ∧
      ((regex_match_captures part partRegex).str 1 = "bert".data ∨
        (regex_match_captures part partRegex).str 1 = "gpt".data) ∧
      ((regex_match_captures part partRegex).str 2 = [] ∨
        ∃ d : Fin 10, (regex_match_captures part partRegex).str 2 = [digitChar d] ∧
          stoi ((regex_match_captures part partRegex).str 2) = .ok d.val) := by
  intro part hpart
  obtain ⟨s, _, rfl⟩ := List.mem_map.mp hpart
  obtain ⟨c1, c2⟩ := captures_part s
  refine ⟨part_matches s, ?_, ?_⟩
  · rw [c1]
    cases s.kind
    · exact Or.inl rfl
    · exact Or.inr rfl
  · rw [c2]
    cases s.digit with
    | none => exact Or.inl rfl
    | some d => exact Or.inr ⟨d, rfl, stoi_digitChar d⟩

/-- C19: for every token one of the two composite patterns accepts, splitting
on the hyphen gives a first part that matches `(transformer)(\d)?(\d)?` (or is
`smtransformer`) and further parts that each match `(bert|gpt)(\d)?`, with a
subtype `bert` or `gpt` and a stream text that is empty or one decimal digit,
on which `stoi` succeeds; the loop over these parts builds one head per part
and never fails.  So for no token, usage and options value does `by_type` end
in the `ABORT` "Unknown model subtype". -/
theorem C19_subtype_abort_unreachable (build : Build) (type : String) (use : usage)
    (options : Options) :
    (regex_match type.data transformerRegex = true →
      regex_match ((split '-' type.data).headD []) headRegex = true ∧
      ∀ g, g = 2 ∨ g = 3 →
        (regex_match_captures ((split '-' type.data).headD []) headRegex).str g = [] ∨
        ∃ d : Fin 10,
          (regex_match_captures ((split '-' type.data).headD []) headRegex).str g =
            [digitChar d] ∧
          stoi ((regex_match_captures ((split '-' type.data).headD []) headRegex).str g) =
            .ok d.val) ∧
    (regex_match type.data smtransformerRegex = true →
      (split '-' type.data).headD [] = "smtransformer".data) ∧
    (regex_match type.data transformerRegex = true ∨
        regex_match type.data smtransformerRegex = true →
      (∀ part ∈ (split '-' type.data).tail,
        regex_match part partRegex = true ∧
        ((regex_match_captures part partRegex).str 1 = "bert".data ∨
          (regex_match_captures part partRegex).str 1 = "gpt".data) ∧
        ((regex_match_captures part partRegex).str 2 = [] ∨
          ∃ d : Fin 10, (regex_match_captures part partRegex).str 2 = [digitChar d] ∧
            stoi ((regex_match_captures part partRegex).str 2) = .ok d.val)) ∧
      ∀ base i, 1 ≤ i →
        ∃ heads, by_type_heads (by_type_auxiliary build base type use options) i
            (split '-' type.data).tail = .ok heads ∧
          heads.length = (split '-' type.data).tail.length) ∧
    ∀ subtype, by_type build type use options ≠ .error (.UnknownModelSubtype subtype) := by
  refine ⟨?_, ?_, ?_, noSubtypeAbort_by_type build type use options⟩
  · intro h
    obtain ⟨streams, segs, _, rfl⟩ := (regex_match_transformerRegex type).mp h
    rw [split_descriptor "transformer" hyphen_not_mem_transformer]
    refine ⟨head_matches streams, ?_⟩
    obtain ⟨c2, c3⟩ := captures_head streams
    simp only [List.headD_cons]
    rintro g (rfl | rfl)
    · rw [c2]
      cases streams with
      | none => exact Or.inl rfl
      | some p => exact Or.inr ⟨p.1, rfl, stoi_digitChar p.1⟩
    · rw [c3]
      cases streams with
      | none => exact Or.inl rfl
      | some p => exact Or.inr ⟨p.2, rfl, stoi_digitChar p.2⟩
  · intro h
    obtain ⟨segs, _, rfl⟩ := (regex_match_smtransformerRegex type).mp h
    rw [split_descriptor "smtransformer" hyphen_not_mem_smtransformer]
    rfl
  · intro h
    have key : ∃ segs : List Segment, (split '-' type.data).tail = segs.map Segment.part := by
      rcases h with h | h
      · obtain ⟨streams, segs, _, rfl⟩ := (regex_match_transformerRegex type).mp h
        exact ⟨segs, by rw [split_descriptor "transformer" hyphen_not_mem_transformer]; rfl⟩
      · obtain ⟨segs, _, rfl⟩ := (regex_match_smtransformerRegex type).mp h
        exact ⟨segs, by rw [split_descriptor "smtransformer" hyphen_not_mem_smtransformer]; rfl⟩
    obtain ⟨segs, hsegs⟩ := key
    rw [hsegs]
    refine ⟨parts_of_segments segs, ?_⟩
    intro base i hi
    obtain ⟨heads, h1, h2⟩ := by_type_heads_ok build base type use options segs i hi
    exact ⟨heads, h1, by simp [h2]⟩

/-- C19 at `transformer12-bert0-gpt` under training. -/
theorem C19_subtype_abort_unreachable_witness :
    regex_match ((split '-' "transformer12-bert0-gpt".data).headD []) headRegex = true ∧
    (∀ part ∈ (split '-' "transformer12-bert0-gpt".data).tail,
      regex_match part partRegex = true ∧
      ((regex_match_captures part partRegex).str 1 = "bert".data ∨
        (regex_match_captures part partRegex).str 1 = "gpt".data) ∧
      ((regex_match_captures part partRegex).str 2 = [] ∨
        ∃ d : Fin 10, (regex_match_captures part partRegex).str 2 = [digitChar d] ∧
          stoi ((regex_match_captures part partRegex).str 2) = .ok d.val)) ∧
    (∃ heads, by_type_heads (by_type_auxiliary ⟨false, false⟩ 2 "transformer12-bert0-gpt"
          usage.training ⟨[]⟩) 1 (split '-' "transformer12-bert0-gpt".data).tail = .ok heads ∧
      heads.length = (split '-' "transformer12-bert0-gpt".data).tail.length) ∧
    ∀ subtype, by_type ⟨false, false⟩ "transformer12-bert0-gpt" usage.training ⟨[]⟩ ≠
      .error (.UnknownModelSubtype subtype) :=
  ⟨((C19_subtype_abort_unreachable ⟨false, false⟩ "transformer12-bert0-gpt" usage.training
      ⟨[]⟩).1 (by decide)).1,
   ((C19_subtype_abort_unreachable ⟨false, false⟩ "transformer12-bert0-gpt" usage.training
      ⟨[]⟩).2.2.1 (Or.inl (by decide))).1,
   ((C19_subtype_abort_unreachable ⟨false, false⟩ "transformer12-bert0-gpt" usage.training
      ⟨[]⟩).2.2.1 (Or.inl (by decide))).2 2 1 (le_refl 1),
   (C19_subtype_abort_unreachable ⟨false, false⟩ "transformer12-bert0-gpt" usage.training
      ⟨[]⟩).2.2.2⟩

/-! ### C20: the branches of `by_type` exclude each other -/

/-- Every word of a pattern starts with the character `Regex.first` gives. -/
theorem Regex.first_sound (r : Regex) :
    ∀ c w, r.first = some c → r.Matches w → w.head? = some c := by
  induction r with
  | eps => intro c w h; cases h
  | chr x =>
    intro c w h hm
    simp only [Regex.first, Option.some.injEq] at h
    subst h
    rw [(matches_chr _ _).mp hm]
    rfl
  | digit => intro c w h; cases h
  | seq a b iha _ =>
    intro c w h hm
    obtain ⟨u, v, hu, _, rfl⟩ := hm
    have := iha c u h hu
    cases u with
    | nil => cases this
    | cons x u => simpa using this
  | alt a b iha ihb =>
    intro c w h hm
    simp only [Regex.first] at h
    split at h
    · rename_i heq
      rcases hm with hm | hm
      · exact iha c w h hm
      · exact ihb c w (heq ▸ h) hm
    · cases h
  | opt a _ => intro c w h; cases h
  | plus a iha =>
    intro c w h hm
    obtain ⟨ws, hne, hall, rfl⟩ := hm
    cases ws with
    | nil => exact absurd rfl hne
    | cons u ws =>
      have := iha c u h (hall u (List.mem_cons_self _ _))
      cases u with
      | nil => cases this
      | cons x u => simpa using this
  | group i a iha =>
    intro c w h hm
    exact iha c w h hm

/-- Two tests that pass the check `Guard.separate` are passed by no common
token. -/
theorem Guard.separate_sound (g h : Guard) (hs : g.separate h = true) (type : String) :
    ¬ (g.holds type = true ∧ h.holds type = true) := by
  rintro ⟨hg, hh⟩
  cases g with
  | literal names en =>
    cases h with
    | literal names' en' =>
      simp only [Guard.holds, Bool.and_eq_true, decide_eq_true_eq] at hg hh
      simp only [Guard.separate, List.all_eq_true, Bool.not_eq_true', List.contains_eq_any_beq,
        List.any_eq_false, beq_iff_eq] at hs
      exact hs type hg.2 type hh.2 rfl
    | pattern rx =>
      simp only [Guard.holds, Bool.and_eq_true, decide_eq_true_eq] at hg hh
      simp only [Guard.separate, List.all_eq_true, Bool.not_eq_true'] at hs
      rw [hs type hg.2] at hh
      cases hh
  | pattern rx =>
    cases h with
    | literal names en =>
      simp only [Guard.holds, Bool.and_eq_true, decide_eq_true_eq] at hg hh
      simp only [Guard.separate, List.all_eq_true, Bool.not_eq_true'] at hs
      rw [hs type hh.2] at hg
      cases hg
    | pattern rx' =>
      simp only [Guard.holds] at hg hh
      simp only [Guard.separate] at hs
      split at hs
      · rename_i c c' h1 h2
        have e1 := Regex.first_sound rx c _ h1 ((regex_match_iff _ _).mp hg)
        have e2 := Regex.first_sound rx' c' _ h2 ((regex_match_iff _ _).mp hh)
        rw [e1] at e2
        simp only [Option.some.injEq] at e2
        simp [e2] at hs
      · cases hs

/-- The tests of the branches of `by_type` pass the check `Guard.separate`
pairwise, in every build. -/
theorem branches_separate (build : Build) (type : String) (use : usage) (options : Options) :
    ((branches build type use options).map Prod.fst).Pairwise
      fun g h => g.separate h = true := by
  have e : (branches build type use options).map Prod.fst =
      (branches build "" usage.training ⟨[]⟩).map Prod.fst := rfl
  rw [e]
  rcases build with ⟨a, b⟩
  cases a <;> cases b <;> decide

/-- No token passes the tests of two branches of `by_type`. -/
theorem branches_exclusive (build : Build) (type : String) (use : usage) (options : Options)
    (token : String) :
    (branches build type use options).Pairwise
      fun p q => ¬ (p.1.holds token = true ∧ q.1.holds token = true) := by
  have h := branches_separate build type use options
  rw [List.pairwise_map] at h
  exact h.imp fun hs => Guard.separate_sound _ _ hs token

/-- With tests that exclude each other, a branch whose test the token passes
is the one `dispatch` takes, wherever it stands in the list. -/
theorem dispatch_of_mem {α : Type} (type : String) (d : α) :
    ∀ (l : List (Guard × α)),
      l.Pairwise (fun p q => ¬ (p.1.holds type = true ∧ q.1.holds type = true)) →
      ∀ p ∈ l, p.1.holds type = true → dispatch type d l = p.2 := by
  intro l
  induction l with
  | nil => intro _ p hp; cases hp
  | cons q l ih =>
    intro hpw p hp hh
    rw [List.pairwise_cons] at hpw
    obtain ⟨g, a⟩ := q
    simp only [dispatch]
    rcases List.mem_cons.mp hp with rfl | hp'
    · simp [hh]
    · have : ¬ g.holds type = true := fun hg => hpw.1 p hp' ⟨hg, hh⟩
      rw [if_neg this]
      exact ih hpw.2 p hp' hh

/-- When the token passes no test, `dispatch` returns the default. -/
theorem dispatch_of_none {α : Type} (type : String) (d : α) :
    ∀ (l : List (Guard × α)), (∀ p ∈ l, ¬ p.1.holds type = true) → dispatch type d l = d := by
  intro l
  induction l with
  | nil => intro _; rfl
  | cons q l ih =>
    intro h
    obtain ⟨g, a⟩ := q
    simp only [dispatch]
    rw [if_neg (h (g, a) (List.mem_cons_self _ _))]
    exact ih fun p hp => h p (List.mem_cons_of_mem _ hp)

/-- With tests that exclude each other, the order of the branches does not
change what `dispatch` returns. -/
theorem dispatch_perm {α : Type} (type : String) (d : α) (l l' : List (Guard × α))
    (hperm : l'.Perm l)
    (hex : l.Pairwise fun p q => ¬ (p.1.holds type = true ∧ q.1.holds type = true)) :
    dispatch type d l' = dispatch type d l := by
  have hex' : l'.Pairwise fun p q => ¬ (p.1.holds type = true ∧ q.1.holds type = true) :=
    (hperm.pairwise_iff (fun {p q} h hqp => h ⟨hqp.2, hqp.1⟩)).mpr hex
  by_cases h : ∃ p ∈ l, p.1.holds type = true
  · obtain ⟨p, hp, hh⟩ := h
    rw [dispatch_of_mem type d l hex p hp hh,
      dispatch_of_mem type d l' hex' p (hperm.mem_iff.mpr hp) hh]
  · have hn : ∀ p ∈ l, ¬ p.1.holds type = true := fun p hp hh => h ⟨p, hp, hh⟩
    rw [dispatch_of_none type d l hn,
      dispatch_of_none type d l' fun p hp => hn p (hperm.mem_iff.mp hp)]

theorem rewriteAlias_not_core (type : String) (h : type ∉ coreBases) :
    rewriteAlias type ∉ coreBases := by
  simp only [rewriteAlias]
  split
  · decide
  · exact h

/-- `by_type` is the dispatch over its branches, in the order of the source,
on the token after the alias rewrite. -/
theorem by_type_eq_dispatch (build : Build) (type : String) (use : usage)
    (options : Options) :
    by_type build type use options =
      dispatch (rewriteAlias type) (.error (.UnknownModelType (rewriteAlias type)))
        (branches build (rewriteAlias type) use options) := by
  by_cases hcore : type ∈ coreBases
  · simp only [coreBases, List.mem_cons, List.mem_singleton, List.not_mem_nil, or_false]
      at hcore
    rcases hcore with rfl | rfl | rfl | rfl | rfl | rfl | rfl | rfl | rfl | rfl | rfl | rfl |
      rfl | rfl <;> rfl
  · rw [by_type_of_not_core build type use options hcore]
    have h := rewriteAlias_not_core type hcore
    generalize rewriteAlias type = token at h
    simp only [coreBases, List.mem_cons, List.mem_singleton, List.not_mem_nil, or_false,
      not_or] at h
    obtain ⟨h1, h2, h3, h4, h5, h6, h7, h8, h9, h10, h11, h12, h13, h14⟩ := h
    simp [branches, dispatch, Guard.holds, by_type_patterns, h1, h2, h3, h4, h5, h6, h7, h8,
      h9, h10, h11, h12, h13, h14, and_assoc]

/-- No literal base type of a build matches a composite pattern. -/
theorem literal_not_pattern (build : Build) :
    ∀ l ∈ literalBases build,
      regex_match l.data transformerRegex = false ∧
      regex_match l.data smtransformerRegex = false := by
  rcases build with ⟨a, b⟩
  cases a <;> cases b <;> decide

/-- The literal base types of a build are pairwise different. -/
theorem literalBases_nodup (build : Build) : (literalBases build).Nodup := by
  rcases build with ⟨a, b⟩
  cases a <;> cases b <;> decide

/-- No token matches both composite patterns. -/
theorem patterns_exclusive (type : String) :
    ¬ (regex_match type.data transformerRegex = true ∧
      regex_match type.data smtransformerRegex = true) :=
  Guard.separate_sound (.pattern transformerRegex) (.pattern smtransformerRegex)
    (by decide) type

/-- C20: the tests of `by_type` exclude each other.  No literal base type of a
build matches a composite pattern, the literal base types are pairwise
different, and no token matches both patterns; so no token passes the tests
of two branches, `by_type` is the dispatch over its branches on the token
after the alias rewrite, and testing the branches in any other order returns
the same result. -/
theorem C20_dispatch_exclusive (build : Build) (type : String) (use : usage)
    (options : Options) :
    (∀ l ∈ literalBases build,
      regex_match l.data transformerRegex = false ∧
      regex_match l.data smtransformerRegex = false) ∧
    (literalBases build).Nodup ∧
    ¬ (regex_match (rewriteAlias type).data transformerRegex = true ∧
      regex_match (rewriteAlias type).data smtransformerRegex = true) ∧
    (branches build (rewriteAlias type) use options).Pairwise
      (fun p q => ¬ (p.1.holds (rewriteAlias type) = true ∧
        q.1.holds (rewriteAlias type) = true)) ∧
    by_type build type use options =
      dispatch (rewriteAlias type) (.error (.UnknownModelType (rewriteAlias type)))
        (branches build (rewriteAlias type) use options) ∧
    ∀ reordered : List (Guard × Except Error ModelBase),
      reordered.Perm (branches build (rewriteAlias type) use options) →
      dispatch (rewriteAlias type) (.error (.UnknownModelType (rewriteAlias type))) reordered =
        by_type build type use options := by
  refine ⟨literal_not_pattern build, literalBases_nodup build, patterns_exclusive _,
    branches_exclusive build _ use options _, by_type_eq_dispatch build type use options, ?_⟩
  intro reordered hperm
  rw [by_type_eq_dispatch build type use options]
  exact dispatch_perm _ _ _ _ hperm (branches_exclusive build _ use options _)

/-- C20 at the alias: testing the branches in the reverse order returns what
`by_type` returns. -/
theorem C20_dispatch_exclusive_witness :
    dispatch "transformer12-bert0" (.error (.UnknownModelType "transformer12-bert0"))
        (branches ⟨true, true⟩ "transformer12-bert0" usage.training
          ⟨[("type", .str "transformer-bert-gpt")]⟩).reverse =
      by_type ⟨true, true⟩ "transformer-bert-gpt" usage.training
        ⟨[("type", .str "transformer-bert-gpt")]⟩ :=
  (C20_dispatch_exclusive ⟨true, true⟩ "transformer-bert-gpt" usage.training
    ⟨[("type", .str "transformer-bert-gpt")]⟩).2.2.2.2.2 _ (List.reverse_perm _)

/-! ### C21: elementwise clipping changes only out-of-range values -/

/-- For a threshold `c ≥ 0`, `Clip` sends the numbers from `c` upwards to `c`. -/
theorem Clip_of_le {K : Type} [LinearOrderedField K] (x c : K) (hc : 0 ≤ c)
    (h : c ≤ x) : Clip x c = c := by
  have h1 : -c ≤ c := by linarith
  simp [Clip, min_eq_left h, max_eq_right h1]

/-- `Clip` sends the numbers from `-c` downwards to `-c`. -/
theorem Clip_of_le_neg {K : Type} [LinearOrderedField K] (x c : K)
    (h : x ≤ -c) : Clip x c = -c := by
  have h1 : min c x ≤ -c := le_trans (min_le_right _ _) h
  simp [Clip, max_eq_left h1]

/-- `Clip` is monotone non-decreasing in its first argument. -/
theorem Clip_mono {K : Type} [LinearOrderedField K] (x y c : K) (h : x ≤ y) :
    Clip x c ≤ Clip y c :=
  max_le_max le_rfl (min_le_min le_rfl h)

/-- C21: for a threshold `c ≥ 0` and every tensor `t`, `Elementwise(c).clip`
leaves an element `x` with `-c < x < c` at its index unchanged, turns an
element `x ≥ c` into `c` and an element `x ≤ -c` into `-c`; it is monotone
non-decreasing for the elementwise order of tensors, and it is the identity on
a tensor whose elements all lie strictly between `-c` and `c`. -/
theorem C21_elementwise_clip_out_of_range {K : Type} [LinearOrderedField K] (c : K)
    (hc : 0 ≤ c) :
    (∀ (t : Tensor K) (i : Nat) (x : K), t[i]? = some x →
      (-c < x → x < c → ((Elementwise.mk c).clip t)[i]? = some x) ∧
      (c ≤ x → ((Elementwise.mk c).clip t)[i]? = some c) ∧
      (x ≤ -c → ((Elementwise.mk c).clip t)[i]? = some (-c))) ∧
    (∀ t u : Tensor K, List.Forall₂ (fun x y => x ≤ y) t u →
      List.Forall₂ (fun x y => x ≤ y) ((Elementwise.mk c).clip t)
        ((Elementwise.mk c).clip u)) ∧
    (∀ t : Tensor K, (∀ x ∈ t, -c < x ∧ x < c) → (Elementwise.mk c).clip t = t) := by
  refine ⟨?_, ?_, ?_⟩
  · intro t i x hx
    have key : ((Elementwise.mk c).clip t)[i]? = some (Clip x c) := by
      simp [Elementwise.clip, Element, hx]
    rw [key]
    refine ⟨fun h1 h2 => ?_, fun h => ?_, fun h => ?_⟩
    · rw [Clip_of_mem_interval x c h1.le h2.le]
    · rw [Clip_of_le x c hc h]
    · rw [Clip_of_le_neg x c h]
  · intro t u h
    simp only [Elementwise.clip, Element]
    induction h with
    | nil => exact List.Forall₂.nil
    | cons hxy _ ih => exact List.Forall₂.cons (Clip_mono _ _ c hxy) ih
  · intro t h
    simp only [Elementwise.clip, Element]
    conv_rhs => rw [← List.map_id t]
    apply List.map_congr_left
    intro x hx
    exact Clip_of_mem_interval x c (h x hx).1.le (h x hx).2.le

/-- C21 in the rationals, at the threshold 2: the tensor `[-5, 1, 2, 7/2]` has
its element 1 kept, its element 7/2 turned into 2 and its element -5 turned
into -2, and the tensor `[1, -1/2]` is left as it is. -/
theorem C21_elementwise_clip_out_of_range_witness :
    (0 : ℚ) ≤ 2 ∧
    ((Elementwise.mk (2 : ℚ)).clip [-5, 1, 2, 7 / 2])[1]? = some (1 : ℚ) ∧
    ((Elementwise.mk (2 : ℚ)).clip [-5, 1, 2, 7 / 2])[3]? = some (2 : ℚ) ∧
    ((Elementwise.mk (2 : ℚ)).clip [-5, 1, 2, 7 / 2])[0]? = some (-2 : ℚ) ∧
    (Elementwise.mk (2 : ℚ)).clip [1, -1 / 2] = [1, -1 / 2] :=
  ⟨by norm_num,
    ((C21_elementwise_clip_out_of_range (2 : ℚ) (by norm_num)).1
      [-5, 1, 2, 7 / 2] 1 1 rfl).1 (by norm_num) (by norm_num),
    ((C21_elementwise_clip_out_of_range (2 : ℚ) (by norm_num)).1
      [-5, 1, 2, 7 / 2] 3 (7 / 2) rfl).2.1 (by norm_num),
    ((C21_elementwise_clip_out_of_range (2 : ℚ) (by norm_num)).1
      [-5, 1, 2, 7 / 2] 0 (-5) rfl).2.2 (by norm_num),
    (C21_elementwise_clip_out_of_range (2 : ℚ) (by norm_num)).2.2 [1, -1 / 2]
      (by intro x hx; simp at hx; rcases hx with rfl | rfl <;> norm_num)⟩

end Marian
